import Mathlib

/-!
# VPPProcessor: buffer orchestration between decoder, enhancement stage and display

Shallow embedding of `libmedia_utils/VPP/VPPProcessor.cpp`.

* A `MediaBuffer*` is `Option Nat` (`none` is `NULL`); the objects live in `heap`.
* A `sp<GraphicBuffer>` is `Option Nat` (`none` is `NULL`).
* The two slot arrays `mInput` and `mOutput` are total maps from the index to the slot.
* The session counters and the load pointers are natural numbers.
* `MediaBuffer`, `MetaData` and `OMXCodec::BufferInfo` belong to the media framework; they
  are represented by the fields this file reads and writes.
* Functions that can dereference `NULL`, divide by zero, abort on `CHECK` or loop are
  `Except Fault`; the `while` loop of `updateRenderList` takes fuel.
-/

namespace VPP

/-- Status of a buffer slot (`VPPBuffer::mStatus`). -/
inductive VPPBufferStatus
  | VPP_BUFFER_FREE
  | VPP_BUFFER_LOADED
  | VPP_BUFFER_PROCESSING
  | VPP_BUFFER_READY
  | VPP_BUFFER_RENDERING
  | VPP_BUFFER_END_FLAG
  deriving DecidableEq, Repr

/-- Status codes returned by the processor. -/
inductive status_t
  | VPP_OK
  | VPP_FAIL
  | VPP_BUFFER_NOT_READY
  | ERROR_END_OF_STREAM
  deriving DecidableEq, Repr

/-- Owner recorded in `OMXCodec::BufferInfo::mStatus` (the values this file uses). -/
inductive BufferOwner
  | OWNED_BY_CLIENT
  | OWNED_BY_NATIVE_WINDOW
  | OWNED_BY_VPP
  deriving DecidableEq, Repr

/-- Observer registered on a `MediaBuffer` (`setObserver`). -/
inductive BufferObserver
  | null
  | vppProcessor
  | codec
  deriving DecidableEq, Repr

/-- Ways a call can end without returning. -/
inductive Fault
  | nullDeref
  | divByZero
  | checkFailed
  | outOfFuel
  deriving DecidableEq, Repr

open VPPBufferStatus status_t BufferOwner

/-- One slot of a ring (`struct VPPBuffer`). -/
structure VPPBuffer where
  mGraphicBuffer : Option Nat
  mTimeUs : Int
  mFlags : Nat
  mStatus : VPPBufferStatus
  deriving DecidableEq, Repr

/-- The parts of a framework `MediaBuffer` that the processor touches. -/
structure MediaBuffer where
  mRefCount : Int
  graphicBuffer : Option Nat
  kKeyTime : Option Int
  kKeyRendered : Option Int
  mObserver : BufferObserver
  deriving DecidableEq, Repr

/-- Entry of the decoder's buffer table (`OMXCodec::BufferInfo`). -/
structure BufferInfo where
  mMediaBuffer : Nat
  mStatus : BufferOwner
  mFlags : Nat
  deriving DecidableEq, Repr

/-- Flags of the processing thread read and written by the processor. -/
structure VPPProcThread where
  mError : Bool
  mSeek : Bool
  mEOS : Bool
  deriving DecidableEq, Repr

/-- Settings of the enhancement stage read by the processor. -/
structure VPPWorker where
  mFrcRate : Nat
  mNumForwardReferences : Nat
  deriving DecidableEq, Repr

/-- Modelled from the spec: the rate-conversion factor that means "no rate change"
(the enumerator `FRC_RATE_1X` is declared in a header that is not part of the sources;
the merge rule of the spec distinguishes factor == 1 from factor > 1). -/
def FRC_RATE_1X : Nat := 1

/-- State of a `VPPProcessor` together with the buffers it points to. -/
structure VPPProcessor where
  mInputBufferNum : Nat
  mOutputBufferNum : Nat
  mInputLoadPoint : Nat
  mOutputLoadPoint : Nat
  mLastRenderBuffer : Option Nat
  mBufferInfos : List BufferInfo
  mThreadRunning : Bool
  mEOS : Bool
  mTotalDecodedCount : Nat
  mInputCount : Nat
  mVPPProcCount : Nat
  mVPPRenderCount : Nat
  mVppOutputFps : Nat
  mInput : Nat → VPPBuffer
  mOutput : Nat → VPPBuffer
  mRenderList : List (Option Nat)
  mWorker : VPPWorker
  mProcThread : Option VPPProcThread
  heap : Nat → MediaBuffer

/-- Modelled from the spec: `VPPBuffer::resetBuffer` is declared in a header that is not part
of the sources. It binds the given handle and returns the slot to FREE; the timestamp becomes
unset and the flags are cleared. -/
def VPPBuffer.resetBuffer (_b : VPPBuffer) (buffer : Option Nat) : VPPBuffer :=
  { mGraphicBuffer := buffer, mTimeUs := -1, mFlags := 0, mStatus := VPP_BUFFER_FREE }

/-- The call `MediaBuffer::add_ref`, as its effect on the reference counter. -/
def add_ref (heap : Nat → MediaBuffer) (p : Nat) : Nat → MediaBuffer :=
  Function.update heap p { heap p with mRefCount := (heap p).mRefCount + 1 }

/-- The call `MediaBuffer::release`, as its effect on the reference counter. The call it
makes to the observer of the buffer when the counter reaches 0 is part of `releaseObserved`. -/
def release (heap : Nat → MediaBuffer) (p : Nat) : Nat → MediaBuffer :=
  Function.update heap p { heap p with mRefCount := (heap p).mRefCount - 1 }

/-- The statement `if (b->refcount() > 0) b->release();`. -/
def releaseIfHeld (heap : Nat → MediaBuffer) (p : Nat) : Nat → MediaBuffer :=
  if 0 < (heap p).mRefCount then release heap p else heap

/-- The call `buff->meta_data()->setInt64(kKeyTime, t)`. -/
def setKeyTime (heap : Nat → MediaBuffer) (p : Nat) (t : Int) : Nat → MediaBuffer :=
  Function.update heap p { heap p with kKeyTime := some t }

/-- Timestamp of a buffer, `-1` when the pointer is `NULL` or no time is recorded. -/
def getBufferTimestamp (s : VPPProcessor) (buff : Option Nat) : Int :=
  match buff with
  | none => -1
  | some p =>
    match (s.heap p).kKeyTime with
    | none => -1
    | some timeUs => timeUs

/-- Loop of `findBufferInfo`: index of the first entry whose buffer is `buff`. -/
def findBufferInfoFrom (buff : Option Nat) : List BufferInfo → Nat → Option Nat
  | [], _ => none
  | info :: rest, i =>
    if some info.mMediaBuffer = buff then some i else findBufferInfoFrom buff rest (i + 1)

/-- Index in `mBufferInfos` of the entry for `buff`, `none` for `NULL`. -/
def findBufferInfo (s : VPPProcessor) (buff : Option Nat) : Option Nat :=
  findBufferInfoFrom buff s.mBufferInfos 0

/-- Loop of `findMediaBuffer`: the first buffer whose graphic buffer is `g`. -/
def findMediaBufferIn (heap : Nat → MediaBuffer) (g : Option Nat) : List BufferInfo → Option Nat
  | [] => none
  | info :: rest =>
    if (heap info.mMediaBuffer).graphicBuffer = g then some info.mMediaBuffer
    else findMediaBufferIn heap g rest

/-- The `MediaBuffer` bound to a slot, `none` for `NULL`. -/
def findMediaBuffer (s : VPPProcessor) (buff : VPPBuffer) : Option Nat :=
  findMediaBufferIn s.heap buff.mGraphicBuffer s.mBufferInfos

/-- Read of `info->mFlags` for the entry at index `i`. -/
def infoFlags : List BufferInfo → Nat → Nat
  | [], _ => 0
  | info :: _, 0 => info.mFlags
  | _ :: rest, i + 1 => infoFlags rest i

/-- Read of `info->mStatus` for the entry at index `i`. -/
def infoStatus : List BufferInfo → Nat → Option BufferOwner
  | [], _ => none
  | info :: _, 0 => some info.mStatus
  | _ :: rest, i + 1 => infoStatus rest i

/-- Write of `info->mStatus = st` for the entry at index `i`. -/
def setInfoStatus : List BufferInfo → Nat → BufferOwner → List BufferInfo
  | [], _, _ => []
  | info :: rest, 0, st => { info with mStatus := st } :: rest
  | info :: rest, i + 1, st => info :: setInfoStatus rest i st

/-- Submit of a decoded buffer (`VPPProcessor::setDecoderBufferToVPP`). -/
def setDecoderBufferToVPP (s : VPPProcessor) (buff : Option Nat) :
    Except Fault (status_t × VPPProcessor) :=
  match buff with
  | none => .ok (VPP_FAIL, s)
  | some p =>
    let s1 := { s with
      mRenderList := s.mRenderList ++ [some p]
      mTotalDecodedCount := s.mTotalDecodedCount + 1 }
    if (s1.mInput s1.mInputLoadPoint).mStatus = VPP_BUFFER_FREE then
      let s2 := { s1 with heap := add_ref s1.heap p }
      match findBufferInfo s2 (some p) with
      | none => .ok (VPP_FAIL, s2)
      | some i =>
        let slot : VPPBuffer :=
          { mFlags := infoFlags s2.mBufferInfos i
            mGraphicBuffer := (s2.heap p).graphicBuffer
            mTimeUs := getBufferTimestamp s2 (some p)
            mStatus := VPP_BUFFER_LOADED }
        if s2.mInputBufferNum = 0 then .error Fault.divByZero
        else
          .ok (VPP_OK, { s2 with
            mInput := Function.update s2.mInput s2.mInputLoadPoint slot
            mInputLoadPoint := (s2.mInputLoadPoint + 1) % s2.mInputBufferNum
            mInputCount := s2.mInputCount + 1 })
    else .ok (VPP_FAIL, s1)

/-- Outcome of the scan over the render list in `updateRenderList`: either the function
returns `VPP_FAIL`, or the scan ends with the iterator at position `it` (the length of the
list is `end()`) and the last timestamp read in `timeRenderList`. -/
inductive ScanResult
  | fail
  | stop (it : Nat) (timeRenderList : Int)
  deriving DecidableEq, Repr

/-- The `for` loop of `updateRenderList` over the rest of the render list, the iterator
being at position `it`. -/
def scanRenderList (s : VPPProcessor) (timeBuffer : Int) :
    List (Option Nat) → Nat → Int → ScanResult
  | [], it, timeRenderList => .stop it timeRenderList
  | none :: _, it, timeRenderList => .stop it timeRenderList
  | some p :: rest, it, _ =>
    let timeRenderList := getBufferTimestamp s (some p)
    if timeRenderList = -1 then .fail
    else if (s.mWorker.mFrcRate > FRC_RATE_1X ∧ timeBuffer ≤ timeRenderList) ∨
        (s.mWorker.mFrcRate = FRC_RATE_1X ∧ timeBuffer = timeRenderList) then
      .stop it timeRenderList
    else scanRenderList s timeBuffer rest (it + 1) timeRenderList

/-- The statement that ends each round of the loop in `updateRenderList`:
`mOutputLoadPoint = (mOutputLoadPoint + 1) % mOutputBufferNum`. -/
def advanceOutput (s : VPPProcessor) : Except Fault (Option status_t × VPPProcessor) :=
  if s.mOutputBufferNum = 0 then .error Fault.divByZero
  else .ok (none, { s with mOutputLoadPoint := (s.mOutputLoadPoint + 1) % s.mOutputBufferNum })

/-- The `if` chain of `updateRenderList` that follows the scan, the iterator being at
position `it` and `timeRenderList` holding the last timestamp read; the round ends with the
advance of the output load pointer. The state is the one after the timestamp of the slot was
written to `buff`. -/
def updateRenderListPlace (s1 : VPPProcessor) (buff : Nat) (timeBuffer : Int) (it : Nat)
    (timeRenderList : Int) : Except Fault (Option status_t × VPPProcessor) :=
  if s1.mRenderList = [] ∨ it = s1.mRenderList.length ∨
      (it = 0 ∧ timeBuffer < timeRenderList) then
    advanceOutput { s1 with heap := releaseIfHeld s1.heap buff }
  else if timeBuffer = timeRenderList then
    match s1.mRenderList.getD it none with
    | none => .error Fault.nullDeref
    | some renderBuff =>
      advanceOutput { s1 with
        heap := releaseIfHeld s1.heap renderBuff
        mRenderList := s1.mRenderList.set it (some buff)
        mOutput := Function.update s1.mOutput s1.mOutputLoadPoint
          { s1.mOutput s1.mOutputLoadPoint with mStatus := VPP_BUFFER_RENDERING }
        mVPPProcCount := s1.mVPPProcCount + 1
        mVPPRenderCount := s1.mVPPRenderCount + 1 }
  else if timeBuffer < timeRenderList then
    advanceOutput { s1 with
      mVPPRenderCount := s1.mVPPRenderCount + 1
      mRenderList := s1.mRenderList.take it ++ some buff :: s1.mRenderList.drop it
      mOutput := Function.update s1.mOutput s1.mOutputLoadPoint
        { s1.mOutput s1.mOutputLoadPoint with mStatus := VPP_BUFFER_RENDERING } }
  else
    advanceOutput { s1 with heap := releaseIfHeld s1.heap buff }

/-- The state after `buff->meta_data()->setInt64(kKeyTime, timeBuffer)`. -/
def stampBuffer (s : VPPProcessor) (buff : Nat) (timeBuffer : Int) : VPPProcessor :=
  { s with heap := setKeyTime s.heap buff timeBuffer }

/-- One round of the `while` loop of `updateRenderList`, entered with the slot at the output
load pointer READY. The result `some r` means the function returns `r`; `none` means the
loop goes on. -/
def updateRenderListBody (s : VPPProcessor) : Except Fault (Option status_t × VPPProcessor) :=
  match findMediaBuffer s (s.mOutput s.mOutputLoadPoint) with
  | none => .ok (some VPP_FAIL, s)
  | some buff =>
    let timeBuffer := (s.mOutput s.mOutputLoadPoint).mTimeUs
    if timeBuffer = -1 then .ok (some VPP_FAIL, s)
    else
      let s1 := stampBuffer s buff timeBuffer
      match scanRenderList s1 timeBuffer s1.mRenderList 0 0 with
      | .fail => .ok (some VPP_FAIL, s1)
      | .stop it timeRenderList => updateRenderListPlace s1 buff timeBuffer it timeRenderList

/-- Merge pass (`VPPProcessor::updateRenderList`); `fuel` bounds the number of times the
loop condition is evaluated. -/
def updateRenderList : Nat → VPPProcessor → Except Fault (status_t × VPPProcessor)
  | 0, _ => .error Fault.outOfFuel
  | fuel + 1, s =>
    if (s.mOutput s.mOutputLoadPoint).mStatus = VPP_BUFFER_READY then
      match updateRenderListBody s with
      | .error f => .error f
      | .ok (some r, s1) => .ok (r, s1)
      | .ok (none, s1) => updateRenderList fuel s1
    else .ok (VPP_OK, s)

/-- Body of the loop of `clearInput` for slot `i`. -/
def clearInputSlot (s : VPPProcessor) (i : Nat) : VPPProcessor :=
  if (s.mInput i).mStatus = VPP_BUFFER_READY then
    let heap1 :=
      match findMediaBuffer s (s.mInput i) with
      | none => s.heap
      | some mediaBuffer => releaseIfHeld s.heap mediaBuffer
    { s with
      heap := heap1
      mInput := Function.update s.mInput i ((s.mInput i).resetBuffer none) }
  else s

/-- Input cleanup (`VPPProcessor::clearInput`); it always returns `VPP_OK`. -/
def clearInput (s : VPPProcessor) : VPPProcessor :=
  (List.range s.mInputBufferNum).foldl clearInputSlot s

/-- Body of the first loop of `flush` for input slot `i`. -/
def flushInputSlot (s : VPPProcessor) (i : Nat) : VPPProcessor :=
  if (s.mInput i).mStatus ≠ VPP_BUFFER_FREE then
    let heap1 :=
      match findMediaBuffer s (s.mInput i) with
      | none => s.heap
      | some mediaBuffer => releaseIfHeld s.heap mediaBuffer
    { s with
      heap := heap1
      mInput := Function.update s.mInput i ((s.mInput i).resetBuffer none) }
  else s

/-- Body of the second loop of `flush` for output slot `i`. -/
def flushOutputSlot (s : VPPProcessor) (i : Nat) : VPPProcessor :=
  if (s.mOutput i).mStatus ≠ VPP_BUFFER_FREE then
    match findMediaBuffer s (s.mOutput i) with
    | none => s
    | some mediaBuffer =>
      if 0 < (s.heap mediaBuffer).mRefCount then
        match findBufferInfo s (some mediaBuffer) with
        | none => s
        | some info =>
          if infoStatus s.mBufferInfos info ≠ some OWNED_BY_CLIENT then
            { s with heap := release s.heap mediaBuffer }
          else s
      else s
  else s

/-- Release loop of `flush` over the render list; it stops at the first `NULL` entry. -/
def flushRenderEntries (heap : Nat → MediaBuffer) : List (Option Nat) → Nat → MediaBuffer
  | [] => heap
  | none :: _ => heap
  | some renderBuffer :: rest => flushRenderEntries (releaseIfHeld heap renderBuffer) rest

/-- The method `VPPProcessor::flush`. -/
def flush (s : VPPProcessor) : VPPProcessor :=
  let s1 := (List.range s.mInputBufferNum).foldl flushInputSlot s
  let s2 := (List.range s1.mOutputBufferNum).foldl flushOutputSlot s1
  { s2 with
    heap := flushRenderEntries s2.heap s2.mRenderList
    mRenderList := []
    mInputLoadPoint := 0
    mOutputLoadPoint := 0 }

/-- The method `VPPProcessor::quitThread`. -/
def quitThread (s : VPPProcessor) : Except Fault VPPProcessor :=
  if s.mThreadRunning then
    match s.mProcThread with
    | none => .error Fault.nullDeref
    | some _ => .ok { s with mProcThread := none }
  else .ok s

/-- The method `VPPProcessor::createThread`. Modelled from the spec: the class
`VPPProcThread` is not part of the sources; a newly started Worker has reported no error and
has no seek or end-of-stream request pending. -/
def createThread (s : VPPProcessor) : status_t × VPPProcessor :=
  (VPP_OK, { s with
    mProcThread := some { mError := false, mSeek := false, mEOS := false }
    mThreadRunning := true })

/-- The method `VPPProcessor::reset`; `workerResetOk` is the answer of the enhancement stage
to `mWorker->reset()`. -/
def reset (workerResetOk : Bool) (s : VPPProcessor) : Except Fault (status_t × VPPProcessor) :=
  match quitThread s with
  | .error f => .error f
  | .ok s1 =>
    let s2 := flush s1
    if !workerResetOk then .ok (VPP_FAIL, s2)
    else .ok (createThread s2)

/-- The part of `read` after the error check. The argument `buffer` is the content of
`*buffer` before the call; the result carries its content after the call. -/
def readList (s : VPPProcessor) (buffer : Option Nat) : status_t × Option Nat × VPPProcessor :=
  match s.mRenderList with
  | [] =>
    if !s.mEOS then (VPP_BUFFER_NOT_READY, buffer, s)
    else (ERROR_END_OF_STREAM, none, { s with mEOS := false })
  | head :: rest =>
    let s1 := { s with mLastRenderBuffer := head, mRenderList := rest }
    match findBufferInfo s1 head with
    | none => (VPP_FAIL, head, s1)
    | some info =>
      (VPP_OK, head, { s1 with mBufferInfos := setInfoStatus s1.mBufferInfos info OWNED_BY_CLIENT })

/-- Fetch of the next buffer to render (`VPPProcessor::read`). -/
def read (workerResetOk : Bool) (s : VPPProcessor) (buffer : Option Nat) :
    Except Fault (status_t × Option Nat × VPPProcessor) :=
  match s.mProcThread with
  | none => .error Fault.nullDeref
  | some procThread =>
    if procThread.mError then
      match reset workerResetOk s with
      | .error f => .error f
      | .ok (r, s1) =>
        if r ≠ VPP_OK then .ok (VPP_FAIL, buffer, s1)
        else .ok (readList s1 buffer)
    else .ok (readList s buffer)

/-- The method `VPPProcessor::setEOS`. -/
def setEOS (s : VPPProcessor) : Except Fault VPPProcessor :=
  match s.mProcThread with
  | none => .error Fault.nullDeref
  | some procThread =>
    .ok { s with mEOS := true, mProcThread := some { procThread with mEOS := true } }

/-- The backpressure query `VPPProcessor::canSetDecoderBufferToVPP`; `fuel` is the fuel of
the merge pass it runs. -/
def canSetDecoderBufferToVPP (fuel : Nat) (s : VPPProcessor) :
    Except Fault (Bool × VPPProcessor) :=
  if !s.mThreadRunning then .ok (true, s)
  else
    match updateRenderList fuel s with
    | .error f => .error f
    | .ok (r, s1) =>
      if r ≠ VPP_OK then .error Fault.checkFailed
      else
        match s1.mProcThread with
        | none => .error Fault.nullDeref
        | some _ =>
          let s2 := clearInput s1
          if !s2.mEOS ∧ (s2.mRenderList = [] ∨
              (s2.mInput s2.mInputLoadPoint).mStatus = VPP_BUFFER_FREE) then
            .ok (true, s2)
          else .ok (false, s2)

/-- The argument of `validateVideoInfo` (`struct VPPVideoInfo`). -/
structure VPPVideoInfo where
  width : Nat
  height : Nat
  fps : Nat
  deriving DecidableEq, Repr

/-- Number of values of a `uint32_t`: the arithmetic on the capacity and rate fields wraps
around at it. -/
def UINT32_RANGE : Nat := 4294967296

/-- Configuration (`VPPProcessor::validateVideoInfo`). The constants
`VPPBuffer::MAX_VPP_BUFFER_NUMBER` and `FRC_RATE_2_5X` are declared in headers that are not
part of the sources and are parameters here. The argument `configured` is the answer of the
enhancement stage to `mWorker->configFilters(...)`: `none` when it refuses, and otherwise the
settings it derived. The fields `mInputBufferNum`, `mOutputBufferNum` and `mVppOutputFps` are
taken as `uint32_t` (the loops over the rings count in `uint32_t` and `getVppOutputFps`
returns `uint32_t`; the declarations are in a header that is not part of the sources), so the
sums and products wrap around at `UINT32_RANGE`. -/
def validateVideoInfo (MAX_VPP_BUFFER_NUMBER FRC_RATE_2_5X : Nat) (configured : Option VPPWorker)
    (s : VPPProcessor) (videoInfo : Option VPPVideoInfo) : status_t × VPPProcessor :=
  match videoInfo with
  | none => (VPP_FAIL, s)
  | some info =>
    match configured with
    | none => (VPP_FAIL, s)
    | some worker =>
      let s1 := { s with
        mWorker := worker
        mInputBufferNum := (worker.mNumForwardReferences + 3) % UINT32_RANGE
        mOutputBufferNum :=
          (1 + (worker.mNumForwardReferences + 2) * worker.mFrcRate) % UINT32_RANGE }
      if s1.mInputBufferNum > MAX_VPP_BUFFER_NUMBER ∨
          s1.mOutputBufferNum > MAX_VPP_BUFFER_NUMBER then
        (VPP_FAIL, s1)
      else if s1.mWorker.mFrcRate = FRC_RATE_2_5X then
        (VPP_OK, { s1 with mVppOutputFps := (info.fps * 5) % UINT32_RANGE / 2 })
      else
        (VPP_OK, { s1 with
          mVppOutputFps := (info.fps * s1.mWorker.mFrcRate) % UINT32_RANGE })

/-- The guard on the buffer numbers in `VPPProcessor::init`, for a buffer table of `size`
entries; `true` means that `init` returns `VPP_FAIL` there. -/
def initBufferNumberInvalid (MAX_VPP_BUFFER_NUMBER : Nat) (s : VPPProcessor) (size : Nat) :
    Bool :=
  decide (s.mInputBufferNum = 0 ∨ s.mOutputBufferNum = 0
    ∨ size ≤ s.mInputBufferNum + s.mOutputBufferNum
    ∨ s.mInputBufferNum > MAX_VPP_BUFFER_NUMBER
    ∨ s.mOutputBufferNum > MAX_VPP_BUFFER_NUMBER)

/-- Body of the first loop of `hasProcessingBuffer` for input slot `i`; the flag is
`hasProcBuffer`. -/
def hasProcessingInputSlot (acc : Bool × VPPProcessor) (i : Nat) : Bool × VPPProcessor :=
  let hasProcBuffer :=
    if (acc.2.mInput i).mStatus = VPP_BUFFER_PROCESSING then true else acc.1
  if (acc.2.mInput i).mStatus ≠ VPP_BUFFER_PROCESSING ∧
      (acc.2.mInput i).mStatus ≠ VPP_BUFFER_FREE then
    let heap1 :=
      match findMediaBuffer acc.2 (acc.2.mInput i) with
      | none => acc.2.heap
      | some mediaBuffer => releaseIfHeld acc.2.heap mediaBuffer
    (hasProcBuffer, { acc.2 with
      heap := heap1
      mInput := Function.update acc.2.mInput i ((acc.2.mInput i).resetBuffer none) })
  else (hasProcBuffer, acc.2)

/-- The release of the buffer of an output slot, as written in `flush`,
`hasProcessingBuffer` and `releaseBuffers`: the buffer is released when it still holds a
reference and its table entry exists and is not owned by the client. -/
def releaseOutputSlot (s : VPPProcessor) (i : Nat) : VPPProcessor :=
  match findMediaBuffer s (s.mOutput i) with
  | none => s
  | some mediaBuffer =>
    if 0 < (s.heap mediaBuffer).mRefCount then
      match findBufferInfo s (some mediaBuffer) with
      | none => s
      | some info =>
        if infoStatus s.mBufferInfos info ≠ some OWNED_BY_CLIENT then
          { s with heap := release s.heap mediaBuffer }
        else s
    else s

/-- Body of the second loop of `hasProcessingBuffer` for output slot `i`. -/
def hasProcessingOutputSlot (s : VPPProcessor) (i : Nat) : VPPProcessor :=
  if (s.mOutput i).mStatus ≠ VPP_BUFFER_PROCESSING ∧
      (s.mOutput i).mStatus ≠ VPP_BUFFER_FREE ∧
      (s.mOutput i).mStatus ≠ VPP_BUFFER_END_FLAG then
    releaseOutputSlot s i
  else s

/-- The method `VPPProcessor::hasProcessingBuffer`: it tells whether an input slot is
PROCESSING, and on the way releases and frees the other occupied input slots, releases the
buffers of the occupied output slots and resets both load pointers. -/
def hasProcessingBuffer (s : VPPProcessor) : Bool × VPPProcessor :=
  let r1 := (List.range s.mInputBufferNum).foldl hasProcessingInputSlot (false, s)
  let s2 := (List.range r1.2.mOutputBufferNum).foldl hasProcessingOutputSlot r1.2
  (r1.1, { s2 with mInputLoadPoint := 0, mOutputLoadPoint := 0 })

/-- The method `VPPProcessor::seek`. When an input slot is PROCESSING the caller sets the
seek flag and waits for the Worker; `afterDrain` gives the state in which the wait ends
(the Worker is not part of the sources), and `flush` follows. -/
def seek (afterDrain : VPPProcessor → VPPProcessor) (s : VPPProcessor) :
    Except Fault VPPProcessor :=
  if s.mThreadRunning then
    match s.mProcThread with
    | none => .error Fault.nullDeref
    | some procThread =>
      let r := hasProcessingBuffer s
      if !r.1 then .ok r.2
      else
        .ok (flush (afterDrain { r.2 with mProcThread := some { procThread with mSeek := true } }))
  else .ok s

/-- Body of the first loop of `releaseBuffers` for input slot `i`. -/
def releaseInputSlot (s : VPPProcessor) (i : Nat) : VPPProcessor :=
  let heap1 :=
    match findMediaBuffer s (s.mInput i) with
    | none => s.heap
    | some mediaBuffer => releaseIfHeld s.heap mediaBuffer
  { s with
    heap := heap1
    mInput := Function.update s.mInput i ((s.mInput i).resetBuffer none) }

/-- The method `VPPProcessor::releaseBuffers`. -/
def releaseBuffers (s : VPPProcessor) : VPPProcessor :=
  let s1 := (List.range s.mInputBufferNum).foldl releaseInputSlot s
  let s2 := (List.range s1.mOutputBufferNum).foldl releaseOutputSlot s1
  { s2 with
    mInputLoadPoint := 0
    mOutputLoadPoint := 0
    heap := flushRenderEntries s2.heap s2.mRenderList
    mRenderList := [] }

/-- Teardown (`VPPProcessor::~VPPProcessor`): the thread is stopped and the buffers are
released. -/
def teardown (s : VPPProcessor) : Except Fault VPPProcessor :=
  match quitThread s with
  | .error f => .error f
  | .ok s1 => .ok (releaseBuffers { s1 with mThreadRunning := false })

/-- The call `metaData->setInt32(kKeyRendered, v)`. -/
def setKeyRendered (heap : Nat → MediaBuffer) (p : Nat) (v : Int) : Nat → MediaBuffer :=
  Function.update heap p { heap p with kKeyRendered := some v }

/-- The call `buff->setObserver(o)`. -/
def setObserver (heap : Nat → MediaBuffer) (p : Nat) (o : BufferObserver) : Nat → MediaBuffer :=
  Function.update heap p { heap p with mObserver := o }

/-- Search loop of `dequeueBufferFromNativeWindow`: index and buffer of the first table entry
whose graphic buffer has the handle `h` (a graphic buffer is identified with its handle). -/
def findInfoByHandle (heap : Nat → MediaBuffer) (h : Nat) :
    List BufferInfo → Nat → Except Fault (Option (Nat × Nat))
  | [], _ => .ok none
  | info :: rest, i =>
    match (heap info.mMediaBuffer).graphicBuffer with
    | none => .error Fault.nullDeref
    | some g =>
      if g = h then .ok (some (i, info.mMediaBuffer))
      else findInfoByHandle heap h rest (i + 1)

/-- The method `VPPProcessor::dequeueBufferFromNativeWindow`. The list `window` holds the
answers of the display surface to the successive dequeue calls: `none` is an error, `some h`
a buffer with handle `h`; when the list is used up the call blocks. The variable `info`
keeps its value from one round of the loop to the next, as in the source. -/
def dequeueBufferFromNativeWindow :
    List (Option Nat) → Option (Nat × Nat) → VPPProcessor → Except Fault (Option Nat × VPPProcessor)
  | [], _, _ => .error Fault.outOfFuel
  | none :: _, _, s => .ok (none, s)
  | some h :: rest, info, s =>
    match findInfoByHandle s.heap h s.mBufferInfos 0 with
    | .error f => .error f
    | .ok found =>
      let info1 := match found with
        | some e => some e
        | none => info
      match info1 with
      | none => .ok (none, s)
      | some (i, mediaBuffer) =>
        let s1 := { s with heap := setKeyRendered s.heap mediaBuffer 0 }
        if infoStatus s1.mBufferInfos i = some OWNED_BY_CLIENT then
          dequeueBufferFromNativeWindow rest (some (i, mediaBuffer)) s1
        else if infoStatus s1.mBufferInfos i ≠ some OWNED_BY_NATIVE_WINDOW then
          .error Fault.checkFailed
        else
          .ok (some mediaBuffer, { s1 with
            heap := setObserver (add_ref s1.heap mediaBuffer) mediaBuffer
              BufferObserver.vppProcessor
            mBufferInfos := setInfoStatus s1.mBufferInfos i OWNED_BY_VPP })

/-- The method `VPPProcessor::cancelBufferToNativeWindow`; `cancelOk` tells whether the
display surface accepted the buffer. -/
def cancelBufferToNativeWindow (cancelOk : Bool) (s : VPPProcessor) (p : Nat) :
    status_t × VPPProcessor :=
  if !cancelOk then (VPP_FAIL, s)
  else
    match findBufferInfo s (some p) with
    | none => (VPP_FAIL, s)
    | some info =>
      if infoStatus s.mBufferInfos info ≠ some OWNED_BY_VPP ∧
          infoStatus s.mBufferInfos info ≠ some OWNED_BY_CLIENT then
        (VPP_FAIL, s)
      else
        (VPP_OK, { s with
          mBufferInfos := setInfoStatus s.mBufferInfos info OWNED_BY_NATIVE_WINDOW
          heap := setObserver s.heap p BufferObserver.null })

/-- First output slot below the capacity that is bound to graphic buffer `g`. -/
def findOutputSlot (s : VPPProcessor) (g : Option Nat) : Option Nat :=
  (List.range s.mOutputBufferNum).find? fun i => decide ((s.mOutput i).mGraphicBuffer = g)

/-- The loop that ends each branch of `signalBufferReturned`: the first output slot bound to
the graphic buffer of `p` is reset and bound to `g i`. -/
def resetOutputSlotOf (s : VPPProcessor) (p : Nat) (g : Nat → Option Nat) : VPPProcessor :=
  match findOutputSlot s (s.heap p).graphicBuffer with
  | none => s
  | some i =>
    { s with mOutput := Function.update s.mOutput i ((s.mOutput i).resetBuffer (g i)) }

/-- The method `VPPProcessor::signalBufferReturned`. -/
def signalBufferReturned (window : List (Option Nat)) (cancelOk : Bool) (s : VPPProcessor)
    (buff : Option Nat) : Except Fault VPPProcessor :=
  match buff with
  | none => .ok s
  | some p =>
    let rendered : Int :=
      match (s.heap p).kKeyRendered with
      | none => 0
      | some r => r
    match findBufferInfo s (some p) with
    | none => .ok s
    | some info =>
      if s.mThreadRunning then
        if infoStatus s.mBufferInfos info = some OWNED_BY_CLIENT ∧ rendered ≠ 0 then
          let s1 := { s with
            heap := setObserver (setKeyRendered s.heap p 0) p BufferObserver.null
            mBufferInfos := setInfoStatus s.mBufferInfos info OWNED_BY_NATIVE_WINDOW }
          match dequeueBufferFromNativeWindow window none s1 with
          | .error f => .error f
          | .ok (none, s2) => .ok s2
          | .ok (some mediaBuffer, s2) =>
            .ok (resetOutputSlotOf s2 p fun _ => (s2.heap mediaBuffer).graphicBuffer)
        else
          let s1 := { s with
            heap := add_ref s.heap p
            mBufferInfos := setInfoStatus s.mBufferInfos info OWNED_BY_VPP }
          .ok (resetOutputSlotOf s1 p fun i => (s1.mOutput i).mGraphicBuffer)
      else
        let r :=
          if ¬ (infoStatus s.mBufferInfos info = some OWNED_BY_CLIENT ∧ rendered ≠ 0) then
            cancelBufferToNativeWindow cancelOk s p
          else (VPP_OK, s)
        if r.1 ≠ VPP_OK then .ok r.2
        else
          let s1 := { r.2 with
            heap := setObserver r.2.heap p BufferObserver.null
            mBufferInfos := setInfoStatus r.2.mBufferInfos info OWNED_BY_NATIVE_WINDOW }
          .ok (resetOutputSlotOf s1 p fun _ => none)

/-- The operations of the orchestrator, with what their collaborators answer. -/
inductive Op
  | submit (buff : Option Nat)
  | merge (fuel : Nat)
  | cleanup
  | fetch (workerResetOk : Bool) (buffer : Option Nat)
  | signalReturn (window : List (Option Nat)) (cancelOk : Bool) (buff : Option Nat)
  | flush
  | drainCheck
  | teardown

/-- The state after one operation. -/
def step (op : Op) (s : VPPProcessor) : Except Fault VPPProcessor :=
  match op with
  | .submit buff => (setDecoderBufferToVPP s buff).map fun r => r.2
  | .merge fuel => (updateRenderList fuel s).map fun r => r.2
  | .cleanup => .ok (clearInput s)
  | .fetch workerResetOk buffer => (read workerResetOk s buffer).map fun r => r.2.2
  | .signalReturn window cancelOk buff => signalBufferReturned window cancelOk s buff
  | .flush => .ok (flush s)
  | .drainCheck => .ok (hasProcessingBuffer s).2
  | .teardown => teardown s

/-- The state after a sequence of operations. -/
def run : List Op → VPPProcessor → Except Fault VPPProcessor
  | [], s => .ok s
  | op :: rest, s =>
    match step op s with
    | .error f => .error f
    | .ok s1 => run rest s1

/-- The four branches of the `if` chain that follows the scan in `updateRenderList`:
"1. vpp output comes too late", "2." (same timestamp), "3." (x.5 frame) and the final `else`
("SHOULD NOT BE HERE"). -/
inductive MergeBranch
  | tooLate
  | exactMatch
  | earlier
  | fallback
  deriving DecidableEq, Repr

/-- The branch of the `if` chain of `updateRenderList` that is taken, the iterator being at
position `it` and `timeRenderList` holding the last timestamp read: the conditions are those
of `updateRenderListPlace`. -/
def updateRenderListBranch (s1 : VPPProcessor) (timeBuffer : Int) (it : Nat)
    (timeRenderList : Int) : MergeBranch :=
  if s1.mRenderList = [] ∨ it = s1.mRenderList.length ∨
      (it = 0 ∧ timeBuffer < timeRenderList) then
    MergeBranch.tooLate
  else if timeBuffer = timeRenderList then MergeBranch.exactMatch
  else if timeBuffer < timeRenderList then MergeBranch.earlier
  else MergeBranch.fallback

/-- The branch of the `if` chain taken by one round of the loop of `updateRenderList`; `none`
when the round returns `VPP_FAIL` before it reaches the chain. -/
def updateRenderListBodyBranch (s : VPPProcessor) : Option MergeBranch :=
  match findMediaBuffer s (s.mOutput s.mOutputLoadPoint) with
  | none => none
  | some buff =>
    let timeBuffer := (s.mOutput s.mOutputLoadPoint).mTimeUs
    if timeBuffer = -1 then none
    else
      let s1 := stampBuffer s buff timeBuffer
      match scanRenderList s1 timeBuffer s1.mRenderList 0 0 with
      | .fail => none
      | .stop it timeRenderList => some (updateRenderListBranch s1 timeBuffer it timeRenderList)

/-- The method `MediaBuffer::release` together with the call it makes to the observer. The
class `MediaBuffer` belongs to the media framework and is not part of the sources; the body
follows the framework: without an observer the count has to be 0 and the buffer is deleted;
otherwise the count goes down by one (it has to be positive), and when it was 1 the
observer's `signalBufferReturned` is called. The processor registers itself as the observer
of every buffer it dequeues (`setObserver(this)` in `dequeueBufferFromNativeWindow`), so for
those buffers the call enters `VPPProcessor::signalBufferReturned`; `window` and `cancelOk`
are the answers of the display surface during that call. The callback of the decoder
(`OMXCodec::signalBufferReturned`) acts on the decoder's side, outside the sources, and is
left out. -/
def releaseObserved (window : List (Option Nat)) (cancelOk : Bool) (s : VPPProcessor)
    (p : Nat) : Except Fault VPPProcessor :=
  match (s.heap p).mObserver with
  | BufferObserver.null =>
    if (s.heap p).mRefCount = 0 then .ok s else .error Fault.checkFailed
  | BufferObserver.codec =>
    if 0 < (s.heap p).mRefCount then .ok { s with heap := release s.heap p }
    else .error Fault.checkFailed
  | BufferObserver.vppProcessor =>
    if (s.heap p).mRefCount = 1 then
      signalBufferReturned window cancelOk { s with heap := release s.heap p } (some p)
    else if 0 < (s.heap p).mRefCount then .ok { s with heap := release s.heap p }
    else .error Fault.checkFailed

/-- The statement `if (b->refcount() > 0) b->release();`, the release with its observer
call. -/
def releaseIfHeldObserved (window : List (Option Nat)) (cancelOk : Bool) (s : VPPProcessor)
    (p : Nat) : Except Fault VPPProcessor :=
  if 0 < (s.heap p).mRefCount then releaseObserved window cancelOk s p else .ok s

/-- The `if` chain of `updateRenderList` that follows the scan, as `updateRenderListPlace`,
with the observer call of every release. -/
def updateRenderListPlaceObserved (window : List (Option Nat)) (cancelOk : Bool)
    (s1 : VPPProcessor) (buff : Nat) (timeBuffer : Int) (it : Nat) (timeRenderList : Int) :
    Except Fault (Option status_t × VPPProcessor) :=
  if s1.mRenderList = [] ∨ it = s1.mRenderList.length ∨
      (it = 0 ∧ timeBuffer < timeRenderList) then
    match releaseIfHeldObserved window cancelOk s1 buff with
    | .error f => .error f
    | .ok s2 => advanceOutput s2
  else if timeBuffer = timeRenderList then
    match s1.mRenderList.getD it none with
    | none => .error Fault.nullDeref
    | some renderBuff =>
      match releaseIfHeldObserved window cancelOk s1 renderBuff with
      | .error f => .error f
      | .ok s2 =>
        advanceOutput { s2 with
          mRenderList := s2.mRenderList.set it (some buff)
          mOutput := Function.update s2.mOutput s2.mOutputLoadPoint
            { s2.mOutput s2.mOutputLoadPoint with mStatus := VPP_BUFFER_RENDERING }
          mVPPProcCount := s2.mVPPProcCount + 1
          mVPPRenderCount := s2.mVPPRenderCount + 1 }
  else if timeBuffer < timeRenderList then
    advanceOutput { s1 with
      mVPPRenderCount := s1.mVPPRenderCount + 1
      mRenderList := s1.mRenderList.take it ++ some buff :: s1.mRenderList.drop it
      mOutput := Function.update s1.mOutput s1.mOutputLoadPoint
        { s1.mOutput s1.mOutputLoadPoint with mStatus := VPP_BUFFER_RENDERING } }
  else
    match releaseIfHeldObserved window cancelOk s1 buff with
    | .error f => .error f
    | .ok s2 => advanceOutput s2

/-- One round of the `while` loop of `updateRenderList`, as `updateRenderListBody`, with the
observer call of every release. -/
def updateRenderListBodyObserved (window : List (Option Nat)) (cancelOk : Bool)
    (s : VPPProcessor) : Except Fault (Option status_t × VPPProcessor) :=
  match findMediaBuffer s (s.mOutput s.mOutputLoadPoint) with
  | none => .ok (some VPP_FAIL, s)
  | some buff =>
    let timeBuffer := (s.mOutput s.mOutputLoadPoint).mTimeUs
    if timeBuffer = -1 then .ok (some VPP_FAIL, s)
    else
      let s1 := stampBuffer s buff timeBuffer
      match scanRenderList s1 timeBuffer s1.mRenderList 0 0 with
      | .fail => .ok (some VPP_FAIL, s1)
      | .stop it timeRenderList =>
        updateRenderListPlaceObserved window cancelOk s1 buff timeBuffer it timeRenderList

/-- Merge pass (`VPPProcessor::updateRenderList`) with the observer call of every release;
`fuel` bounds the number of times the loop condition is evaluated. -/
def updateRenderListObserved (window : List (Option Nat)) (cancelOk : Bool) :
    Nat → VPPProcessor → Except Fault (status_t × VPPProcessor)
  | 0, _ => .error Fault.outOfFuel
  | fuel + 1, s =>
    if (s.mOutput s.mOutputLoadPoint).mStatus = VPP_BUFFER_READY then
      match updateRenderListBodyObserved window cancelOk s with
      | .error f => .error f
      | .ok (some r, s1) => .ok (r, s1)
      | .ok (none, s1) => updateRenderListObserved window cancelOk fuel s1
    else .ok (VPP_OK, s)

/-- A loop over the slots `l` whose body can end the call. -/
def forSlots (f : VPPProcessor → Nat → Except Fault VPPProcessor) :
    List Nat → VPPProcessor → Except Fault VPPProcessor
  | [], s => .ok s
  | i :: rest, s =>
    match f s i with
    | .error e => .error e
    | .ok s1 => forSlots f rest s1

/-- Body of the first loop of `flush` for input slot `i`, with the observer call of the
release. -/
def flushInputSlotObserved (window : List (Option Nat)) (cancelOk : Bool) (s : VPPProcessor)
    (i : Nat) : Except Fault VPPProcessor :=
  if (s.mInput i).mStatus ≠ VPP_BUFFER_FREE then
    let released : Except Fault VPPProcessor :=
      match findMediaBuffer s (s.mInput i) with
      | none => .ok s
      | some mediaBuffer => releaseIfHeldObserved window cancelOk s mediaBuffer
    match released with
    | .error f => .error f
    | .ok s1 =>
      .ok { s1 with mInput := Function.update s1.mInput i ((s1.mInput i).resetBuffer none) }
  else .ok s

/-- Body of the second loop of `flush` for output slot `i`, with the observer call of the
release. -/
def flushOutputSlotObserved (window : List (Option Nat)) (cancelOk : Bool) (s : VPPProcessor)
    (i : Nat) : Except Fault VPPProcessor :=
  if (s.mOutput i).mStatus ≠ VPP_BUFFER_FREE then
    match findMediaBuffer s (s.mOutput i) with
    | none => .ok s
    | some mediaBuffer =>
      if 0 < (s.heap mediaBuffer).mRefCount then
        match findBufferInfo s (some mediaBuffer) with
        | none => .ok s
        | some info =>
          if infoStatus s.mBufferInfos info ≠ some OWNED_BY_CLIENT then
            releaseObserved window cancelOk s mediaBuffer
          else .ok s
      else .ok s
  else .ok s

/-- Release loop of `flush` over the render list, with the observer call of every release;
it stops at the first `NULL` entry. -/
def flushRenderEntriesObserved (window : List (Option Nat)) (cancelOk : Bool) :
    List (Option Nat) → VPPProcessor → Except Fault VPPProcessor
  | [], s => .ok s
  | none :: _, s => .ok s
  | some renderBuffer :: rest, s =>
    match releaseIfHeldObserved window cancelOk s renderBuffer with
    | .error f => .error f
    | .ok s1 => flushRenderEntriesObserved window cancelOk rest s1

/-- The method `VPPProcessor::flush` with the observer call of every release. -/
def flushObserved (window : List (Option Nat)) (cancelOk : Bool) (s : VPPProcessor) :
    Except Fault VPPProcessor :=
  match forSlots (flushInputSlotObserved window cancelOk) (List.range s.mInputBufferNum) s with
  | .error f => .error f
  | .ok s1 =>
    match forSlots (flushOutputSlotObserved window cancelOk)
        (List.range s1.mOutputBufferNum) s1 with
    | .error f => .error f
    | .ok s2 =>
      match flushRenderEntriesObserved window cancelOk s2.mRenderList s2 with
      | .error f => .error f
      | .ok s3 =>
        .ok { s3 with
          mRenderList := []
          mInputLoadPoint := 0
          mOutputLoadPoint := 0 }

/-! ## Predicates used to state the properties -/

/-- The break condition of the scan in `updateRenderList` for a list entry whose timestamp
is `tl`: `timeBuffer <= tl` above rate 1, `timeBuffer == tl` at rate 1. -/
@[reducible] def scanStops (s : VPPProcessor) (timeBuffer tl : Int) : Prop :=
  (s.mWorker.mFrcRate > FRC_RATE_1X ∧ timeBuffer ≤ tl) ∨
    (s.mWorker.mFrcRate = FRC_RATE_1X ∧ timeBuffer = tl)

/-- The scan goes past entry `e`: its timestamp is set (so `e` is not `NULL`) and the break
condition is false for it. -/
@[reducible] def scanPasses (s : VPPProcessor) (timeBuffer : Int) (e : Option Nat) : Prop :=
  getBufferTimestamp s e ≠ -1 ∧ ¬ scanStops s timeBuffer (getBufferTimestamp s e)

/-- Value of `timeRenderList` after the scan went past all of the given entries. -/
def lastTime (s : VPPProcessor) : Int → List (Option Nat) → Int
  | tl, [] => tl
  | _, e :: rest => lastTime s (getBufferTimestamp s e) rest

/-- Timestamps of the entries of the render list, head first. -/
def renderTimes (s : VPPProcessor) : List Int :=
  s.mRenderList.map (getBufferTimestamp s)

/-- The render list is strictly ascending by timestamp from head to tail; in particular no
two entries share a timestamp. -/
def Ascending (s : VPPProcessor) : Prop :=
  (renderTimes s).Pairwise (· < ·)

/-- No entry of the render list is `NULL`. -/
def NoNull (s : VPPProcessor) : Prop :=
  ∀ e ∈ s.mRenderList, e ≠ none

/-- The buffers bound to READY output slots are not in the render list, and no two READY
output slots are bound to the same buffer. -/
def FreshReady (s : VPPProcessor) : Prop :=
  ∀ i e, (s.mOutput i).mStatus = VPP_BUFFER_READY →
    findMediaBuffer s (s.mOutput i) = some e →
    some e ∉ s.mRenderList ∧
      ∀ j, (s.mOutput j).mStatus = VPP_BUFFER_READY →
        findMediaBuffer s (s.mOutput j) = some e → j = i

/-- What a round of the merge pass that handles buffer `buff` with timestamp `t` leaves
alone: the buffer table, the settings, the thread, the end-of-stream flag, the input side,
the capacities, the graphic buffer of every `MediaBuffer`, and the recorded time of every
`MediaBuffer` but `buff`, whose recorded time is `t`. -/
def RoundFrame (s s' : VPPProcessor) (buff : Nat) (t : Int) : Prop :=
  s'.mBufferInfos = s.mBufferInfos ∧ s'.mWorker = s.mWorker ∧
    s'.mProcThread = s.mProcThread ∧ s'.mEOS = s.mEOS ∧
    s'.mInput = s.mInput ∧ s'.mInputLoadPoint = s.mInputLoadPoint ∧
    s'.mInputBufferNum = s.mInputBufferNum ∧ s'.mOutputBufferNum = s.mOutputBufferNum ∧
    (∀ q, (s'.heap q).graphicBuffer = (s.heap q).graphicBuffer) ∧
    (∀ q, q ≠ buff → (s'.heap q).kKeyTime = (s.heap q).kKeyTime) ∧
    (s'.heap buff).kKeyTime = some t

/-- The output ring after the slot at the load pointer was marked RENDERING. -/
def markRendering (s : VPPProcessor) : Nat → VPPBuffer :=
  Function.update s.mOutput s.mOutputLoadPoint
    { s.mOutput s.mOutputLoadPoint with mStatus := VPP_BUFFER_RENDERING }

/-- The four ways a round of the merge pass can end for buffer `buff` with timestamp `t`:
the scan fails, the buffer is dropped, it replaces the entry `x` with the same timestamp, or
it is inserted before the entry `x` with a larger timestamp. -/
def RoundOutcome (s s' : VPPProcessor) (ro : Option status_t) (buff : Nat) (t : Int) : Prop :=
  (ro = some VPP_FAIL ∧ s'.mRenderList = s.mRenderList ∧ s'.mOutput = s.mOutput ∧
      s'.mOutputLoadPoint = s.mOutputLoadPoint) ∨
    (ro = none ∧ s'.mRenderList = s.mRenderList ∧ s'.mOutput = s.mOutput ∧
      s'.mOutputLoadPoint = (s.mOutputLoadPoint + 1) % s.mOutputBufferNum) ∨
    (ro = none ∧ s'.mOutput = markRendering s ∧
      s'.mOutputLoadPoint = (s.mOutputLoadPoint + 1) % s.mOutputBufferNum ∧
      ∃ pre x post, s.mRenderList = pre ++ some x :: post ∧
        (∀ e ∈ pre, scanPasses s t e) ∧ getBufferTimestamp s (some x) = t ∧
        s'.mRenderList = pre ++ some buff :: post) ∨
    (ro = none ∧ s'.mOutput = markRendering s ∧
      s'.mOutputLoadPoint = (s.mOutputLoadPoint + 1) % s.mOutputBufferNum ∧
      ∃ pre x post, s.mRenderList = pre ++ some x :: post ∧
        (∀ e ∈ pre, scanPasses s t e) ∧ t < getBufferTimestamp s (some x) ∧
        FRC_RATE_1X < s.mWorker.mFrcRate ∧
        s'.mRenderList = pre ++ some buff :: some x :: post)

/-- An orchestrator that holds nothing: empty render list, every slot FREE, both load
pointers at zero. -/
def IsEmpty (s : VPPProcessor) : Prop :=
  s.mRenderList = [] ∧ (∀ i, (s.mInput i).mStatus = VPP_BUFFER_FREE) ∧
    (∀ i, (s.mOutput i).mStatus = VPP_BUFFER_FREE) ∧
    s.mInputLoadPoint = 0 ∧ s.mOutputLoadPoint = 0

/-- States reachable from an empty orchestrator by submit calls and merge passes, the Worker
writing the output ring in between (the enhanced timestamps are arbitrary). The collaborators
respect the ownership of buffers: the decoder does not submit a buffer that is bound to a
READY output slot, and the Worker leaves the READY output slots bound to distinct buffers
that are not in the render list. With `ascending = false` the submitted timestamps are
arbitrary; with `ascending = true` every submitted buffer carries a timestamp above all
timestamps in the render list. -/
inductive Reach (ascending : Bool) : VPPProcessor → Prop
  | start (s : VPPProcessor) : IsEmpty s → Reach ascending s
  | submit (s s' : VPPProcessor) (buff : Option Nat) (r : status_t) :
      Reach ascending s →
      (∀ i, (s.mOutput i).mStatus = VPP_BUFFER_READY →
        buff = none ∨ findMediaBuffer s (s.mOutput i) ≠ buff) →
      (ascending = true →
        ∀ e ∈ s.mRenderList, getBufferTimestamp s e < getBufferTimestamp s buff) →
      setDecoderBufferToVPP s buff = .ok (r, s') → Reach ascending s'
  | worker (s : VPPProcessor) (out : Nat → VPPBuffer) :
      Reach ascending s → FreshReady { s with mOutput := out } →
      Reach ascending { s with mOutput := out }
  | merge (s s' : VPPProcessor) (fuel : Nat) (r : status_t) :
      Reach ascending s → updateRenderList fuel s = .ok (r, s') → Reach ascending s'

/-- A frame of a scenario: the decoded buffer that is submitted, the buffer in which the
enhancement stage delivers it, and its timestamp. -/
structure Frame where
  decoded : Nat
  enhanced : Nat
  timeUs : Int
  deriving DecidableEq, Repr

/-- Submit of the buffers `bs` one after the other; the result is the final state when every
submit returned `VPP_OK`, and `none` otherwise. -/
def submitAll : VPPProcessor → List Nat → Option VPPProcessor
  | s, [] => some s
  | s, b :: rest =>
    match setDecoderBufferToVPP s (some b) with
    | .ok (VPP_OK, s1) => submitAll s1 rest
    | _ => none

/-- What a successful submit leaves alone: the output side, the buffer table, the settings,
the thread, the end-of-stream flag, and the recorded time and graphic buffer of every
`MediaBuffer`. -/
def SubmitFrame (s s' : VPPProcessor) : Prop :=
  s'.mOutput = s.mOutput ∧ s'.mOutputLoadPoint = s.mOutputLoadPoint ∧
    s'.mOutputBufferNum = s.mOutputBufferNum ∧ s'.mBufferInfos = s.mBufferInfos ∧
    s'.mWorker = s.mWorker ∧ s'.mProcThread = s.mProcThread ∧ s'.mEOS = s.mEOS ∧
    (∀ q, (s'.heap q).kKeyTime = (s.heap q).kKeyTime) ∧
    (∀ q, (s'.heap q).graphicBuffer = (s.heap q).graphicBuffer)

/-- No buffer of the heap has a negative reference count. -/
def HeapNonneg (heap : Nat → MediaBuffer) : Prop :=
  ∀ q, 0 ≤ (heap q).mRefCount

/-- No buffer has a negative reference count: no reference was released that was not
held. -/
def HeldNonneg (s : VPPProcessor) : Prop :=
  HeapNonneg s.heap

/-- One step of the cycle FREE, LOADED, PROCESSING, READY, RENDERING, FREE, or no move. -/
def CycleStep (a b : VPPBufferStatus) : Prop :=
  b = a ∨ (a = VPP_BUFFER_FREE ∧ b = VPP_BUFFER_LOADED) ∨
    (a = VPP_BUFFER_LOADED ∧ b = VPP_BUFFER_PROCESSING) ∨
    (a = VPP_BUFFER_PROCESSING ∧ b = VPP_BUFFER_READY) ∨
    (a = VPP_BUFFER_READY ∧ b = VPP_BUFFER_RENDERING) ∨
    (a = VPP_BUFFER_RENDERING ∧ b = VPP_BUFFER_FREE)

/-- The moves of a slot status that the operations of the orchestrator make: no move,
FREE to LOADED, READY to RENDERING, or back to FREE from any status. -/
def OrchestratorMove (a b : VPPBufferStatus) : Prop :=
  b = a ∨ (a = VPP_BUFFER_FREE ∧ b = VPP_BUFFER_LOADED) ∨
    (a = VPP_BUFFER_READY ∧ b = VPP_BUFFER_RENDERING) ∨ b = VPP_BUFFER_FREE

/-- The status stays or returns to FREE. -/
def StaysOrFrees (a b : VPPBufferStatus) : Prop :=
  b = a ∨ b = VPP_BUFFER_FREE

/-- The status stays or moves from READY to RENDERING. -/
def StaysOrRenders (a b : VPPBufferStatus) : Prop :=
  b = a ∨ (a = VPP_BUFFER_READY ∧ b = VPP_BUFFER_RENDERING)

/-- From `s` to `s'` no reference count becomes negative, every input slot status moves by
`rin` and every output slot status by `rout`. -/
def Related (rin rout : VPPBufferStatus → VPPBufferStatus → Prop) (s s' : VPPProcessor) :
    Prop :=
  (HeldNonneg s → HeldNonneg s') ∧
    (∀ i, rin (s.mInput i).mStatus (s'.mInput i).mStatus) ∧
    (∀ i, rout (s.mOutput i).mStatus (s'.mOutput i).mStatus)

/-- The buffer of output slot `i` is one that `flush` releases: the slot is not FREE, it is
bound to a buffer of the table that still holds a reference, and that buffer is not owned by
the client. -/
def Releasable (s : VPPProcessor) (i : Nat) : Prop :=
  (s.mOutput i).mStatus ≠ VPP_BUFFER_FREE ∧
    ∃ m info, findMediaBuffer s (s.mOutput i) = some m ∧ 0 < (s.heap m).mRefCount ∧
      findBufferInfo s (some m) = some info ∧
      infoStatus s.mBufferInfos info ≠ some OWNED_BY_CLIENT

/-- The buffer `p` carries the rendered mark: its `kKeyRendered` entry is set and not 0. -/
def MarkedRendered (s : VPPProcessor) (p : Nat) : Prop :=
  ∃ r : Int, (s.heap p).kKeyRendered = some r ∧ r ≠ 0

/-- Every entry of the render list has a set timestamp. -/
def TimesSet (s : VPPProcessor) : Prop :=
  ∀ e ∈ s.mRenderList, getBufferTimestamp s e ≠ -1

/-- Both load pointers are inside their rings. -/
def LoadPointsInRange (s : VPPProcessor) : Prop :=
  s.mInputLoadPoint < s.mInputBufferNum ∧ s.mOutputLoadPoint < s.mOutputBufferNum

/-- From `s` to `s'` the capacities of the rings stay as they are and load pointers that
were inside their rings are still inside. -/
def RingKept (s s' : VPPProcessor) : Prop :=
  s'.mInputBufferNum = s.mInputBufferNum ∧ s'.mOutputBufferNum = s.mOutputBufferNum ∧
    (LoadPointsInRange s → LoadPointsInRange s')

/-- What a release with its observer call leaves alone: everything but the reference
counts and marks of the buffers, the owners in the buffer table and the output ring. -/
def ReleaseFrame (s s' : VPPProcessor) : Prop :=
  s'.mInput = s.mInput ∧ s'.mRenderList = s.mRenderList ∧
    s'.mInputLoadPoint = s.mInputLoadPoint ∧ s'.mOutputLoadPoint = s.mOutputLoadPoint ∧
    s'.mInputBufferNum = s.mInputBufferNum ∧ s'.mOutputBufferNum = s.mOutputBufferNum ∧
    s'.mThreadRunning = s.mThreadRunning ∧ s'.mWorker = s.mWorker ∧
    s'.mVPPProcCount = s.mVPPProcCount ∧ s'.mVPPRenderCount = s.mVPPRenderCount

/-- From `s` to `s'` every input slot is as it was or FREE, and the render list, the load
pointers and the capacities are as they were. -/
def InputsFreed (s s' : VPPProcessor) : Prop :=
  (∀ j, (s'.mInput j).mStatus = VPP_BUFFER_FREE ∨ s'.mInput j = s.mInput j) ∧
    s'.mRenderList = s.mRenderList ∧
    s'.mInputLoadPoint = s.mInputLoadPoint ∧ s'.mOutputLoadPoint = s.mOutputLoadPoint ∧
    s'.mInputBufferNum = s.mInputBufferNum ∧ s'.mOutputBufferNum = s.mOutputBufferNum

/-- What a release whose observer call takes the reuse branch changes at most: reference
counts of the one buffer, owners in the table that become the orchestrator, and output slots
that return to FREE with their buffer kept. -/
def HeldStep (s s2 : VPPProcessor) (p : Nat) : Prop :=
  (∀ q, (s2.heap q).mObserver = (s.heap q).mObserver) ∧
    (∀ q, (s2.heap q).graphicBuffer = (s.heap q).graphicBuffer) ∧
    (∀ q, q ≠ p → (s2.heap q).mRefCount = (s.heap q).mRefCount) ∧
    (∀ b k, findBufferInfoFrom b s2.mBufferInfos k = findBufferInfoFrom b s.mBufferInfos k) ∧
    (∀ heap g, findMediaBufferIn heap g s2.mBufferInfos =
      findMediaBufferIn heap g s.mBufferInfos) ∧
    (∀ i, infoStatus s2.mBufferInfos i = infoStatus s.mBufferInfos i ∨
      infoStatus s2.mBufferInfos i = some OWNED_BY_VPP) ∧
    (∀ j, (s2.mOutput j).mGraphicBuffer = (s.mOutput j).mGraphicBuffer) ∧
    (∀ j, s2.mOutput j = s.mOutput j ∨ (s2.mOutput j).mStatus = VPP_BUFFER_FREE)

/-- The ownership invariant of the data model on the output ring and the render list, for a
running Worker: the render list has no null entry, its buffers have an observer and those
observed by the processor are not owned by the client; every READY slot of the output ring
is the only slot bound to its graphic buffer, and the buffer of the table bound to it holds
exactly one reference, is observed by the processor, is not owned by the client and is not
in the render list. -/
def OutputsHeld (s : VPPProcessor) : Prop :=
  s.mThreadRunning = true ∧ s.mOutputLoadPoint < s.mOutputBufferNum ∧ NoNull s ∧
    (∀ x, some x ∈ s.mRenderList → (s.heap x).mObserver ≠ BufferObserver.null) ∧
    (∀ x info, some x ∈ s.mRenderList →
      (s.heap x).mObserver = BufferObserver.vppProcessor →
      findBufferInfo s (some x) = some info →
      infoStatus s.mBufferInfos info ≠ some OWNED_BY_CLIENT) ∧
    ∀ i b, i < s.mOutputBufferNum → (s.mOutput i).mStatus = VPP_BUFFER_READY →
      findMediaBuffer s (s.mOutput i) = some b →
      (s.heap b).mRefCount = 1 ∧ (s.heap b).mObserver = BufferObserver.vppProcessor ∧
        some b ∉ s.mRenderList ∧
        (∀ info, findBufferInfo s (some b) = some info →
          infoStatus s.mBufferInfos info ≠ some OWNED_BY_CLIENT) ∧
        ∀ j, j < s.mOutputBufferNum →
          (s.mOutput j).mGraphicBuffer = (s.mOutput i).mGraphicBuffer → j = i

/-- What a round of the merge pass on the READY slot at the load pointer, bound to `buff`,
changes at most before it advances the load pointer, the observer calls taking the reuse
branch: the render list gains at most `buff`, reference counts change only for `buff` and
for buffers of the list, owners only become the orchestrator, every output slot keeps its
graphic buffer and is as it was or not READY, and the slot at the load pointer is no longer
READY. -/
def MergeStep (s t : VPPProcessor) (buff : Nat) : Prop :=
  t.mThreadRunning = s.mThreadRunning ∧ t.mOutputBufferNum = s.mOutputBufferNum ∧
    t.mOutputLoadPoint = s.mOutputLoadPoint ∧
    (∀ e, e ∈ t.mRenderList → e ∈ s.mRenderList ∨ e = some buff) ∧
    (∀ q, (t.heap q).mObserver = (s.heap q).mObserver) ∧
    (∀ q, (t.heap q).graphicBuffer = (s.heap q).graphicBuffer) ∧
    (∀ q, q ≠ buff → some q ∉ s.mRenderList →
      (t.heap q).mRefCount = (s.heap q).mRefCount) ∧
    (∀ b k, findBufferInfoFrom b t.mBufferInfos k = findBufferInfoFrom b s.mBufferInfos k) ∧
    (∀ heap g, findMediaBufferIn heap g t.mBufferInfos =
      findMediaBufferIn heap g s.mBufferInfos) ∧
    (∀ i, infoStatus t.mBufferInfos i = infoStatus s.mBufferInfos i ∨
      infoStatus t.mBufferInfos i = some OWNED_BY_VPP) ∧
    (∀ j, (t.mOutput j).mGraphicBuffer = (s.mOutput j).mGraphicBuffer) ∧
    (∀ j, t.mOutput j = s.mOutput j ∨ (t.mOutput j).mStatus ≠ VPP_BUFFER_READY) ∧
    (t.mOutput s.mOutputLoadPoint).mStatus ≠ VPP_BUFFER_READY

/-- From `s` to `s'` every output slot keeps its status or returns to FREE. -/
def SlotsFreed (s s' : VPPProcessor) : Prop :=
  ∀ j, (s'.mOutput j).mStatus = (s.mOutput j).mStatus ∨
    (s'.mOutput j).mStatus = VPP_BUFFER_FREE

/-! ## Concrete states used to exercise the definitions -/

/-- A pool of buffers: buffer `p` wraps graphic buffer `100 + p`; buffers 1, 2 and 3 carry
the timestamps 0, 33 and 66, buffer 7 carries 50, the others carry none. -/
def exHeap : Nat → MediaBuffer := fun p =>
  { mRefCount := 1
    graphicBuffer := some (100 + p)
    kKeyTime :=
      if p = 1 then some 0 else if p = 2 then some 33 else if p = 3 then some 66
      else if p = 7 then some 50 else none
    kKeyRendered := none
    mObserver := BufferObserver.codec }

/-- The buffer table of the pool: buffers 1 to 10. -/
def exInfos : List BufferInfo :=
  (List.range 10).map fun k => { mMediaBuffer := k + 1, mStatus := OWNED_BY_VPP, mFlags := 0 }

/-- A slot that is FREE and bound to graphic buffer `g`. -/
def exSlot (g : Option Nat) (t : Int) (st : VPPBufferStatus) : VPPBuffer :=
  { mGraphicBuffer := g, mTimeUs := t, mFlags := 0, mStatus := st }

/-- An orchestrator right after `init` with lookahead 0 and rate factor `rate`: three input
slots, all FREE; output slots bound to the buffers 4, 5, 6, ..., all FREE; empty render
list; Worker running. -/
def exInit (rate : Nat) : VPPProcessor :=
  { mInputBufferNum := 3
    mOutputBufferNum := 1 + 2 * rate
    mInputLoadPoint := 0
    mOutputLoadPoint := 0
    mLastRenderBuffer := none
    mBufferInfos := exInfos
    mThreadRunning := true
    mEOS := false
    mTotalDecodedCount := 0
    mInputCount := 0
    mVPPProcCount := 0
    mVPPRenderCount := 0
    mVppOutputFps := 0
    mInput := fun _ => exSlot none 0 VPP_BUFFER_FREE
    mOutput := fun i => exSlot (some (104 + i)) 0 VPP_BUFFER_FREE
    mRenderList := []
    mWorker := { mFrcRate := rate, mNumForwardReferences := 0 }
    mProcThread := some { mError := false, mSeek := false, mEOS := false }
    heap := exHeap }

/-- The state `exInit 1` with the input slot at the load pointer still LOADED. -/
def exBusy : VPPProcessor :=
  { exInit 1 with mInput := fun _ => exSlot (some 101) 0 VPP_BUFFER_LOADED }

/-- The state reached from `exBusy` by the rejected submit of buffer 2. -/
def exBusyRejected : VPPProcessor :=
  { exBusy with mRenderList := [some 2], mTotalDecodedCount := 1 }

/-- The state `exInit 1` with the buffers 1, 2, 3 pending in the render list and the
end-of-stream flag set. -/
def exPending : VPPProcessor :=
  { exInit 1 with mRenderList := [some 1, some 2, some 3], mEOS := true }

/-- As many successive fetches as `n` says, each starting from the buffer variable left by
the one before; the result lists the status and buffer of every fetch. -/
def readTimes (workerResetOk : Bool) :
    Nat → VPPProcessor → Option Nat → Except Fault (List (status_t × Option Nat) × VPPProcessor)
  | 0, s, _ => .ok ([], s)
  | n + 1, s, buffer =>
    match read workerResetOk s buffer with
    | .error f => .error f
    | .ok (r, b, s1) =>
      match readTimes workerResetOk n s1 b with
      | .error f => .error f
      | .ok (rs, s2) => .ok ((r, b) :: rs, s2)

/-- The state `exInit 1` with the end-of-stream flag set: Worker running, empty render
list, every input slot FREE, no output slot READY. -/
def exEos : VPPProcessor :=
  { exInit 1 with mEOS := true }

/-- Scenario B before the merge pass, rate factor 2: the render list holds the buffers 1
and 2 (timestamps 0 and 33); the output slot at the load pointer is READY with buffer 4 and
timestamp 16. -/
def exB : VPPProcessor :=
  { exInit 2 with
    mRenderList := [some 1, some 2]
    mOutput := fun i =>
      if i = 0 then exSlot (some 104) 16 VPP_BUFFER_READY
      else exSlot (some (104 + i)) 0 VPP_BUFFER_FREE }

/-- Scenario C before the merge pass, rate factor 2: the render list holds buffer 7
(timestamp 50); the output slot at the load pointer is READY with buffer 4 and
timestamp 20. -/
def exC : VPPProcessor :=
  { exInit 2 with
    mRenderList := [some 7]
    mOutput := fun i =>
      if i = 0 then exSlot (some 104) 20 VPP_BUFFER_READY
      else exSlot (some (104 + i)) 0 VPP_BUFFER_FREE }

/-- Scenario A before the merge pass, rate factor 1: the render list holds the buffers 1, 2
and 3 (timestamps 0, 33, 66); output slot `i` is READY with buffer `4 + i` and timestamp
`33 * i`. -/
def exA : VPPProcessor :=
  { exInit 1 with
    mRenderList := [some 1, some 2, some 3]
    mOutput := fun i => exSlot (some (104 + i)) (33 * i) VPP_BUFFER_READY }

/-- The state that the merge pass leaves when started in `exA`: the buffers 4, 5, 6 have
replaced the buffers 1, 2, 3, which were released; the three output slots are RENDERING. -/
def exAMerged : VPPProcessor :=
  { exA with
    mRenderList := [some 4, some 5, some 6]
    mOutput :=
      Function.update (Function.update (Function.update exA.mOutput
        0 (exSlot (some 104) 0 VPP_BUFFER_RENDERING))
        1 (exSlot (some 105) 33 VPP_BUFFER_RENDERING))
        2 (exSlot (some 106) 66 VPP_BUFFER_RENDERING)
    mVPPProcCount := 3
    mVPPRenderCount := 3
    heap := releaseIfHeld (setKeyTime (releaseIfHeld (setKeyTime (releaseIfHeld
      (setKeyTime exHeap 4 0) 1) 5 33) 2) 6 66) 3 }

/-- Scenario A before the submits, rate factor 1: empty render list, three FREE input
slots, and output slot `i` READY with buffer `4 + i` and timestamp `33 * i`. -/
def exA0 : VPPProcessor :=
  { exInit 1 with mOutput := fun i => exSlot (some (104 + i)) (33 * i) VPP_BUFFER_READY }

/-- The frames of Scenario A: the decoded buffers 1, 2, 3 with the timestamps 0, 33, 66,
delivered by the enhancement stage in the buffers 4, 5, 6. -/
def exFrames : List Frame :=
  [{ decoded := 1, enhanced := 4, timeUs := 0 }, { decoded := 2, enhanced := 5, timeUs := 33 },
    { decoded := 3, enhanced := 6, timeUs := 66 }]

/-- The state `exInit 1` with the buffers 1, 2, 3 pending in the render list; Worker
running, no slot PROCESSING. -/
def exQueued : VPPProcessor :=
  { exInit 1 with mRenderList := [some 1, some 2, some 3] }

/-- The state `exQueued` with input slot 0 PROCESSING. -/
def exQueuedProcessing : VPPProcessor :=
  { exQueued with
    mInput := fun i =>
      if i = 0 then exSlot (some 101) 0 VPP_BUFFER_PROCESSING
      else exSlot none 0 VPP_BUFFER_FREE }

/-- Rate factor 1, the render list holds the buffers 1 and 2 (timestamps 0 and 33); the
output slots 0 and 1 are both READY and both bound to buffer 4, with the timestamps 0
and 33; the other output slots are FREE. -/
def exShared : VPPProcessor :=
  { exInit 1 with
    mRenderList := [some 1, some 2]
    mOutput := fun i =>
      if i = 0 then exSlot (some 104) 0 VPP_BUFFER_READY
      else if i = 1 then exSlot (some 104) 33 VPP_BUFFER_READY
      else exSlot (some (104 + i)) 0 VPP_BUFFER_FREE }

/-- The state `exInit 1` with buffer 4 marked rendered; its owner is the orchestrator. -/
def exReturned : VPPProcessor :=
  { exInit 1 with heap := setKeyRendered exHeap 4 1 }

/-- The state `exReturned` with buffer 4 owned by the client. -/
def exReturnedClient : VPPProcessor :=
  { exReturned with mBufferInfos := setInfoStatus exInfos 3 OWNED_BY_CLIENT }

/-- The state `exReturnedClient` with buffer 8 owned by the display surface. -/
def exSurface : VPPProcessor :=
  { exReturned with
    mBufferInfos :=
      setInfoStatus (setInfoStatus exInfos 3 OWNED_BY_CLIENT) 7 OWNED_BY_NATIVE_WINDOW }

/-- The buffers of `exHeap` with the observers the program registers: the buffers 4, 5, ...
were dequeued by the processor and are observed by it; the buffers 1, 2, 3 are the decoder's. -/
def exHeapObserved : Nat → MediaBuffer := fun p =>
  { exHeap p with
    mObserver := if 4 ≤ p then BufferObserver.vppProcessor else BufferObserver.codec }

/-- The state `exInit 1` with output slot 0 RENDERING; its buffer 4 is observed by the
processor and holds one reference. -/
def exRendering : VPPProcessor :=
  { exInit 1 with
    mOutput := fun i =>
      if i = 0 then exSlot (some 104) 0 VPP_BUFFER_RENDERING
      else exSlot (some (104 + i)) 0 VPP_BUFFER_FREE
    heap := exHeapObserved }

/-- The state `exRendering` with two references on buffer 4. -/
def exRenderingTwice : VPPProcessor :=
  { exRendering with heap := add_ref exHeapObserved 4 }

/-- The state `exInit 1` with the three output slots READY (buffers 4, 5, 6 with the
timestamps 20, 21, 22) and an empty render list; the buffers are observed by the processor
and hold one reference each. -/
def exAllReady : VPPProcessor :=
  { exInit 1 with
    mOutput := fun i => exSlot (some (104 + i)) (20 + i) VPP_BUFFER_READY
    heap := exHeapObserved }

/-- The state `exAllReady` with two references on each of the buffers 4, 5, 6. -/
def exAllReadyTwice : VPPProcessor :=
  { exAllReady with heap := add_ref (add_ref (add_ref exHeapObserved 4) 5) 6 }

/-- Scenario C (`exC`) with the observers the program registers: buffer 4 of the READY
output slot was dequeued by the processor and is observed by it. -/
def exCObserved : VPPProcessor :=
  { exC with heap := exHeapObserved }

/-! ## Basic facts about the helpers -/

theorem getBufferTimestamp_heap (s s' : VPPProcessor) (e : Option Nat)
    (h : ∀ p, e = some p → (s'.heap p).kKeyTime = (s.heap p).kKeyTime) :
    getBufferTimestamp s' e = getBufferTimestamp s e := by
  cases e with
  | none => rfl
  | some p => simp [getBufferTimestamp, h p rfl]

theorem findBufferInfoFrom_bounds (buff : Option Nat) (l : List BufferInfo) (k i : Nat)
    (h : findBufferInfoFrom buff l k = some i) : k ≤ i ∧ i - k < l.length := by
  induction l generalizing k with
  | nil => simp [findBufferInfoFrom] at h
  | cons info rest ih =>
    simp only [findBufferInfoFrom] at h
    split at h
    · simp at h; subst h; simp
    · have := ih (k + 1) h
      simp only [List.length_cons]
      omega

theorem findBufferInfoFrom_setInfoStatus (buff : Option Nat) (l : List BufferInfo)
    (j : Nat) (st : BufferOwner) (k : Nat) :
    findBufferInfoFrom buff (setInfoStatus l j st) k = findBufferInfoFrom buff l k := by
  induction l generalizing j k with
  | nil => simp [setInfoStatus]
  | cons info rest ih =>
    cases j with
    | zero => simp [setInfoStatus, findBufferInfoFrom]
    | succ j => simp [setInfoStatus, findBufferInfoFrom, ih]

theorem infoStatus_setInfoStatus (l : List BufferInfo) (i : Nat) (st : BufferOwner)
    (h : i < l.length) : infoStatus (setInfoStatus l i st) i = some st := by
  induction l generalizing i with
  | nil => simp at h
  | cons info rest ih =>
    cases i with
    | zero => simp [setInfoStatus, infoStatus]
    | succ i =>
      simp only [List.length_cons] at h
      simp [setInfoStatus, infoStatus, ih i (by omega)]

theorem findBufferInfo_lt (s : VPPProcessor) (buff : Option Nat) (i : Nat)
    (h : findBufferInfo s buff = some i) : i < s.mBufferInfos.length := by
  have := findBufferInfoFrom_bounds buff s.mBufferInfos 0 i h
  omega

/-! ## Submit -/

/-- C7 as stated fails: with the input slot at the load pointer occupied, submit of buffer 2
returns FAIL and yet the render list has changed (it was empty and now holds buffer 2). -/
theorem setDecoderBufferToVPP_fail_not_atomic :
    ∃ s', setDecoderBufferToVPP exBusy (some 2) = .ok (VPP_FAIL, s') ∧
      exBusy.mRenderList = [] ∧ s'.mRenderList = [some 2] ∧
      s'.mRenderList ≠ exBusy.mRenderList :=
  ⟨_, rfl, rfl, rfl, by decide⟩

/-- C7, amended: whenever submit returns FAIL, the input ring, the input load pointer and
the enqueue counter are the same as before the call; the render list is the same when the
buffer is null, and for a non-null buffer it is the old list with the rejected buffer
appended at the tail. -/
theorem setDecoderBufferToVPP_fail (s s' : VPPProcessor) (buff : Option Nat)
    (h : setDecoderBufferToVPP s buff = .ok (VPP_FAIL, s')) :
    s'.mInput = s.mInput ∧ s'.mInputLoadPoint = s.mInputLoadPoint ∧
      s'.mInputCount = s.mInputCount ∧
      (buff = none → s'.mRenderList = s.mRenderList) ∧
      (∀ p, buff = some p → s'.mRenderList = s.mRenderList ++ [some p]) := by
  cases buff with
  | none =>
    simp only [setDecoderBufferToVPP, Except.ok.injEq, Prod.mk.injEq, true_and] at h
    subst h
    simp
  | some p =>
    simp only [setDecoderBufferToVPP] at h
    split at h
    · split at h
      · simp only [Except.ok.injEq, Prod.mk.injEq, true_and] at h
        subst h
        simp
      · split at h
        · simp at h
        · simp at h
    · simp only [Except.ok.injEq, Prod.mk.injEq, true_and] at h
      subst h
      simp

/-- Witness for the amended C7: the rejected submit of buffer 2 into the busy ring. -/
theorem setDecoderBufferToVPP_fail_witness :
    exBusyRejected.mInput = exBusy.mInput ∧
      exBusyRejected.mInputLoadPoint = exBusy.mInputLoadPoint ∧
      exBusyRejected.mInputCount = exBusy.mInputCount ∧
      ((some 2 : Option Nat) = none → exBusyRejected.mRenderList = exBusy.mRenderList) ∧
      (∀ p, some 2 = some p → exBusyRejected.mRenderList = exBusy.mRenderList ++ [some p]) :=
  setDecoderBufferToVPP_fail exBusy exBusyRejected (some 2) rfl

/-! ## Fetch -/

theorem readList_cons (s : VPPProcessor) (buffer head : Option Nat) (rest : List (Option Nat))
    (i : Nat) (hl : s.mRenderList = head :: rest) (hi : findBufferInfo s head = some i) :
    readList s buffer = (VPP_OK, head,
      { s with
        mLastRenderBuffer := head
        mRenderList := rest
        mBufferInfos := setInfoStatus s.mBufferInfos i OWNED_BY_CLIENT }) := by
  have hi' : findBufferInfoFrom head s.mBufferInfos 0 = some i := hi
  simp only [readList, hl, findBufferInfo, hi']

theorem read_no_error (w : Bool) (s : VPPProcessor) (buffer : Option Nat) (t : VPPProcThread)
    (ht : s.mProcThread = some t) (herr : t.mError = false) :
    read w s buffer = .ok (readList s buffer) := by
  simp [read, ht, herr]

theorem readTimes_all (w : Bool) (l : List (Option Nat)) :
    ∀ (s : VPPProcessor) (buffer : Option Nat) (t : VPPProcThread),
      s.mProcThread = some t → t.mError = false → s.mRenderList = l →
      (∀ e ∈ l, (findBufferInfo s e).isSome) →
      ∃ s', readTimes w l.length s buffer = .ok (l.map (fun e => (VPP_OK, e)), s') ∧
        s'.mRenderList = [] ∧ s'.mProcThread = some t ∧ s'.mEOS = s.mEOS ∧
        s'.heap = s.heap := by
  induction l with
  | nil =>
    intro s buffer t ht _ hl _
    exact ⟨s, rfl, hl, ht, rfl, rfl⟩
  | cons head rest ih =>
    intro s buffer t ht herr hl htr
    obtain ⟨i, hi⟩ := Option.isSome_iff_exists.mp (htr head (List.mem_cons_self _ _))
    have hstep := read_no_error w s buffer t ht herr
    rw [readList_cons s buffer head rest i hl hi] at hstep
    obtain ⟨s', h1, h2, h3, h4, h5⟩ := ih
      { s with
        mLastRenderBuffer := head
        mRenderList := rest
        mBufferInfos := setInfoStatus s.mBufferInfos i OWNED_BY_CLIENT }
      head t ht herr rfl
      (by
        intro e he
        have := htr e (List.mem_cons_of_mem _ he)
        simpa [findBufferInfo, findBufferInfoFrom_setInfoStatus] using this)
    refine ⟨s', ?_, h2, h3, h4, h5⟩
    simp only [List.length_cons, readTimes, hstep, h1, List.map_cons]

/-- C8: fetch on a non-empty render list. With no Worker error and the head of the list
known to the buffer table, fetch returns OK with the head, the list becomes its former tail,
the owner of the returned buffer becomes CLIENT and the end-of-stream flag keeps its value
(whatever it is). Hence, when the other entries are known to the buffer table too, as many
fetches as the list has entries return the entries in list order, each once, and leave the
list empty. -/
theorem read_nonempty (w : Bool) (s : VPPProcessor) (buffer head : Option Nat)
    (rest : List (Option Nat)) (t : VPPProcThread) (i : Nat)
    (ht : s.mProcThread = some t) (herr : t.mError = false)
    (hl : s.mRenderList = head :: rest) (hi : findBufferInfo s head = some i) :
    (∃ s', read w s buffer = .ok (VPP_OK, head, s') ∧ s'.mRenderList = rest ∧
        findBufferInfo s' head = some i ∧
        infoStatus s'.mBufferInfos i = some OWNED_BY_CLIENT ∧ s'.mEOS = s.mEOS) ∧
      ((∀ e ∈ rest, (findBufferInfo s e).isSome) →
        ∃ s', readTimes w (rest.length + 1) s buffer =
            .ok ((head :: rest).map (fun e => (VPP_OK, e)), s') ∧
          s'.mRenderList = [] ∧ s'.mEOS = s.mEOS) := by
  constructor
  · rw [read_no_error w s buffer t ht herr, readList_cons s buffer head rest i hl hi]
    refine ⟨_, rfl, rfl, ?_, ?_, rfl⟩
    · have hi' : findBufferInfoFrom head s.mBufferInfos 0 = some i := hi
      simp [findBufferInfo, findBufferInfoFrom_setInfoStatus, hi']
    · exact infoStatus_setInfoStatus _ _ _ (findBufferInfo_lt s head i hi)
  · intro hrest
    obtain ⟨s', h1, h2, _, h4, _⟩ := readTimes_all w (head :: rest) s buffer t ht herr hl
      (by
        intro e he
        rcases List.mem_cons.mp he with h | h
        · subst h; simp [hi]
        · exact hrest e h)
    exact ⟨s', h1, h2, h4⟩

/-- Witness for C8: the list holds the buffers 1, 2, 3 and the end-of-stream flag is set. -/
theorem read_nonempty_witness :
    (∃ s', read true exPending none = .ok (VPP_OK, some 1, s') ∧
        s'.mRenderList = [some 2, some 3] ∧
        findBufferInfo s' (some 1) = some 0 ∧
        infoStatus s'.mBufferInfos 0 = some OWNED_BY_CLIENT ∧ s'.mEOS = exPending.mEOS) ∧
      ((∀ e ∈ [some 2, some 3], (findBufferInfo exPending e).isSome) →
        ∃ s', readTimes true ([some 2, some 3].length + 1) exPending none =
            .ok ((some 1 :: [some 2, some 3]).map (fun e => (VPP_OK, e)), s') ∧
          s'.mRenderList = [] ∧ s'.mEOS = exPending.mEOS) :=
  read_nonempty true exPending none (some 1) [some 2, some 3]
    { mError := false, mSeek := false, mEOS := false } 0 rfl rfl rfl rfl

/-- C9: end of stream is reported once. With no Worker error and an empty render list, fetch
returns NOT_READY and changes nothing while the end-of-stream flag is unset; after `setEOS`
it returns END_OF_STREAM with a null buffer and clears the flag, so that the next fetch, the
list being still empty, returns NOT_READY. -/
theorem read_end_of_stream (w : Bool) (s : VPPProcessor) (buffer : Option Nat)
    (t : VPPProcThread) (ht : s.mProcThread = some t) (herr : t.mError = false)
    (hl : s.mRenderList = []) :
    (s.mEOS = false → read w s buffer = .ok (VPP_BUFFER_NOT_READY, buffer, s)) ∧
      ∃ s1 s2, setEOS s = .ok s1 ∧ s1.mEOS = true ∧
        read w s1 buffer = .ok (ERROR_END_OF_STREAM, none, s2) ∧
        s2.mEOS = false ∧ s2.mRenderList = [] ∧
        read w s2 none = .ok (VPP_BUFFER_NOT_READY, none, s2) := by
  constructor
  · intro he
    rw [read_no_error w s buffer t ht herr]
    simp [readList, hl, he]
  · have h1 : setEOS s = .ok { s with
        mEOS := true, mProcThread := some { t with mEOS := true } } := by
      simp only [setEOS, ht]
    refine ⟨_, { s with mEOS := false, mProcThread := some { t with mEOS := true } },
      h1, rfl, ?_, rfl, hl, ?_⟩
    · simp [read, herr, readList, hl]
    · simp [read, herr, readList, hl]

/-- Witness for C9: the freshly initialised orchestrator, whose render list is empty. -/
theorem read_end_of_stream_witness :
    ((exInit 1).mEOS = false →
        read true (exInit 1) none = .ok (VPP_BUFFER_NOT_READY, none, exInit 1)) ∧
      ∃ s1 s2, setEOS (exInit 1) = .ok s1 ∧ s1.mEOS = true ∧
        read true s1 none = .ok (ERROR_END_OF_STREAM, none, s2) ∧
        s2.mEOS = false ∧ s2.mRenderList = [] ∧
        read true s2 none = .ok (VPP_BUFFER_NOT_READY, none, s2) :=
  read_end_of_stream true (exInit 1) none { mError := false, mSeek := false, mEOS := false }
    rfl rfl rfl

/-! ## The scan of the render list -/

theorem getBufferTimestamp_stampBuffer (s : VPPProcessor) (buff : Nat) (t : Int)
    (e : Option Nat) (h : e ≠ some buff) :
    getBufferTimestamp (stampBuffer s buff t) e = getBufferTimestamp s e := by
  apply getBufferTimestamp_heap
  intro p hp
  have hne : p ≠ buff := by
    intro hpb
    exact h (by rw [hp, hpb])
  simp [stampBuffer, setKeyTime, Function.update_noteq hne]

theorem getBufferTimestamp_stampBuffer_self (s : VPPProcessor) (buff : Nat) (t : Int) :
    getBufferTimestamp (stampBuffer s buff t) (some buff) = t := by
  simp [getBufferTimestamp, stampBuffer, setKeyTime]

theorem scanRenderList_congr (s s' : VPPProcessor) (t : Int) (l : List (Option Nat))
    (hw : s'.mWorker = s.mWorker)
    (h : ∀ e ∈ l, getBufferTimestamp s' e = getBufferTimestamp s e) (it : Nat) (tl : Int) :
    scanRenderList s' t l it tl = scanRenderList s t l it tl := by
  induction l generalizing it tl with
  | nil => rfl
  | cons e rest ih =>
    cases e with
    | none => rfl
    | some p =>
      have hp := h (some p) (List.mem_cons_self _ _)
      have hrest := fun it tl => ih (fun e he => h e (List.mem_cons_of_mem _ he)) it tl
      simp only [scanRenderList, hp, hw, hrest]

theorem scanRenderList_pass (s : VPPProcessor) (t : Int) (pre rest : List (Option Nat))
    (h : ∀ e ∈ pre, scanPasses s t e) (it : Nat) (tl : Int) :
    scanRenderList s t (pre ++ rest) it tl =
      scanRenderList s t rest (it + pre.length) (lastTime s tl pre) := by
  induction pre generalizing it tl with
  | nil => simp [lastTime]
  | cons e pre ih =>
    obtain ⟨h1, h2⟩ := h e (List.mem_cons_self _ _)
    cases e with
    | none => simp [getBufferTimestamp] at h1
    | some p =>
      have ih' := ih (fun e he => h e (List.mem_cons_of_mem _ he)) (it + 1)
        (getBufferTimestamp s (some p))
      have hlen : it + 1 + pre.length = it + (pre.length + 1) := by omega
      simp only [List.cons_append, scanRenderList, h1, if_false, h2, List.length_cons,
        lastTime]
      rw [← hlen]
      exact ih'

theorem scanRenderList_stop (s : VPPProcessor) (t : Int) (x : Nat) (post : List (Option Nat))
    (hx : getBufferTimestamp s (some x) ≠ -1)
    (hs : scanStops s t (getBufferTimestamp s (some x))) (it : Nat) (tl : Int) :
    scanRenderList s t (some x :: post) it tl = .stop it (getBufferTimestamp s (some x)) := by
  simp only [scanRenderList, hx, if_false, hs, if_true]

theorem getD_append_cons {α : Type} (pre post : List α) (x d : α) :
    (pre ++ x :: post).getD pre.length d = x := by
  induction pre with
  | nil => rfl
  | cons a pre ih => simpa [List.getD] using ih

theorem set_append_cons {α : Type} (pre post : List α) (x v : α) :
    (pre ++ x :: post).set pre.length v = pre ++ v :: post := by
  induction pre with
  | nil => rfl
  | cons a pre ih => simp [ih]

theorem take_append_length {α : Type} (pre rest : List α) :
    (pre ++ rest).take pre.length = pre := by
  induction pre with
  | nil => simp
  | cons a pre ih => simp [ih]

theorem drop_append_length {α : Type} (pre rest : List α) :
    (pre ++ rest).drop pre.length = rest := by
  induction pre with
  | nil => simp
  | cons a pre ih => simp [ih]

/-- The scan as run by a round on a list that does not hold the stamped buffer. -/
theorem scanRenderList_stampBuffer (s : VPPProcessor) (buff : Nat) (t : Int)
    (l : List (Option Nat)) (hfresh : some buff ∉ l) (it : Nat) (tl : Int) :
    scanRenderList (stampBuffer s buff t) t l it tl = scanRenderList s t l it tl := by
  apply scanRenderList_congr s (stampBuffer s buff t) t l rfl
  intro e he
  apply getBufferTimestamp_stampBuffer
  intro hc
  exact hfresh (hc ▸ he)

theorem updateRenderList_round (fuel : Nat) (s s' : VPPProcessor)
    (hready : (s.mOutput s.mOutputLoadPoint).mStatus = VPP_BUFFER_READY)
    (h : updateRenderListBody s = .ok (none, s')) :
    updateRenderList (fuel + 1) s = updateRenderList fuel s' := by
  simp only [updateRenderList, hready, if_true, h]

theorem advanceOutput_ok (s : VPPProcessor) (h : s.mOutputBufferNum ≠ 0) :
    advanceOutput s =
      .ok (none, { s with mOutputLoadPoint := (s.mOutputLoadPoint + 1) % s.mOutputBufferNum }) := by
  simp only [advanceOutput, h, if_false]

theorem updateRenderListBody_eq (s : VPPProcessor) (buff it : Nat) (tl : Int)
    (hbuf : findMediaBuffer s (s.mOutput s.mOutputLoadPoint) = some buff)
    (hset : (s.mOutput s.mOutputLoadPoint).mTimeUs ≠ -1)
    (hscan : scanRenderList (stampBuffer s buff (s.mOutput s.mOutputLoadPoint).mTimeUs)
      (s.mOutput s.mOutputLoadPoint).mTimeUs s.mRenderList 0 0 = .stop it tl) :
    updateRenderListBody s =
      updateRenderListPlace (stampBuffer s buff (s.mOutput s.mOutputLoadPoint).mTimeUs) buff
        (s.mOutput s.mOutputLoadPoint).mTimeUs it tl := by
  have hl : (stampBuffer s buff (s.mOutput s.mOutputLoadPoint).mTimeUs).mRenderList =
      s.mRenderList := rfl
  unfold updateRenderListBody
  rw [hbuf]
  dsimp only
  rw [if_neg hset, hl, hscan]

/-! ## One round of the merge pass -/

theorem updateRenderListBody_exact_core (s : VPPProcessor) (buff x : Nat)
    (pre post : List (Option Nat))
    (hnum : 0 < s.mOutputBufferNum)
    (hbuf : findMediaBuffer s (s.mOutput s.mOutputLoadPoint) = some buff)
    (hset : (s.mOutput s.mOutputLoadPoint).mTimeUs ≠ -1)
    (hfresh : some buff ∉ s.mRenderList)
    (hrate : FRC_RATE_1X ≤ s.mWorker.mFrcRate)
    (hlist : s.mRenderList = pre ++ some x :: post)
    (hpre : ∀ e ∈ pre, scanPasses s (s.mOutput s.mOutputLoadPoint).mTimeUs e)
    (hx : getBufferTimestamp s (some x) = (s.mOutput s.mOutputLoadPoint).mTimeUs) :
    ∃ s', updateRenderListBody s = .ok (none, s') ∧
      s'.mRenderList = pre ++ some buff :: post ∧
      s'.mOutput = markRendering s ∧
      s'.mOutputLoadPoint = (s.mOutputLoadPoint + 1) % s.mOutputBufferNum ∧
      s'.mVPPProcCount = s.mVPPProcCount + 1 ∧
      s'.mVPPRenderCount = s.mVPPRenderCount + 1 := by
  have hne : s.mOutputBufferNum ≠ 0 := by omega
  have hstop : scanStops s (s.mOutput s.mOutputLoadPoint).mTimeUs
      (getBufferTimestamp s (some x)) := by
    rw [hx]
    rcases Nat.lt_or_ge FRC_RATE_1X s.mWorker.mFrcRate with h | h
    · exact Or.inl ⟨h, le_refl _⟩
    · exact Or.inr ⟨le_antisymm h hrate, rfl⟩
  have hscan : scanRenderList (stampBuffer s buff (s.mOutput s.mOutputLoadPoint).mTimeUs)
      (s.mOutput s.mOutputLoadPoint).mTimeUs s.mRenderList 0 0 =
      .stop pre.length (s.mOutput s.mOutputLoadPoint).mTimeUs := by
    rw [scanRenderList_stampBuffer s buff _ _ hfresh, hlist, scanRenderList_pass s _ _ _ hpre,
      scanRenderList_stop s _ x post (by rw [hx]; exact hset) hstop, hx]
    simp
  rw [updateRenderListBody_eq s buff _ _ hbuf hset hscan]
  have hl1 : (stampBuffer s buff (s.mOutput s.mOutputLoadPoint).mTimeUs).mRenderList =
      pre ++ some x :: post := hlist
  have hc1 : ¬ (pre ++ some x :: post = [] ∨
      pre.length = (pre ++ some x :: post).length ∨
      (pre.length = 0 ∧ (s.mOutput s.mOutputLoadPoint).mTimeUs <
        (s.mOutput s.mOutputLoadPoint).mTimeUs)) := by
    simp
  rw [updateRenderListPlace, hl1, if_neg hc1, if_pos rfl, getD_append_cons]
  dsimp only
  rw [set_append_cons, advanceOutput_ok]
  · exact ⟨_, rfl, rfl, rfl, rfl, rfl, rfl⟩
  · exact hne

theorem updateRenderListPlace_drop (s1 : VPPProcessor) (buff it : Nat) (t tl : Int)
    (hne : s1.mOutputBufferNum ≠ 0)
    (hc : s1.mRenderList = [] ∨ it = s1.mRenderList.length ∨ (it = 0 ∧ t < tl)) :
    updateRenderListPlace s1 buff t it tl =
      .ok (none, { s1 with
        heap := releaseIfHeld s1.heap buff
        mOutputLoadPoint := (s1.mOutputLoadPoint + 1) % s1.mOutputBufferNum }) := by
  simp only [updateRenderListPlace, hc, if_true, advanceOutput, hne, if_false]

theorem scanRenderList_tooLate (s : VPPProcessor) (buff : Nat)
    (hfresh : some buff ∉ s.mRenderList)
    (hcase : s.mRenderList = [] ∨
      (∀ e ∈ s.mRenderList, scanPasses s (s.mOutput s.mOutputLoadPoint).mTimeUs e) ∨
      (∃ x rest, s.mRenderList = some x :: rest ∧ FRC_RATE_1X < s.mWorker.mFrcRate ∧
        getBufferTimestamp s (some x) ≠ -1 ∧
        (s.mOutput s.mOutputLoadPoint).mTimeUs < getBufferTimestamp s (some x))) :
    ∃ it tl,
      scanRenderList (stampBuffer s buff (s.mOutput s.mOutputLoadPoint).mTimeUs)
        (s.mOutput s.mOutputLoadPoint).mTimeUs s.mRenderList 0 0 = .stop it tl ∧
      (s.mRenderList = [] ∨ it = s.mRenderList.length ∨
        (it = 0 ∧ (s.mOutput s.mOutputLoadPoint).mTimeUs < tl)) := by
  rw [scanRenderList_stampBuffer s buff _ _ hfresh]
  rcases hcase with h | h | ⟨x, rest, h1, h2, h3, h4⟩
  · exact ⟨0, 0, by rw [h]; rfl, Or.inl h⟩
  · refine ⟨s.mRenderList.length, lastTime s 0 s.mRenderList, ?_, Or.inr (Or.inl rfl)⟩
    have := scanRenderList_pass s (s.mOutput s.mOutputLoadPoint).mTimeUs s.mRenderList []
      h 0 0
    simpa [scanRenderList] using this
  · refine ⟨0, getBufferTimestamp s (some x), ?_, Or.inr (Or.inr ⟨rfl, h4⟩)⟩
    rw [h1]
    exact scanRenderList_stop s _ x rest h3 (Or.inl ⟨h2, le_of_lt h4⟩) 0 0

/-! ## What a round of the merge pass does, in general -/

theorem releaseIfHeld_kKeyTime (heap : Nat → MediaBuffer) (p q : Nat) :
    (releaseIfHeld heap p q).kKeyTime = (heap q).kKeyTime := by
  unfold releaseIfHeld release
  split
  · by_cases h : q = p
    · subst h; simp
    · simp [Function.update_noteq h]
  · rfl

theorem releaseIfHeld_graphicBuffer (heap : Nat → MediaBuffer) (p q : Nat) :
    (releaseIfHeld heap p q).graphicBuffer = (heap q).graphicBuffer := by
  unfold releaseIfHeld release
  split
  · by_cases h : q = p
    · subst h; simp
    · simp [Function.update_noteq h]
  · rfl

theorem setKeyTime_graphicBuffer (heap : Nat → MediaBuffer) (p q : Nat) (t : Int) :
    (setKeyTime heap p t q).graphicBuffer = (heap q).graphicBuffer := by
  unfold setKeyTime
  by_cases h : q = p
  · subst h; simp
  · simp [Function.update_noteq h]

theorem setKeyTime_kKeyTime_ne (heap : Nat → MediaBuffer) (p q : Nat) (t : Int) (h : q ≠ p) :
    (setKeyTime heap p t q).kKeyTime = (heap q).kKeyTime := by
  simp [setKeyTime, Function.update_noteq h]

theorem setKeyTime_kKeyTime_self (heap : Nat → MediaBuffer) (p : Nat) (t : Int) :
    (setKeyTime heap p t p).kKeyTime = some t := by
  simp [setKeyTime]

theorem advanceOutput_eq_ok (s s' : VPPProcessor) (ro : Option status_t)
    (h : advanceOutput s = .ok (ro, s')) :
    ro = none ∧
      s' = { s with mOutputLoadPoint := (s.mOutputLoadPoint + 1) % s.mOutputBufferNum } := by
  unfold advanceOutput at h
  split at h
  · simp at h
  · simp only [Except.ok.injEq, Prod.mk.injEq] at h
    exact ⟨h.1.symm, h.2.symm⟩

theorem scanRenderList_spec (s : VPPProcessor) (t : Int) (l : List (Option Nat))
    (hnn : ∀ e ∈ l, e ≠ none) (it0 : Nat) (tl0 : Int) (it : Nat) (tl : Int)
    (h : scanRenderList s t l it0 tl0 = .stop it tl) :
    ∃ pre rest, l = pre ++ rest ∧ it = it0 + pre.length ∧
      (∀ e ∈ pre, scanPasses s t e) ∧
      (rest = [] ∨ ∃ x post, rest = some x :: post ∧ tl = getBufferTimestamp s (some x) ∧
        getBufferTimestamp s (some x) ≠ -1 ∧ scanStops s t (getBufferTimestamp s (some x))) := by
  induction l generalizing it0 tl0 with
  | nil =>
    simp only [scanRenderList, ScanResult.stop.injEq] at h
    exact ⟨[], [], rfl, by simp [h.1], by simp, Or.inl rfl⟩
  | cons e l ih =>
    cases e with
    | none => exact absurd rfl (hnn none (List.mem_cons_self _ _))
    | some p =>
      simp only [scanRenderList] at h
      split at h
      · simp at h
      · rename_i hset
        split at h
        · rename_i hstop
          simp only [ScanResult.stop.injEq] at h
          exact ⟨[], some p :: l, rfl, by simp [h.1], by simp,
            Or.inr ⟨p, l, rfl, h.2.symm, hset, hstop⟩⟩
        · rename_i hstop
          obtain ⟨pre, rest, h1, h2, h3, h4⟩ :=
            ih (fun e he => hnn e (List.mem_cons_of_mem _ he)) _ _ h
          refine ⟨some p :: pre, rest, by rw [h1]; rfl, ?_, ?_, h4⟩
          · simp only [List.length_cons]; omega
          · intro e he
            rcases List.mem_cons.mp he with he | he
            · subst he
              exact ⟨hset, hstop⟩
            · exact h3 e he

theorem roundFrame_stamp_release (s : VPPProcessor) (buff q : Nat) (t : Int) (s' : VPPProcessor)
    (h1 : s'.mBufferInfos = s.mBufferInfos) (h2 : s'.mWorker = s.mWorker)
    (h3 : s'.mProcThread = s.mProcThread) (h4 : s'.mEOS = s.mEOS)
    (h5 : s'.mInput = s.mInput) (h6 : s'.mInputLoadPoint = s.mInputLoadPoint)
    (h7 : s'.mInputBufferNum = s.mInputBufferNum)
    (h8 : s'.mOutputBufferNum = s.mOutputBufferNum)
    (hh : s'.heap = releaseIfHeld (setKeyTime s.heap buff t) q ∨
      s'.heap = setKeyTime s.heap buff t) :
    RoundFrame s s' buff t := by
  refine ⟨h1, h2, h3, h4, h5, h6, h7, h8, ?_, ?_, ?_⟩
  · intro r
    rcases hh with hh | hh
    · rw [hh, releaseIfHeld_graphicBuffer, setKeyTime_graphicBuffer]
    · rw [hh, setKeyTime_graphicBuffer]
  · intro r hr
    rcases hh with hh | hh
    · rw [hh, releaseIfHeld_kKeyTime, setKeyTime_kKeyTime_ne _ _ _ _ hr]
    · rw [hh, setKeyTime_kKeyTime_ne _ _ _ _ hr]
  · rcases hh with hh | hh
    · rw [hh, releaseIfHeld_kKeyTime, setKeyTime_kKeyTime_self]
    · rw [hh, setKeyTime_kKeyTime_self]

/-- Every way a round can end, for a list without `NULL` entries that does not hold the
buffer of the slot. -/
theorem updateRenderListBody_cases (s s' : VPPProcessor) (ro : Option status_t) (buff : Nat)
    (hbuf : findMediaBuffer s (s.mOutput s.mOutputLoadPoint) = some buff)
    (hset : (s.mOutput s.mOutputLoadPoint).mTimeUs ≠ -1)
    (hfresh : some buff ∉ s.mRenderList) (hnn : NoNull s)
    (h : updateRenderListBody s = .ok (ro, s')) :
    RoundFrame s s' buff (s.mOutput s.mOutputLoadPoint).mTimeUs ∧
      RoundOutcome s s' ro buff (s.mOutput s.mOutputLoadPoint).mTimeUs := by
  cases hscan : scanRenderList (stampBuffer s buff (s.mOutput s.mOutputLoadPoint).mTimeUs)
      (s.mOutput s.mOutputLoadPoint).mTimeUs s.mRenderList 0 0 with
  | fail =>
    have hl : (stampBuffer s buff (s.mOutput s.mOutputLoadPoint).mTimeUs).mRenderList =
        s.mRenderList := rfl
    unfold updateRenderListBody at h
    rw [hbuf] at h
    dsimp only at h
    rw [if_neg hset, hl, hscan] at h
    simp only [Except.ok.injEq, Prod.mk.injEq] at h
    obtain ⟨h1, h2⟩ := h
    subst h1 h2
    exact ⟨roundFrame_stamp_release s buff buff _ _ rfl rfl rfl rfl rfl rfl rfl rfl
      (Or.inr rfl), Or.inl ⟨rfl, rfl, rfl, rfl⟩⟩
  | stop it tl =>
    rw [updateRenderListBody_eq s buff it tl hbuf hset hscan] at h
    rw [scanRenderList_stampBuffer s buff _ _ hfresh] at hscan
    obtain ⟨pre, rest, hl, hit, hpre, hrest⟩ :=
      scanRenderList_spec s _ s.mRenderList hnn 0 0 it tl hscan
    have hit' : it = pre.length := by omega
    have hl1 : (stampBuffer s buff (s.mOutput s.mOutputLoadPoint).mTimeUs).mRenderList =
        s.mRenderList := rfl
    unfold updateRenderListPlace at h
    rw [hl1] at h
    split at h
    · obtain ⟨h1, h2⟩ := advanceOutput_eq_ok _ _ _ h
      subst h1 h2
      exact ⟨roundFrame_stamp_release s buff buff _ _ rfl rfl rfl rfl rfl rfl rfl rfl
        (Or.inl rfl), Or.inr (Or.inl ⟨rfl, rfl, rfl, rfl⟩)⟩
    · rename_i hc1
      have hrest' : ∃ x post, rest = some x :: post ∧ tl = getBufferTimestamp s (some x) ∧
          getBufferTimestamp s (some x) ≠ -1 ∧
          scanStops s (s.mOutput s.mOutputLoadPoint).mTimeUs
            (getBufferTimestamp s (some x)) := by
        rcases hrest with hr | hr
        · exfalso
          apply hc1
          right; left
          rw [hit', hl, hr]
          simp
        · exact hr
      obtain ⟨x, post, hr, htl, _, hstop⟩ := hrest'
      have hlx : s.mRenderList = pre ++ some x :: post := by rw [hl, hr]
      split at h
      · rename_i hc2
        rw [hit', hlx, getD_append_cons, set_append_cons] at h
        dsimp only at h
        obtain ⟨h1, h2⟩ := advanceOutput_eq_ok _ _ _ h
        subst h1 h2
        exact ⟨roundFrame_stamp_release s buff x _ _ rfl rfl rfl rfl rfl rfl rfl rfl
          (Or.inl rfl), Or.inr (Or.inr (Or.inl ⟨rfl, rfl, rfl, pre, x, post, hlx, hpre,
            by rw [← htl, ← hc2], rfl⟩))⟩
      · rename_i hc2
        split at h
        · rename_i hc3
          rw [hit', hlx, take_append_length, drop_append_length] at h
          obtain ⟨h1, h2⟩ := advanceOutput_eq_ok _ _ _ h
          subst h1 h2
          have hrate : FRC_RATE_1X < s.mWorker.mFrcRate := by
            rcases hstop with ⟨hgt, _⟩ | ⟨_, heq⟩
            · exact hgt
            · exact absurd (htl ▸ heq) hc2
          exact ⟨roundFrame_stamp_release s buff buff _ _ rfl rfl rfl rfl rfl rfl rfl rfl
            (Or.inr rfl), Or.inr (Or.inr (Or.inr ⟨rfl, rfl, rfl, pre, x, post, hlx, hpre,
              by rw [← htl]; exact hc3, hrate, rfl⟩))⟩
        · obtain ⟨h1, h2⟩ := advanceOutput_eq_ok _ _ _ h
          subst h1 h2
          exact ⟨roundFrame_stamp_release s buff buff _ _ rfl rfl rfl rfl rfl rfl rfl rfl
            (Or.inl rfl), Or.inr (Or.inl ⟨rfl, rfl, rfl, rfl⟩)⟩

/-! ## The order of the render list is kept by a round and by a pass -/

theorem getBufferTimestamp_roundFrame (s s' : VPPProcessor) (buff : Nat) (t : Int)
    (hf : RoundFrame s s' buff t) (e : Option Nat) (he : e ≠ some buff) :
    getBufferTimestamp s' e = getBufferTimestamp s e := by
  apply getBufferTimestamp_heap
  intro p hp
  apply hf.2.2.2.2.2.2.2.2.2.1
  intro hpb
  exact he (by rw [hp, hpb])

theorem getBufferTimestamp_roundFrame_self (s s' : VPPProcessor) (buff : Nat) (t : Int)
    (hf : RoundFrame s s' buff t) : getBufferTimestamp s' (some buff) = t := by
  simp [getBufferTimestamp, hf.2.2.2.2.2.2.2.2.2.2]

theorem map_getBufferTimestamp_roundFrame (s s' : VPPProcessor) (buff : Nat) (t : Int)
    (hf : RoundFrame s s' buff t) (l : List (Option Nat)) (hl : some buff ∉ l) :
    l.map (getBufferTimestamp s') = l.map (getBufferTimestamp s) := by
  apply List.map_congr_left
  intro e he
  apply getBufferTimestamp_roundFrame s s' buff t hf
  intro hc
  exact hl (hc ▸ he)

theorem findMediaBufferIn_congr (heap heap' : Nat → MediaBuffer) (g : Option Nat)
    (l : List BufferInfo) (h : ∀ q, (heap' q).graphicBuffer = (heap q).graphicBuffer) :
    findMediaBufferIn heap' g l = findMediaBufferIn heap g l := by
  induction l with
  | nil => rfl
  | cons info rest ih => simp only [findMediaBufferIn, h, ih]

theorem findMediaBuffer_roundFrame (s s' : VPPProcessor) (buff : Nat) (t : Int)
    (hf : RoundFrame s s' buff t) (vb : VPPBuffer) :
    findMediaBuffer s' vb = findMediaBuffer s vb := by
  unfold findMediaBuffer
  rw [hf.1]
  exact findMediaBufferIn_congr _ _ _ _ hf.2.2.2.2.2.2.2.2.1

theorem ascending_round (s s' : VPPProcessor) (ro : Option status_t) (buff : Nat) (t : Int)
    (hasc : Ascending s) (hnn : NoNull s) (hfresh : some buff ∉ s.mRenderList)
    (hf : RoundFrame s s' buff t) (ho : RoundOutcome s s' ro buff t) :
    Ascending s' ∧ NoNull s' := by
  have hsame : s'.mRenderList = s.mRenderList → Ascending s' ∧ NoNull s' := by
    intro hl
    constructor
    · unfold Ascending renderTimes
      rw [hl, map_getBufferTimestamp_roundFrame s s' buff t hf _ hfresh]
      exact hasc
    · unfold NoNull
      rw [hl]
      exact hnn
  rcases ho with ⟨_, hl, _, _⟩ | ⟨_, hl, _, _⟩ | ⟨_, _, _, pre, x, post, hl, _, hx, hl'⟩ |
    ⟨_, _, _, pre, x, post, hl, hpre, hx, hrate, hl'⟩
  · exact hsame hl
  · exact hsame hl
  · have hpre' : some buff ∉ pre := fun hc => hfresh (by rw [hl]; simp [hc])
    have hpost' : some buff ∉ post := fun hc => hfresh (by rw [hl]; simp [hc])
    constructor
    · unfold Ascending renderTimes at hasc ⊢
      rw [hl] at hasc
      rw [hl']
      simp only [List.map_append, List.map_cons] at hasc ⊢
      rw [map_getBufferTimestamp_roundFrame s s' buff t hf _ hpre',
        map_getBufferTimestamp_roundFrame s s' buff t hf _ hpost',
        getBufferTimestamp_roundFrame_self s s' buff t hf, ← hx]
      exact hasc
    · intro e he
      rw [hl'] at he
      rcases List.mem_append.mp he with h | h
      · exact hnn e (by rw [hl]; simp [h])
      · rcases List.mem_cons.mp h with h | h
        · rw [h]; simp
        · exact hnn e (by rw [hl]; simp [h])
  · have hpre' : some buff ∉ pre := fun hc => hfresh (by rw [hl]; simp [hc])
    have hpost' : some buff ∉ some x :: post := fun hc => hfresh (by rw [hl]; simp [hc])
    have hr1 : s.mWorker.mFrcRate ≠ FRC_RATE_1X := by omega
    constructor
    · unfold Ascending renderTimes at hasc ⊢
      rw [hl] at hasc
      rw [hl']
      rw [List.map_append] at hasc ⊢
      rw [List.map_cons, map_getBufferTimestamp_roundFrame s s' buff t hf _ hpre',
        map_getBufferTimestamp_roundFrame s s' buff t hf _ hpost',
        getBufferTimestamp_roundFrame_self s s' buff t hf]
      rw [List.pairwise_append] at hasc ⊢
      obtain ⟨h1, h2, h3⟩ := hasc
      refine ⟨h1, ?_, ?_⟩
      · rw [List.pairwise_cons]
        refine ⟨?_, h2⟩
        intro b hb
        rw [List.map_cons, List.mem_cons] at hb
        rcases hb with hb | hb
        · rw [hb]; exact hx
        · rw [List.map_cons, List.pairwise_cons] at h2
          exact lt_trans hx (h2.1 b hb)
      · intro a ha b hb
        rcases List.mem_cons.mp hb with hb | hb
        · rw [hb]
          obtain ⟨e, he, rfl⟩ := List.mem_map.mp ha
          obtain ⟨_, hns⟩ := hpre e he
          by_contra hlt
          apply hns
          left
          exact ⟨hrate, not_lt.mp hlt⟩
        · exact h3 a ha b hb
    · intro e he
      rw [hl'] at he
      rcases List.mem_append.mp he with h | h
      · exact hnn e (by rw [hl]; simp [h])
      · rcases List.mem_cons.mp h with h | h
        · rw [h]; simp
        · exact hnn e (by rw [hl]; simp [List.mem_cons.mp h])

theorem freshReady_round (s s' : VPPProcessor) (ro : Option status_t) (buff : Nat) (t : Int)
    (hfr : FreshReady s)
    (hready : (s.mOutput s.mOutputLoadPoint).mStatus = VPP_BUFFER_READY)
    (hbuf : findMediaBuffer s (s.mOutput s.mOutputLoadPoint) = some buff)
    (hf : RoundFrame s s' buff t) (ho : RoundOutcome s s' ro buff t) :
    FreshReady s' := by
  have hsame : s'.mRenderList = s.mRenderList → s'.mOutput = s.mOutput → FreshReady s' := by
    intro hl hout i e hi he
    rw [hout] at hi he
    rw [findMediaBuffer_roundFrame s s' buff t hf] at he
    obtain ⟨h1, h2⟩ := hfr i e hi he
    refine ⟨by rw [hl]; exact h1, ?_⟩
    intro j hj hje
    rw [hout] at hj hje
    rw [findMediaBuffer_roundFrame s s' buff t hf] at hje
    exact h2 j hj hje
  have hmark : s'.mOutput = markRendering s →
      (∀ e ∈ s'.mRenderList, e ∈ s.mRenderList ∨ e = some buff) → FreshReady s' := by
    intro hout hmem
    have hslot : ∀ i, (s'.mOutput i).mStatus = VPP_BUFFER_READY →
        i ≠ s.mOutputLoadPoint ∧ s'.mOutput i = s.mOutput i := by
      intro i hi
      rw [hout] at hi ⊢
      by_cases hil : i = s.mOutputLoadPoint
      · subst hil
        simp [markRendering] at hi
      · exact ⟨hil, by simp [markRendering, Function.update_noteq hil]⟩
    intro i e hi he
    obtain ⟨hil, hsi⟩ := hslot i hi
    rw [hsi] at hi he
    rw [findMediaBuffer_roundFrame s s' buff t hf] at he
    obtain ⟨h1, h2⟩ := hfr i e hi he
    constructor
    · intro hc
      rcases hmem _ hc with h | h
      · exact h1 h
      · have heb : e = buff := Option.some.inj h
        subst heb
        exact hil (h2 s.mOutputLoadPoint hready hbuf).symm
    · intro j hj hje
      obtain ⟨_, hsj⟩ := hslot j hj
      rw [hsj] at hj hje
      rw [findMediaBuffer_roundFrame s s' buff t hf] at hje
      exact h2 j hj hje
  rcases ho with ⟨_, hl, hout, _⟩ | ⟨_, hl, hout, _⟩ | ⟨_, hout, _, pre, x, post, hl, _, _, hl'⟩ |
    ⟨_, hout, _, pre, x, post, hl, _, _, _, hl'⟩
  · exact hsame hl hout
  · exact hsame hl hout
  · apply hmark hout
    intro e he
    rw [hl'] at he
    rw [hl]
    simp only [List.mem_append, List.mem_cons] at he ⊢
    tauto
  · apply hmark hout
    intro e he
    rw [hl'] at he
    rw [hl]
    simp only [List.mem_append, List.mem_cons] at he ⊢
    tauto

theorem updateRenderListBody_inv (s s' : VPPProcessor) (ro : Option status_t)
    (hnn : NoNull s) (hasc : Ascending s) (hfr : FreshReady s)
    (hready : (s.mOutput s.mOutputLoadPoint).mStatus = VPP_BUFFER_READY)
    (h : updateRenderListBody s = .ok (ro, s')) :
    NoNull s' ∧ Ascending s' ∧ FreshReady s' := by
  cases hbuf : findMediaBuffer s (s.mOutput s.mOutputLoadPoint) with
  | none =>
    unfold updateRenderListBody at h
    rw [hbuf] at h
    simp only [Except.ok.injEq, Prod.mk.injEq] at h
    rw [← h.2]
    exact ⟨hnn, hasc, hfr⟩
  | some buff =>
    by_cases hset : (s.mOutput s.mOutputLoadPoint).mTimeUs = -1
    · unfold updateRenderListBody at h
      rw [hbuf] at h
      dsimp only at h
      rw [if_pos hset] at h
      simp only [Except.ok.injEq, Prod.mk.injEq] at h
      rw [← h.2]
      exact ⟨hnn, hasc, hfr⟩
    · have hfresh := (hfr _ buff hready hbuf).1
      obtain ⟨hf, ho⟩ := updateRenderListBody_cases s s' ro buff hbuf hset hfresh hnn h
      obtain ⟨h1, h2⟩ := ascending_round s s' ro buff _ hasc hnn hfresh hf ho
      exact ⟨h2, h1, freshReady_round s s' ro buff _ hfr hready hbuf hf ho⟩

theorem updateRenderList_inv (fuel : Nat) :
    ∀ (s s' : VPPProcessor) (r : status_t), NoNull s → Ascending s → FreshReady s →
      updateRenderList fuel s = .ok (r, s') → NoNull s' ∧ Ascending s' ∧ FreshReady s' := by
  induction fuel with
  | zero =>
    intro s s' r _ _ _ h
    simp [updateRenderList] at h
  | succ fuel ih =>
    intro s s' r hnn hasc hfr h
    unfold updateRenderList at h
    split at h
    · rename_i hready
      split at h
      · simp at h
      · rename_i r1 s1 hbody
        simp only [Except.ok.injEq, Prod.mk.injEq] at h
        rw [← h.2]
        exact updateRenderListBody_inv s s1 (some r1) hnn hasc hfr hready hbody
      · rename_i s1 hbody
        obtain ⟨h1, h2, h3⟩ := updateRenderListBody_inv s s1 none hnn hasc hfr hready hbody
        exact ih s1 s' r h1 h2 h3 h
    · simp only [Except.ok.injEq, Prod.mk.injEq] at h
      rw [← h.2]
      exact ⟨hnn, hasc, hfr⟩

/-! ## The order of the render list over runs -/

theorem add_ref_graphicBuffer (heap : Nat → MediaBuffer) (p q : Nat) :
    (add_ref heap p q).graphicBuffer = (heap q).graphicBuffer := by
  unfold add_ref
  by_cases h : q = p
  · subst h; simp
  · simp [Function.update_noteq h]

theorem add_ref_kKeyTime (heap : Nat → MediaBuffer) (p q : Nat) :
    (add_ref heap p q).kKeyTime = (heap q).kKeyTime := by
  unfold add_ref
  by_cases h : q = p
  · subst h; simp
  · simp [Function.update_noteq h]

theorem setDecoderBufferToVPP_effect (s s' : VPPProcessor) (buff : Option Nat) (r : status_t)
    (h : setDecoderBufferToVPP s buff = .ok (r, s')) :
    (buff = none ∧ s' = s) ∨
      (∃ p, buff = some p ∧ s'.mRenderList = s.mRenderList ++ [some p] ∧
        (∀ q, (s'.heap q).kKeyTime = (s.heap q).kKeyTime) ∧
        (∀ q, (s'.heap q).graphicBuffer = (s.heap q).graphicBuffer) ∧
        s'.mOutput = s.mOutput ∧ s'.mBufferInfos = s.mBufferInfos) := by
  cases buff with
  | none =>
    simp only [setDecoderBufferToVPP, Except.ok.injEq, Prod.mk.injEq] at h
    exact Or.inl ⟨rfl, h.2.symm⟩
  | some p =>
    right
    refine ⟨p, rfl, ?_⟩
    simp only [setDecoderBufferToVPP] at h
    split at h
    · split at h
      · simp only [Except.ok.injEq, Prod.mk.injEq] at h
        rw [← h.2]
        exact ⟨rfl, add_ref_kKeyTime _ p, add_ref_graphicBuffer _ p, rfl, rfl⟩
      · split at h
        · simp at h
        · simp only [Except.ok.injEq, Prod.mk.injEq] at h
          rw [← h.2]
          exact ⟨rfl, add_ref_kKeyTime _ p, add_ref_graphicBuffer _ p, rfl, rfl⟩
    · simp only [Except.ok.injEq, Prod.mk.injEq] at h
      rw [← h.2]
      exact ⟨rfl, fun _ => rfl, fun _ => rfl, rfl, rfl⟩

theorem reach_ascending_inv (s : VPPProcessor) (h : Reach true s) :
    NoNull s ∧ Ascending s ∧ FreshReady s := by
  induction h with
  | start s h0 =>
    refine ⟨?_, ?_, ?_⟩
    · intro e he
      rw [h0.1] at he
      simp at he
    · unfold Ascending renderTimes
      rw [h0.1]
      simp
    · intro i e hi _
      rw [h0.2.2.1 i] at hi
      exact absurd hi (by decide)
  | submit s s' buff r _ hown hg hsub ih =>
    rcases setDecoderBufferToVPP_effect s s' buff r hsub with
      ⟨_, hs⟩ | ⟨p, hbp, hl, hk, hgb, hout, hinfos⟩
    · rw [hs]; exact ih
    · have hts : ∀ e, getBufferTimestamp s' e = getBufferTimestamp s e :=
        fun e => getBufferTimestamp_heap s s' e (fun q _ => hk q)
      have hfm : ∀ vb, findMediaBuffer s' vb = findMediaBuffer s vb := by
        intro vb
        unfold findMediaBuffer
        rw [hinfos]
        exact findMediaBufferIn_congr _ _ _ _ hgb
      refine ⟨?_, ?_, ?_⟩
      · intro e he
        rw [hl] at he
        rcases List.mem_append.mp he with h | h
        · exact ih.1 e h
        · simp at h
          rw [h]
          simp
      · unfold Ascending renderTimes
        rw [hl, List.map_append, List.pairwise_append]
        have hfun : getBufferTimestamp s' = getBufferTimestamp s := funext hts
        rw [hfun]
        refine ⟨ih.2.1, by simp, ?_⟩
        intro a ha b hb
        obtain ⟨e, he, rfl⟩ := List.mem_map.mp ha
        simp only [List.map_cons, List.map_nil, List.mem_singleton] at hb
        rw [hb, ← hbp]
        exact hg rfl e he
      · intro i e hi he
        rw [hout] at hi he
        rw [hfm] at he
        obtain ⟨h1, h2⟩ := ih.2.2 i e hi he
        constructor
        · rw [hl]
          intro hc
          rcases List.mem_append.mp hc with hc | hc
          · exact h1 hc
          · simp only [List.mem_singleton, Option.some.injEq] at hc
            rcases hown i hi with hn | hn
            · rw [hbp] at hn
              simp at hn
            · rw [he, hbp, hc] at hn
              exact hn rfl
        · intro j hj hje
          rw [hout] at hj hje
          rw [hfm] at hje
          exact h2 j hj hje
  | worker s out _ hfr ih => exact ⟨ih.1, ih.2.1, hfr⟩
  | merge s s' fuel r _ hm ih => exact updateRenderList_inv fuel s s' r ih.1 ih.2.1 ih.2.2 hm

theorem isEmpty_exInit (rate : Nat) : IsEmpty (exInit rate) :=
  ⟨rfl, fun _ => rfl, fun _ => rfl, rfl, rfl⟩

theorem exInit_not_ready (rate : Nat) (buff : Option Nat) (i : Nat)
    (h : ((exInit rate).mOutput i).mStatus = VPP_BUFFER_READY) :
    buff = none ∨ findMediaBuffer (exInit rate) ((exInit rate).mOutput i) ≠ buff :=
  VPPBufferStatus.noConfusion h

/-- C1 as stated fails: from the empty orchestrator `exInit 1`, the submit of buffer 2
(timestamp 33) followed by the submit of buffer 1 (timestamp 0) leads to a render list with
the timestamps 33, 0, which is not ascending. -/
theorem renderList_not_always_ascending :
    ∃ s, Reach false s ∧ s.mRenderList = [some 2, some 1] ∧ renderTimes s = [33, 0] ∧
      ¬ Ascending s := by
  refine ⟨_, Reach.submit _ _ (some 1) VPP_OK
    (Reach.submit (exInit 1) _ (some 2) VPP_OK (Reach.start _ (isEmpty_exInit 1))
      (exInit_not_ready 1 _) (fun h => absurd h (by decide)) rfl)
    (fun i h => VPPBufferStatus.noConfusion h) (fun h => absurd h (by decide)) rfl,
    rfl, rfl, ?_⟩
  intro h
  have h2 : (33 : Int) < 0 := by
    have h3 := List.pairwise_cons.mp h
    exact h3.1 0 (by decide)
  exact absurd h2 (by decide)

/-- C1, amended: in every state reachable from an empty orchestrator by submit calls and
merge passes (the Worker writing the output ring in between, with arbitrary enhanced
timestamps), provided that every submitted buffer carries a timestamp above all timestamps
in the render list, the timestamps of the render list are strictly ascending from head to
tail, so no two entries share a timestamp. -/
theorem renderList_ascending (s : VPPProcessor) (h : Reach true s) : Ascending s :=
  (reach_ascending_inv s h).2.1

theorem freshReady_exB (s : VPPProcessor) (hout : s.mOutput = exB.mOutput)
    (hinfos : s.mBufferInfos = exInfos)
    (hg : ∀ q, (s.heap q).graphicBuffer = (exHeap q).graphicBuffer)
    (hl : s.mRenderList = [some 1, some 2]) : FreshReady s := by
  have hzero : ∀ i, (exB.mOutput i).mStatus = VPP_BUFFER_READY → i = 0 := by
    intro i hi
    by_contra hne
    simp [exB, exInit, exSlot, hne] at hi
  have hfind : findMediaBuffer s (exB.mOutput 0) = some 4 := by
    unfold findMediaBuffer
    rw [hinfos, findMediaBufferIn_congr exHeap s.heap _ _ hg]
    rfl
  intro i e hi he
  rw [hout] at hi he
  have hi0 := hzero i hi
  subst hi0
  rw [hfind] at he
  have he4 : e = 4 := (Option.some.inj he).symm
  subst he4
  constructor
  · rw [hl]
    decide
  · intro j hj _
    rw [hout] at hj
    exact hzero j hj

theorem reach_exB_merged :
    ∃ s, Reach true s ∧ s.mRenderList = [some 1, some 4, some 2] ∧
      renderTimes s = [0, 16, 33] := by
  refine ⟨_, Reach.merge _ _ 2 VPP_OK
    (Reach.worker _ exB.mOutput
      (Reach.submit _ _ (some 2) VPP_OK
        (Reach.submit (exInit 2) _ (some 1) VPP_OK (Reach.start _ (isEmpty_exInit 2))
          (exInit_not_ready 2 _) (fun _ => by decide) rfl)
        (fun i h => VPPBufferStatus.noConfusion h) (fun _ => by decide) rfl)
      (freshReady_exB _ rfl rfl ?_ rfl)) rfl, rfl, rfl⟩
  intro q
  show (add_ref (add_ref exHeap 1) 2 q).graphicBuffer = (exHeap q).graphicBuffer
  rw [add_ref_graphicBuffer, add_ref_graphicBuffer]

/-- Witness for the amended C1 (Scenario B): the buffers 1 and 2 (timestamps 0 and 33) are
submitted, the Worker delivers buffer 4 with timestamp 16 in output slot 0, and a merge pass
runs; the render list then holds the buffers 1, 4, 2 with the timestamps 0, 16, 33. -/
theorem renderList_ascending_witness :
    ∃ s, s.mRenderList = [some 1, some 4, some 2] ∧ renderTimes s = [0, 16, 33] ∧
      Ascending s :=
  reach_exB_merged.elim fun s h => ⟨s, h.2.1, h.2.2, renderList_ascending s h.1⟩

/-! ## Scenario A: in-order frames at rate factor 1 -/

theorem mod_succ_add (a j m : Nat) : ((a + 1) % m + j) % m = (a + (j + 1)) % m := by
  rw [Nat.mod_add_mod]
  congr 1
  omega

theorem add_mod_ne_self (a k m : Nat) (ha : a < m) (hk0 : 0 < k) (hk : k < m) :
    (a + k) % m ≠ a := by
  by_cases h : a + k < m
  · rw [Nat.mod_eq_of_lt h]
    omega
  · rw [Nat.mod_eq_sub_mod (by omega), Nat.mod_eq_of_lt (by omega)]
    omega

theorem setDecoderBufferToVPP_ok_frame (s s1 : VPPProcessor) (p : Nat)
    (h : setDecoderBufferToVPP s (some p) = .ok (VPP_OK, s1)) :
    s1.mRenderList = s.mRenderList ++ [some p] ∧ SubmitFrame s s1 := by
  simp only [setDecoderBufferToVPP] at h
  split at h
  · split at h
    · simp at h
    · split at h
      · simp at h
      · simp only [Except.ok.injEq, Prod.mk.injEq, true_and] at h
        rw [← h]
        exact ⟨rfl, rfl, rfl, rfl, rfl, rfl, rfl, rfl, add_ref_kKeyTime _ _,
          add_ref_graphicBuffer _ _⟩
  · simp at h

theorem submitAll_effect (bs : List Nat) :
    ∀ (s s1 : VPPProcessor), submitAll s bs = some s1 →
      s1.mRenderList = s.mRenderList ++ bs.map some ∧ SubmitFrame s s1 := by
  induction bs with
  | nil =>
    intro s s1 h
    simp only [submitAll, Option.some.injEq] at h
    rw [← h]
    exact ⟨by simp, rfl, rfl, rfl, rfl, rfl, rfl, rfl, fun _ => rfl, fun _ => rfl⟩
  | cons b rest ih =>
    intro s s1 h
    simp only [submitAll] at h
    split at h
    · rename_i s2 hs
      obtain ⟨hl, h1, h2, h3, h4, h5, h6, h7, h8, h9⟩ := setDecoderBufferToVPP_ok_frame s s2 b hs
      obtain ⟨hl', g1, g2, g3, g4, g5, g6, g7, g8, g9⟩ := ih s2 s1 h
      refine ⟨?_, g1.trans h1, g2.trans h2, g3.trans h3, g4.trans h4, g5.trans h5,
        g6.trans h6, g7.trans h7, fun q => (g8 q).trans (h8 q), fun q => (g9 q).trans (h9 q)⟩
      rw [hl', hl]
      simp
    · simp at h

theorem getBufferTimestamp_ne_none (s : VPPProcessor) (e : Option Nat)
    (h : getBufferTimestamp s e ≠ -1) : e ≠ none := by
  intro he
  rw [he] at h
  exact h rfl

/-- A merge pass at rate factor 1 over READY slots that echo, in order, the timestamps of the
placeholders `todo` that follow the entries `pre` in the render list. -/
theorem updateRenderList_exactRun (todo : List Frame) :
    ∀ (s : VPPProcessor) (pre : List (Option Nat)),
      s.mWorker.mFrcRate = FRC_RATE_1X →
      s.mOutputLoadPoint < s.mOutputBufferNum →
      todo.length ≤ s.mOutputBufferNum →
      s.mRenderList = pre ++ todo.map (fun f => some f.decoded) →
      (∀ e ∈ pre, getBufferTimestamp s e ≠ -1 ∧
        ∀ f ∈ todo, getBufferTimestamp s e ≠ f.timeUs) →
      (∀ f ∈ todo, f.timeUs ≠ -1 ∧ getBufferTimestamp s (some f.decoded) = f.timeUs) →
      (todo.map (fun f => f.timeUs)).Nodup →
      (∀ j f, todo[j]? = some f →
        (s.mOutput ((s.mOutputLoadPoint + j) % s.mOutputBufferNum)).mStatus =
          VPP_BUFFER_READY ∧
        (s.mOutput ((s.mOutputLoadPoint + j) % s.mOutputBufferNum)).mTimeUs = f.timeUs ∧
        findMediaBuffer s (s.mOutput ((s.mOutputLoadPoint + j) % s.mOutputBufferNum)) =
          some f.enhanced) →
      ((s.mOutput ((s.mOutputLoadPoint + todo.length) % s.mOutputBufferNum)).mStatus ≠
          VPP_BUFFER_READY ∨
        (todo ≠ [] ∧
          (s.mOutputLoadPoint + todo.length) % s.mOutputBufferNum = s.mOutputLoadPoint)) →
      (todo.map (fun f => f.enhanced)).Nodup →
      (∀ f ∈ todo, some f.enhanced ∉ pre ∧ ∀ g ∈ todo, f.enhanced ≠ g.decoded) →
      ∃ s', updateRenderList (todo.length + 1) s = .ok (VPP_OK, s') ∧
        s'.mRenderList = pre ++ todo.map (fun f => some f.enhanced) ∧
        (∀ f ∈ todo, getBufferTimestamp s' (some f.enhanced) = f.timeUs) ∧
        (∀ q, (∀ f ∈ todo, q ≠ f.enhanced) → (s'.heap q).kKeyTime = (s.heap q).kKeyTime) ∧
        s'.mBufferInfos = s.mBufferInfos ∧ s'.mProcThread = s.mProcThread ∧
        s'.mEOS = s.mEOS := by
  induction todo with
  | nil =>
    intro s pre _ holp _ hlist _ _ _ _ hstop _ _
    have hnr : (s.mOutput s.mOutputLoadPoint).mStatus ≠ VPP_BUFFER_READY := by
      rcases hstop with h | ⟨h, _⟩
      · simpa [Nat.mod_eq_of_lt holp] using h
      · exact absurd rfl h
    refine ⟨s, ?_, by simpa using hlist, by simp, fun _ _ => rfl, rfl, rfl, rfl⟩
    simp only [List.length_nil, updateRenderList, hnr, if_false]
  | cons f todo ih =>
    intro s pre hrate holp hfit hlist hpre htodo hnd hslots hstop hend hdisj
    have hnum : 0 < s.mOutputBufferNum := by omega
    have hmem : f ∈ f :: todo := List.mem_cons_self _ _
    obtain ⟨hready, htime, hbuf⟩ := hslots 0 f (by simp)
    simp only [Nat.add_zero, Nat.mod_eq_of_lt holp] at hready htime hbuf
    have hset : (s.mOutput s.mOutputLoadPoint).mTimeUs ≠ -1 := by
      rw [htime]
      exact (htodo f hmem).1
    have hfresh : some f.enhanced ∉ s.mRenderList := by
      rw [hlist]
      intro hc
      rcases List.mem_append.mp hc with hc | hc
      · exact (hdisj f hmem).1 hc
      · obtain ⟨g, hg, hge⟩ := List.mem_map.mp hc
        exact (hdisj f hmem).2 g hg (Option.some.inj hge).symm
    have hpass : ∀ e ∈ pre, scanPasses s (s.mOutput s.mOutputLoadPoint).mTimeUs e := by
      intro e he
      rw [htime]
      refine ⟨(hpre e he).1, ?_⟩
      rintro (⟨h, _⟩ | ⟨_, h⟩)
      · omega
      · exact (hpre e he).2 f hmem h.symm
    have hx : getBufferTimestamp s (some f.decoded) = (s.mOutput s.mOutputLoadPoint).mTimeUs := by
      rw [htime]
      exact (htodo f hmem).2
    have hlist' : s.mRenderList =
        pre ++ some f.decoded :: todo.map (fun f => some f.decoded) := by
      rw [hlist]
      rfl
    obtain ⟨s1, hb, hl1, hout1, holp1, _, _⟩ :=
      updateRenderListBody_exact_core s f.enhanced f.decoded pre _ hnum hbuf hset hfresh
        (by omega) hlist' hpass hx
    have hnn : NoNull s := by
      intro e he
      rw [hlist] at he
      rcases List.mem_append.mp he with he | he
      · exact getBufferTimestamp_ne_none s e (hpre e he).1
      · obtain ⟨g, _, hge⟩ := List.mem_map.mp he
        rw [← hge]
        simp
    obtain ⟨hf, _⟩ := updateRenderListBody_cases s s1 none f.enhanced hbuf hset hfresh hnn hb
    rw [htime] at hf
    have hts : ∀ e, e ≠ some f.enhanced →
        getBufferTimestamp s1 e = getBufferTimestamp s e :=
      fun e he => getBufferTimestamp_roundFrame s s1 _ _ hf e he
    have hne1 : s1.mOutputBufferNum = s.mOutputBufferNum := hf.2.2.2.2.2.2.2.1
    have hslot1 : ∀ k, 0 < k → k < s.mOutputBufferNum →
        s1.mOutput ((s.mOutputLoadPoint + k) % s.mOutputBufferNum) =
          s.mOutput ((s.mOutputLoadPoint + k) % s.mOutputBufferNum) := by
      intro k hk0 hk
      rw [hout1]
      unfold markRendering
      rw [Function.update_noteq (add_mod_ne_self _ _ _ holp hk0 hk)]
    have hnd' := List.nodup_cons.mp hnd
    have hend' := List.nodup_cons.mp hend
    simp only [List.length_cons] at hfit
    obtain ⟨s', hrun, hl', hts', hk', hi', hp', he'⟩ := ih s1 (pre ++ [some f.enhanced])
      (by rw [hf.2.1]; exact hrate)
      (by rw [holp1, hne1]; exact Nat.mod_lt _ hnum)
      (by rw [hne1]; omega)
      (by rw [hl1]; simp)
      (by
        intro e he
        rcases List.mem_append.mp he with he | he
        · have hene : e ≠ some f.enhanced := fun hc => (hdisj f hmem).1 (hc ▸ he)
          rw [hts e hene]
          exact ⟨(hpre e he).1, fun g hg => (hpre e he).2 g (List.mem_cons_of_mem _ hg)⟩
        · simp only [List.mem_singleton] at he
          rw [he, getBufferTimestamp_roundFrame_self s s1 _ _ hf]
          refine ⟨(htodo f hmem).1, ?_⟩
          intro g hg hc
          exact hnd'.1 (List.mem_map.mpr ⟨g, hg, hc.symm⟩))
      (by
        intro g hg
        have hgm : g ∈ f :: todo := List.mem_cons_of_mem _ hg
        have hne : (some g.decoded : Option Nat) ≠ some f.enhanced := by
          intro hc
          exact (hdisj f hmem).2 g hgm (Option.some.inj hc).symm
        rw [hts _ hne]
        exact htodo g hgm)
      hnd'.2
      (by
        intro j g hj
        rw [holp1, hne1, mod_succ_add]
        have hjlt : j < todo.length := by
          rcases Nat.lt_or_ge j todo.length with h | h
          · exact h
          · rw [List.getElem?_eq_none h] at hj
            simp at hj
        rw [hslot1 (j + 1) (by omega) (by omega), findMediaBuffer_roundFrame s s1 _ _ hf]
        exact hslots (j + 1) g (by simpa using hj))
      (by
        left
        rw [holp1, hne1, mod_succ_add, hout1]
        unfold markRendering
        by_cases hq : (s.mOutputLoadPoint + (todo.length + 1)) % s.mOutputBufferNum =
            s.mOutputLoadPoint
        · rw [hq]
          simp
        · rw [Function.update_noteq hq]
          rcases hstop with h | ⟨_, h⟩
          · simpa using h
          · exact absurd (by simpa using h) hq)
      hend'.2
      (by
        intro g hg
        have hgm : g ∈ f :: todo := List.mem_cons_of_mem _ hg
        constructor
        · intro hc
          rcases List.mem_append.mp hc with hc | hc
          · exact (hdisj g hgm).1 hc
          · simp only [List.mem_singleton, Option.some.injEq] at hc
            exact hend'.1 (List.mem_map.mpr ⟨g, hg, hc⟩)
        · intro h hh
          exact (hdisj g hgm).2 h (List.mem_cons_of_mem _ hh))
    have hfe : ∀ g ∈ todo, f.enhanced ≠ g.enhanced := by
      intro g hg hc
      exact hend'.1 (List.mem_map.mpr ⟨g, hg, hc.symm⟩)
    refine ⟨s', ?_, ?_, ?_, ?_, hi'.trans hf.1, hp'.trans hf.2.2.1, he'.trans hf.2.2.2.1⟩
    · rw [List.length_cons, updateRenderList_round _ s s1 hready hb]
      exact hrun
    · rw [hl']
      simp
    · intro g hg
      rcases List.mem_cons.mp hg with hg | hg
      · rw [hg]
        have hk1 := hk' f.enhanced hfe
        simp only [getBufferTimestamp, hk1, hf.2.2.2.2.2.2.2.2.2.2]
      · exact hts' g hg
    · intro q hq
      rw [hk' q (fun g hg => hq g (List.mem_cons_of_mem _ hg))]
      exact hf.2.2.2.2.2.2.2.2.2.1 q (hq f hmem)

theorem findBufferInfoFrom_of_findMediaBufferIn (heap : Nat → MediaBuffer) (g : Option Nat)
    (l : List BufferInfo) (e : Nat) (h : findMediaBufferIn heap g l = some e) (k : Nat) :
    (findBufferInfoFrom (some e) l k).isSome := by
  induction l generalizing k with
  | nil => simp [findMediaBufferIn] at h
  | cons info rest ih =>
    simp only [findMediaBufferIn] at h
    simp only [findBufferInfoFrom]
    split at h
    · simp only [Option.some.injEq] at h
      simp [h]
    · split
      · simp
      · exact ih h (k + 1)

/-- C5 (Scenario A generalised). Rate factor 1, empty render list, no Worker error, no end
of stream signalled. The frames carry strictly ascending, set timestamps; every decoded
buffer is submitted and every submit returns OK (each goes into a free input slot); the
output slots from the output load pointer on are READY with the same timestamps in the same
order, bound to pairwise distinct buffers that are none of the decoded ones, the frames are
no more than the output capacity, and the slot after them (if any is left) is not READY.
Then one merge pass returns OK, the following fetches return OK with exactly the enhanced
buffers in order, each carrying its timestamp, and the fetch after them returns
NOT_READY. -/
theorem read_after_merge_in_order (w : Bool) (s0 s1 : VPPProcessor) (frames : List Frame)
    (t : VPPProcThread)
    (hrate : s0.mWorker.mFrcRate = FRC_RATE_1X)
    (hempty : s0.mRenderList = [])
    (hthread : s0.mProcThread = some t) (herr : t.mError = false)
    (heos : s0.mEOS = false)
    (hasc : (frames.map (fun f => f.timeUs)).Pairwise (· < ·))
    (hset : ∀ f ∈ frames, f.timeUs ≠ -1)
    (htime : ∀ f ∈ frames, getBufferTimestamp s0 (some f.decoded) = f.timeUs)
    (hsub : submitAll s0 (frames.map (fun f => f.decoded)) = some s1)
    (holp : s0.mOutputLoadPoint < s0.mOutputBufferNum)
    (hfit : frames.length ≤ s0.mOutputBufferNum)
    (hout : ∀ j f, frames[j]? = some f →
      (s0.mOutput ((s0.mOutputLoadPoint + j) % s0.mOutputBufferNum)).mStatus =
        VPP_BUFFER_READY ∧
      (s0.mOutput ((s0.mOutputLoadPoint + j) % s0.mOutputBufferNum)).mTimeUs = f.timeUs ∧
      findMediaBuffer s0 (s0.mOutput ((s0.mOutputLoadPoint + j) % s0.mOutputBufferNum)) =
        some f.enhanced)
    (hstop : frames.length < s0.mOutputBufferNum →
      (s0.mOutput ((s0.mOutputLoadPoint + frames.length) % s0.mOutputBufferNum)).mStatus ≠
        VPP_BUFFER_READY)
    (hnodup : (frames.map (fun f => f.enhanced)).Nodup)
    (hdisj : ∀ f ∈ frames, ∀ g ∈ frames, f.enhanced ≠ g.decoded) :
    ∃ s2 s3, updateRenderList (frames.length + 1) s1 = .ok (VPP_OK, s2) ∧
      readTimes w frames.length s2 none =
        .ok (frames.map (fun f => (VPP_OK, some f.enhanced)), s3) ∧
      (∀ f ∈ frames, getBufferTimestamp s3 (some f.enhanced) = f.timeUs) ∧
      s3.mRenderList = [] ∧
      ∀ b, read w s3 b = .ok (VPP_BUFFER_NOT_READY, b, s3) := by
  obtain ⟨hl1, ho, hp, hn, hi, hw, hpt, he, hk, hg⟩ := submitAll_effect _ s0 s1 hsub
  have hfm : ∀ vb, findMediaBuffer s1 vb = findMediaBuffer s0 vb := by
    intro vb
    unfold findMediaBuffer
    rw [hi]
    exact findMediaBufferIn_congr _ _ _ _ hg
  have hts : ∀ e, getBufferTimestamp s1 e = getBufferTimestamp s0 e :=
    fun e => getBufferTimestamp_heap s0 s1 e (fun q _ => hk q)
  obtain ⟨s2, hrun, hl2, hts2, _, hi2, hp2, he2⟩ := updateRenderList_exactRun frames s1 []
    (by rw [hw]; exact hrate)
    (by rw [hp, hn]; exact holp)
    (by rw [hn]; exact hfit)
    (by rw [hl1, hempty, List.map_map]; rfl)
    (by simp)
    (fun f hf => ⟨hset f hf, by rw [hts]; exact htime f hf⟩)
    (hasc.imp (fun h => ne_of_lt h))
    (by
      intro j f hj
      rw [ho, hp, hn, hfm]
      exact hout j f hj)
    (by
      rw [ho, hp, hn]
      rcases Nat.lt_or_ge frames.length s0.mOutputBufferNum with h | h
      · exact Or.inl (hstop h)
      · right
        have hlen : frames.length = s0.mOutputBufferNum := le_antisymm hfit h
        constructor
        · intro hc
          rw [hc] at hlen
          simp only [List.length_nil] at hlen
          omega
        · rw [hlen, Nat.add_mod_right, Nat.mod_eq_of_lt holp])
    hnodup
    (fun f hf => ⟨by simp, hdisj f hf⟩)
  simp only [List.nil_append] at hl2
  obtain ⟨s3, hread, hl3, hp3, he3, hh3⟩ := readTimes_all w
    (frames.map (fun f => some f.enhanced)) s2 none t
    (by rw [hp2, hpt]; exact hthread) herr hl2
    (by
      intro e he
      obtain ⟨f, hf, hfe⟩ := List.mem_map.mp he
      obtain ⟨j, hj⟩ := List.mem_iff_getElem?.mp hf
      have hfound := (hout j f hj).2.2
      rw [← hfe]
      unfold findBufferInfo
      rw [hi2, hi]
      exact findBufferInfoFrom_of_findMediaBufferIn _ _ _ _ hfound 0)
  refine ⟨s2, s3, hrun, ?_, ?_, hl3, ?_⟩
  · simpa [List.map_map, Function.comp_def] using hread
  · intro f hf
    rw [getBufferTimestamp_heap s2 s3 _ (fun q _ => by rw [hh3])]
    exact hts2 f hf
  · intro b
    rw [read_no_error w s3 b t hp3 herr]
    have he3' : s3.mEOS = false := by rw [he3, he2, he]; exact heos
    simp [readList, hl3, he3']

/-- Witness for C5 (Scenario A): the timestamps 0, 33, 66 are submitted in the buffers
1, 2, 3 and echoed in the buffers 4, 5, 6; after one merge pass three fetches return the
buffers 4, 5, 6 and the fourth fetch returns NOT_READY. -/
theorem read_after_merge_in_order_witness :
    ∃ s1, submitAll exA0 [1, 2, 3] = some s1 ∧
      ∃ s2 s3, updateRenderList 4 s1 = .ok (VPP_OK, s2) ∧
        readTimes true 3 s2 none =
          .ok ([(VPP_OK, some 4), (VPP_OK, some 5), (VPP_OK, some 6)], s3) ∧
        (∀ f ∈ exFrames, getBufferTimestamp s3 (some f.enhanced) = f.timeUs) ∧
        s3.mRenderList = [] ∧
        ∀ b, read true s3 b = .ok (VPP_BUFFER_NOT_READY, b, s3) :=
  ⟨_, rfl, read_after_merge_in_order true exA0 _ exFrames
    { mError := false, mSeek := false, mEOS := false } rfl rfl rfl rfl rfl
    (by decide) (by decide) (by decide) rfl (by decide) (by decide)
    (by
      intro j f hj
      rcases j with _ | _ | _ | j
      · simp only [exFrames, List.getElem?_cons_zero, Option.some.injEq] at hj
        subst hj
        exact ⟨rfl, rfl, rfl⟩
      · simp only [exFrames, List.getElem?_cons_succ, List.getElem?_cons_zero,
          Option.some.injEq] at hj
        subst hj
        exact ⟨rfl, rfl, rfl⟩
      · simp only [exFrames, List.getElem?_cons_succ, List.getElem?_cons_zero,
          Option.some.injEq] at hj
        subst hj
        exact ⟨rfl, rfl, rfl⟩
      · simp [exFrames] at hj)
    (fun h => absurd h (by decide)) (by decide) (by decide)⟩

/-! ## Backpressure query -/

/-- C10 as stated fails: in `exEos` a Worker is running, the merge pass and the input
cleanup leave an empty render list and a FREE input slot, so the formula of the claim
(some input slot FREE, and list empty or flag unset) holds; the query returns false. -/
theorem canSetDecoderBufferToVPP_eos_refuses :
    ∃ s2, canSetDecoderBufferToVPP 1 exEos = .ok (false, s2) ∧
      exEos.mThreadRunning = true ∧
      ((∃ i, i < s2.mInputBufferNum ∧ (s2.mInput i).mStatus = VPP_BUFFER_FREE) ∧
        (s2.mRenderList = [] ∨ s2.mEOS = false)) :=
  ⟨_, rfl, rfl, ⟨0, by decide, by decide⟩, Or.inl rfl⟩

/-- C10, amended: the query returns true when no Worker is running; when a Worker is running
and the merge pass returns OK, it returns, evaluated on the state after that merge pass and
one input cleanup, true exactly when the end-of-stream flag is unset and (the render list is
empty or the input slot at the input load pointer is FREE). -/
theorem canSetDecoderBufferToVPP_running (fuel : Nat) (s s1 : VPPProcessor)
    (t : VPPProcThread) (hrun : s.mThreadRunning = true)
    (hmerge : updateRenderList fuel s = .ok (VPP_OK, s1))
    (ht : s1.mProcThread = some t) :
    (∀ s0 : VPPProcessor, s0.mThreadRunning = false →
        canSetDecoderBufferToVPP fuel s0 = .ok (true, s0)) ∧
      ∃ b, canSetDecoderBufferToVPP fuel s = .ok (b, clearInput s1) ∧
        (b = true ↔ ((clearInput s1).mEOS = false ∧
          ((clearInput s1).mRenderList = [] ∨
            ((clearInput s1).mInput (clearInput s1).mInputLoadPoint).mStatus =
              VPP_BUFFER_FREE))) := by
  constructor
  · intro s0 h0
    simp [canSetDecoderBufferToVPP, h0]
  · simp only [canSetDecoderBufferToVPP, hrun, hmerge, ht]
    by_cases hc : ((clearInput s1).mEOS = false ∧
          ((clearInput s1).mRenderList = [] ∨
            ((clearInput s1).mInput (clearInput s1).mInputLoadPoint).mStatus =
              VPP_BUFFER_FREE))
    · refine ⟨true, ?_, by simp [hc]⟩
      simp [hc]
    · refine ⟨false, ?_, by simp [hc]⟩
      simp at hc
      simp
      intro h1
      exact hc h1

/-- Witness for the amended C10: in `exA` a Worker is running and the merge pass replaces
the three placeholders and returns OK. -/
theorem canSetDecoderBufferToVPP_running_witness :
    (∀ s0 : VPPProcessor, s0.mThreadRunning = false →
        canSetDecoderBufferToVPP 4 s0 = .ok (true, s0)) ∧
      ∃ b, canSetDecoderBufferToVPP 4 exA = .ok (b, clearInput exAMerged) ∧
        (b = true ↔ ((clearInput exAMerged).mEOS = false ∧
          ((clearInput exAMerged).mRenderList = [] ∨
            ((clearInput exAMerged).mInput (clearInput exAMerged).mInputLoadPoint).mStatus =
              VPP_BUFFER_FREE))) :=
  canSetDecoderBufferToVPP_running 4 exA exAMerged
    { mError := false, mSeek := false, mEOS := false } rfl rfl rfl

/-- C11 as stated fails: in `exBusy` a Worker is running, no input slot is FREE and the slot
at the input load pointer is occupied, so the claim has the query return false; the render
list is empty and the end-of-stream flag unset, and the query returns true. -/
theorem canSetDecoderBufferToVPP_busy_accepts :
    ∃ s2, canSetDecoderBufferToVPP 1 exBusy = .ok (true, s2) ∧
      exBusy.mThreadRunning = true ∧
      (∀ i, i < s2.mInputBufferNum → (s2.mInput i).mStatus ≠ VPP_BUFFER_FREE) ∧
      ((s2.mEOS = false ∧ s2.mRenderList ≠ []) ∨
        (s2.mInput s2.mInputLoadPoint).mStatus ≠ VPP_BUFFER_FREE) := by
  refine ⟨_, rfl, rfl, ?_, Or.inr (by decide)⟩
  intro i hi
  have hi3 : i < 3 := hi
  interval_cases i <;> decide

/-- C11, amended: with a Worker running and the merge pass returning OK, the query returns
false if and only if, in the state after that merge pass and one input cleanup, the
end-of-stream flag is set, or the render list is non-empty and the input slot at the input
load pointer is not FREE. -/
theorem canSetDecoderBufferToVPP_false_iff (fuel : Nat) (s s1 : VPPProcessor)
    (t : VPPProcThread) (hrun : s.mThreadRunning = true)
    (hmerge : updateRenderList fuel s = .ok (VPP_OK, s1))
    (ht : s1.mProcThread = some t) :
    ∃ b, canSetDecoderBufferToVPP fuel s = .ok (b, clearInput s1) ∧
      (b = false ↔ ((clearInput s1).mEOS = true ∨
        ((clearInput s1).mRenderList ≠ [] ∧
          ((clearInput s1).mInput (clearInput s1).mInputLoadPoint).mStatus ≠
            VPP_BUFFER_FREE))) := by
  simp only [canSetDecoderBufferToVPP, hrun, hmerge, ht]
  by_cases hc : ((clearInput s1).mEOS = false ∧
        ((clearInput s1).mRenderList = [] ∨
          ((clearInput s1).mInput (clearInput s1).mInputLoadPoint).mStatus =
            VPP_BUFFER_FREE))
  · refine ⟨true, by simp [hc], ?_⟩
    constructor
    · intro h
      exact absurd h (by decide)
    · rintro (h | ⟨h1, h2⟩)
      · rw [hc.1] at h
        exact absurd h (by decide)
      · rcases hc.2 with h3 | h3
        · exact absurd h3 h1
        · exact absurd h3 h2
  · refine ⟨false, ?_, ?_⟩
    · have hc' := hc
      simp only [not_and, not_or] at hc'
      simp
      intro h1
      exact hc' h1
    · constructor
      · intro _
        by_cases he : (clearInput s1).mEOS = true
        · exact Or.inl he
        · right
          have he' : (clearInput s1).mEOS = false := by simpa using he
          constructor
          · intro hl
            exact hc ⟨he', Or.inl hl⟩
          · intro hf
            exact hc ⟨he', Or.inr hf⟩
      · intro _
        rfl

/-- Witness for the amended C11: in `exBusy` the merge pass has nothing to do and
returns OK. -/
theorem canSetDecoderBufferToVPP_false_iff_witness :
    ∃ b, canSetDecoderBufferToVPP 1 exBusy = .ok (b, clearInput exBusy) ∧
      (b = false ↔ ((clearInput exBusy).mEOS = true ∨
        ((clearInput exBusy).mRenderList ≠ [] ∧
          ((clearInput exBusy).mInput (clearInput exBusy).mInputLoadPoint).mStatus ≠
            VPP_BUFFER_FREE))) :=
  canSetDecoderBufferToVPP_false_iff 1 exBusy exBusy
    { mError := false, mSeek := false, mEOS := false } rfl rfl rfl

/-! ## Configuration and the pool check -/

/-- C13 as stated fails: with lookahead depth 4294967293 and rate factor 1 the sums wrap
around in the 32-bit fields, `validateVideoInfo` stores the capacities 0 and 0 and returns OK
under a maximum of 32, although lookahead + 3 and 1 + (lookahead + 2) * rate are far above
the maximum; the capacities are neither lookahead + 3 and 1 + (lookahead + 2) * rate nor at
least 1. -/
theorem validateVideoInfo_wraps :
    (validateVideoInfo 32 5 (some { mFrcRate := 1, mNumForwardReferences := 4294967293 })
        (exInit 1) (some { width := 1280, height := 720, fps := 30 })).1 = VPP_OK ∧
      (validateVideoInfo 32 5 (some { mFrcRate := 1, mNumForwardReferences := 4294967293 })
        (exInit 1) (some { width := 1280, height := 720, fps := 30 })).2.mInputBufferNum = 0 ∧
      (validateVideoInfo 32 5 (some { mFrcRate := 1, mNumForwardReferences := 4294967293 })
        (exInit 1) (some { width := 1280, height := 720, fps := 30 })).2.mOutputBufferNum = 0 ∧
      4294967293 + 3 > 32 ∧ 1 + (4294967293 + 2) * 1 > 32 := by
  refine ⟨rfl, rfl, rfl, by decide, by decide⟩

/-- C13, amended: when the enhancement stage accepts the configuration with lookahead depth
`mNumForwardReferences` and rate factor `mFrcRate`, and lookahead + 3 and
1 + (lookahead + 2) * rate are below 2^32 (they fit the 32-bit capacity fields),
`validateVideoInfo` sets the input capacity to lookahead + 3 and the output capacity to
1 + (lookahead + 2) * rate; it returns FAIL when one of them is above the maximum and OK
otherwise, so after OK both capacities are at least 1 and at most the maximum. -/
theorem validateVideoInfo_capacities (maxNum rate25 : Nat) (worker : VPPWorker)
    (s : VPPProcessor) (info : VPPVideoInfo)
    (hfitIn : worker.mNumForwardReferences + 3 < UINT32_RANGE)
    (hfitOut : 1 + (worker.mNumForwardReferences + 2) * worker.mFrcRate < UINT32_RANGE) :
    (validateVideoInfo maxNum rate25 (some worker) s (some info)).2.mInputBufferNum =
        worker.mNumForwardReferences + 3 ∧
      (validateVideoInfo maxNum rate25 (some worker) s (some info)).2.mOutputBufferNum =
        1 + (worker.mNumForwardReferences + 2) * worker.mFrcRate ∧
      ((validateVideoInfo maxNum rate25 (some worker) s (some info)).1 = VPP_FAIL ↔
        (worker.mNumForwardReferences + 3 > maxNum ∨
          1 + (worker.mNumForwardReferences + 2) * worker.mFrcRate > maxNum)) ∧
      ((validateVideoInfo maxNum rate25 (some worker) s (some info)).1 = VPP_OK ↔
        ¬ (worker.mNumForwardReferences + 3 > maxNum ∨
          1 + (worker.mNumForwardReferences + 2) * worker.mFrcRate > maxNum)) ∧
      ((validateVideoInfo maxNum rate25 (some worker) s (some info)).1 = VPP_OK →
        1 ≤ (validateVideoInfo maxNum rate25 (some worker) s (some info)).2.mInputBufferNum ∧
        (validateVideoInfo maxNum rate25 (some worker) s (some info)).2.mInputBufferNum ≤
          maxNum ∧
        1 ≤ (validateVideoInfo maxNum rate25 (some worker) s (some info)).2.mOutputBufferNum ∧
        (validateVideoInfo maxNum rate25 (some worker) s (some info)).2.mOutputBufferNum ≤
          maxNum) := by
  have hval : validateVideoInfo maxNum rate25 (some worker) s (some info) =
      if worker.mNumForwardReferences + 3 > maxNum ∨
          1 + (worker.mNumForwardReferences + 2) * worker.mFrcRate > maxNum then
        (VPP_FAIL, { s with
          mWorker := worker
          mInputBufferNum := worker.mNumForwardReferences + 3
          mOutputBufferNum := 1 + (worker.mNumForwardReferences + 2) * worker.mFrcRate })
      else
        (VPP_OK, { s with
          mWorker := worker
          mInputBufferNum := worker.mNumForwardReferences + 3
          mOutputBufferNum := 1 + (worker.mNumForwardReferences + 2) * worker.mFrcRate
          mVppOutputFps :=
            if worker.mFrcRate = rate25 then (info.fps * 5) % UINT32_RANGE / 2
            else (info.fps * worker.mFrcRate) % UINT32_RANGE }) := by
    simp only [validateVideoInfo, Nat.mod_eq_of_lt hfitIn, Nat.mod_eq_of_lt hfitOut]
    split_ifs <;> rfl
  rw [hval]
  by_cases hc : worker.mNumForwardReferences + 3 > maxNum ∨
      1 + (worker.mNumForwardReferences + 2) * worker.mFrcRate > maxNum
  · rw [if_pos hc]
    refine ⟨rfl, rfl, ?_, ?_, ?_⟩
    · exact ⟨fun _ => hc, fun _ => rfl⟩
    · exact ⟨fun h => status_t.noConfusion h, fun h => absurd hc h⟩
    · intro h
      exact status_t.noConfusion h
  · rw [if_neg hc]
    refine ⟨rfl, rfl, ?_, ?_, ?_⟩
    · exact ⟨fun h => status_t.noConfusion h, fun h => absurd h hc⟩
    · exact ⟨fun _ => hc, fun _ => rfl⟩
    · intro _
      simp only [not_or, not_lt] at hc
      refine ⟨?_, hc.1, ?_, hc.2⟩
      · show 1 ≤ worker.mNumForwardReferences + 3
        omega
      · show 1 ≤ 1 + (worker.mNumForwardReferences + 2) * worker.mFrcRate
        omega

/-- C14 as stated fails: with three input and three output slots (non-zero, within a
maximum of 32) a pool of 3 + 3 = 6 buffers is rejected by the check in `init`. -/
theorem initBufferNumberInvalid_equal_pool :
    (exInit 1).mInputBufferNum = 3 ∧ (exInit 1).mOutputBufferNum = 3 ∧
      initBufferNumberInvalid 32 (exInit 1) 6 = true := by
  decide

/-- C14, amended: with both capacities non-zero and within the maximum, the check in `init`
fails exactly when the pool count is smaller than or equal to input capacity + output
capacity; a pool whose count equals input + output is rejected, and a pool with one buffer
more is accepted. -/
theorem initBufferNumberInvalid_iff (maxNum size : Nat) (s : VPPProcessor)
    (hin : 0 < s.mInputBufferNum) (hout : 0 < s.mOutputBufferNum)
    (hinMax : s.mInputBufferNum ≤ maxNum) (houtMax : s.mOutputBufferNum ≤ maxNum) :
    (initBufferNumberInvalid maxNum s size = true ↔
        size ≤ s.mInputBufferNum + s.mOutputBufferNum) ∧
      initBufferNumberInvalid maxNum s (s.mInputBufferNum + s.mOutputBufferNum) = true ∧
      initBufferNumberInvalid maxNum s (s.mInputBufferNum + s.mOutputBufferNum + 1) =
        false := by
  unfold initBufferNumberInvalid
  refine ⟨?_, ?_, ?_⟩
  · rw [decide_eq_true_iff]
    constructor
    · rintro (h | h | h | h | h)
      · omega
      · omega
      · exact h
      · omega
      · omega
    · intro h
      exact Or.inr (Or.inr (Or.inl h))
  · rw [decide_eq_true_iff]
    exact Or.inr (Or.inr (Or.inl (le_refl _)))
  · rw [decide_eq_false_iff_not]
    rintro (h | h | h | h | h) <;> omega

/-- Witness for the amended C14: three input and three output slots, maximum 32, a pool of 7
buffers. -/
theorem initBufferNumberInvalid_iff_witness :
    (initBufferNumberInvalid 32 (exInit 1) 7 = true ↔
        7 ≤ (exInit 1).mInputBufferNum + (exInit 1).mOutputBufferNum) ∧
      initBufferNumberInvalid 32 (exInit 1)
        ((exInit 1).mInputBufferNum + (exInit 1).mOutputBufferNum) = true ∧
      initBufferNumberInvalid 32 (exInit 1)
        ((exInit 1).mInputBufferNum + (exInit 1).mOutputBufferNum + 1) = false :=
  initBufferNumberInvalid_iff 32 7 (exInit 1) (by decide) (by decide) (by decide) (by decide)

/-! ## Drops, seek and the order of the list under a pass -/

theorem updateRenderListBody_drop_eq (s : VPPProcessor) (buff : Nat)
    (hnum : 0 < s.mOutputBufferNum)
    (hbuf : findMediaBuffer s (s.mOutput s.mOutputLoadPoint) = some buff)
    (hset : (s.mOutput s.mOutputLoadPoint).mTimeUs ≠ -1)
    (hfresh : some buff ∉ s.mRenderList)
    (hcase : s.mRenderList = [] ∨
      (∀ e ∈ s.mRenderList, scanPasses s (s.mOutput s.mOutputLoadPoint).mTimeUs e) ∨
      (∃ x rest, s.mRenderList = some x :: rest ∧ FRC_RATE_1X < s.mWorker.mFrcRate ∧
        getBufferTimestamp s (some x) ≠ -1 ∧
        (s.mOutput s.mOutputLoadPoint).mTimeUs < getBufferTimestamp s (some x))) :
    updateRenderListBody s = .ok (none,
      { stampBuffer s buff (s.mOutput s.mOutputLoadPoint).mTimeUs with
        heap := releaseIfHeld
          (stampBuffer s buff (s.mOutput s.mOutputLoadPoint).mTimeUs).heap buff
        mOutputLoadPoint := (s.mOutputLoadPoint + 1) % s.mOutputBufferNum }) := by
  have hne : s.mOutputBufferNum ≠ 0 := by omega
  have hscan : ∃ it tl,
      scanRenderList (stampBuffer s buff (s.mOutput s.mOutputLoadPoint).mTimeUs)
        (s.mOutput s.mOutputLoadPoint).mTimeUs s.mRenderList 0 0 = .stop it tl ∧
      (s.mRenderList = [] ∨ it = s.mRenderList.length ∨
        (it = 0 ∧ (s.mOutput s.mOutputLoadPoint).mTimeUs < tl)) := by
    rw [scanRenderList_stampBuffer s buff _ _ hfresh]
    rcases hcase with h | h | ⟨x, rest, h1, h2, h3, h4⟩
    · exact ⟨0, 0, by rw [h]; rfl, Or.inl h⟩
    · refine ⟨s.mRenderList.length, lastTime s 0 s.mRenderList, ?_, Or.inr (Or.inl rfl)⟩
      have := scanRenderList_pass s (s.mOutput s.mOutputLoadPoint).mTimeUs s.mRenderList []
        h 0 0
      simpa [scanRenderList] using this
    · refine ⟨0, getBufferTimestamp s (some x), ?_, Or.inr (Or.inr ⟨rfl, h4⟩)⟩
      rw [h1]
      exact scanRenderList_stop s _ x rest h3 (Or.inl ⟨h2, le_of_lt h4⟩) 0 0
  obtain ⟨it, tl, hs, hc⟩ := hscan
  rw [updateRenderListBody_eq s buff it tl hbuf hset hs]
  exact updateRenderListPlace_drop _ buff it _ tl hne hc

/-- C17 as stated fails: in Scenario C (`exC`: head of the list at 50, enhanced frame at 20)
the round drops the frame, the render list stays as it was, and each of the four session
counters has the value it had before, so no counter went up. -/
theorem updateRenderListBody_drop_not_counted :
    ∃ s', updateRenderListBody exC = .ok (none, s') ∧
      s'.mRenderList = exC.mRenderList ∧
      s'.mTotalDecodedCount = exC.mTotalDecodedCount ∧
      s'.mInputCount = exC.mInputCount ∧
      s'.mVPPProcCount = exC.mVPPProcCount ∧
      s'.mVPPRenderCount = exC.mVPPRenderCount :=
  ⟨_, rfl, rfl, rfl, rfl, rfl, rfl⟩

/-- C17, amended: when a round of the merge pass classifies the enhanced frame as too late
and drops it, none of the session counters (decoded, enqueued, enhanced, rendered) changes;
the code keeps no drop counter. -/
theorem updateRenderListBody_drop_counters (s : VPPProcessor) (buff : Nat)
    (hnum : 0 < s.mOutputBufferNum)
    (hbuf : findMediaBuffer s (s.mOutput s.mOutputLoadPoint) = some buff)
    (hset : (s.mOutput s.mOutputLoadPoint).mTimeUs ≠ -1)
    (hfresh : some buff ∉ s.mRenderList)
    (hcase : s.mRenderList = [] ∨
      (∀ e ∈ s.mRenderList, scanPasses s (s.mOutput s.mOutputLoadPoint).mTimeUs e) ∨
      (∃ x rest, s.mRenderList = some x :: rest ∧ FRC_RATE_1X < s.mWorker.mFrcRate ∧
        getBufferTimestamp s (some x) ≠ -1 ∧
        (s.mOutput s.mOutputLoadPoint).mTimeUs < getBufferTimestamp s (some x))) :
    ∃ s', updateRenderListBody s = .ok (none, s') ∧
      s'.mRenderList = s.mRenderList ∧
      s'.mTotalDecodedCount = s.mTotalDecodedCount ∧
      s'.mInputCount = s.mInputCount ∧
      s'.mVPPProcCount = s.mVPPProcCount ∧
      s'.mVPPRenderCount = s.mVPPRenderCount :=
  ⟨_, updateRenderListBody_drop_eq s buff hnum hbuf hset hfresh hcase, rfl, rfl, rfl, rfl, rfl⟩

/-- Witness for the amended C17: Scenario C. -/
theorem updateRenderListBody_drop_counters_witness :
    ∃ s', updateRenderListBody exC = .ok (none, s') ∧
      s'.mRenderList = exC.mRenderList ∧
      s'.mTotalDecodedCount = exC.mTotalDecodedCount ∧
      s'.mInputCount = exC.mInputCount ∧
      s'.mVPPProcCount = exC.mVPPProcCount ∧
      s'.mVPPRenderCount = exC.mVPPRenderCount :=
  updateRenderListBody_drop_counters exC 4 (by decide) (by decide) (by decide) (by decide)
    (Or.inr (Or.inr ⟨7, [], rfl, by decide, by decide, by decide⟩))

/-- C18, the code at the failing input: in `exQueued` the Worker is running, no slot is
PROCESSING and the render list holds three buffers; `seek` returns right after the drain
check, with the three buffers still in the render list. With input slot 0 PROCESSING the
same call goes on to `flush` and returns with an empty render list. -/
theorem seek_early_return_keeps_list (afterDrain : VPPProcessor → VPPProcessor) :
    (∃ s', seek afterDrain exQueued = .ok s' ∧ s'.mRenderList = [some 1, some 2, some 3]) ∧
      (∃ s', seek afterDrain exQueuedProcessing = .ok s' ∧ s'.mRenderList = []) :=
  ⟨⟨_, rfl, rfl⟩, ⟨_, rfl, rfl⟩⟩

/-- C20 as stated fails: in `exShared` the render list has no null entry and its timestamps
0, 33 are set and strictly ascending; the READY output slots 0 and 1 are both bound to
buffer 4, which is not in the list. The pass returns OK and leaves the list with the
timestamps 33, 33. -/
theorem updateRenderList_shared_buffer_breaks_order :
    NoNull exShared ∧ renderTimes exShared = [0, 33] ∧ Ascending exShared ∧
      (∀ i e, (exShared.mOutput i).mStatus = VPP_BUFFER_READY →
        findMediaBuffer exShared (exShared.mOutput i) = some e →
        some e ∉ exShared.mRenderList) ∧
      ∃ s', updateRenderList 3 exShared = .ok (VPP_OK, s') ∧
        renderTimes s' = [33, 33] ∧ ¬ Ascending s' := by
  refine ⟨by unfold NoNull; decide, rfl, by unfold Ascending; decide, ?_, _, rfl, rfl, ?_⟩
  · intro i e hi he
    have hi01 : i = 0 ∨ i = 1 := by
      by_contra hne
      simp only [not_or] at hne
      simp [exShared, exInit, exSlot, hne.1, hne.2] at hi
    have he4 : e = 4 := by
      rcases hi01 with h | h
      · subst h
        have h4 : findMediaBuffer exShared (exShared.mOutput 0) = some 4 := rfl
        exact (Option.some.inj (h4.symm.trans he)).symm
      · subst h
        have h4 : findMediaBuffer exShared (exShared.mOutput 1) = some 4 := rfl
        exact (Option.some.inj (h4.symm.trans he)).symm
    subst he4
    decide
  · intro h
    have h3 := List.pairwise_cons.mp h
    exact absurd (h3.1 33 (by decide)) (by decide)

/-- C20, amended: for every rate factor, if before the merge pass the render list has no
null entry and its timestamps are strictly ascending, and the READY output slots are bound
to pairwise distinct buffers none of which is in the list, then after the pass, whether it
returns OK or FAIL, the timestamps of the list are still strictly ascending, without
duplicates. (That the timestamps are set is not needed.) -/
theorem updateRenderList_keeps_order (fuel : Nat) (s s' : VPPProcessor) (r : status_t)
    (hnn : NoNull s) (hasc : Ascending s) (hfresh : FreshReady s)
    (h : updateRenderList fuel s = .ok (r, s')) : Ascending s' :=
  (updateRenderList_inv fuel s s' r hnn hasc hfresh h).2.1

/-- Witness for the amended C20: Scenario B, where the pass inserts timestamp 16 between 0
and 33. -/
theorem updateRenderList_keeps_order_witness :
    ∃ s', updateRenderList 2 exB = .ok (VPP_OK, s') ∧ renderTimes s' = [0, 16, 33] ∧
      Ascending s' :=
  ⟨_, rfl, rfl, updateRenderList_keeps_order 2 exB _ VPP_OK (by unfold NoNull; decide)
    (by unfold Ascending; decide) (freshReady_exB exB rfl rfl (fun _ => rfl) rfl) rfl⟩

/-! ## Reference counts and slot statuses across the operations -/

theorem heapNonneg_add_ref (heap : Nat → MediaBuffer) (p : Nat) (h : HeapNonneg heap) :
    HeapNonneg (add_ref heap p) := by
  intro q
  unfold add_ref
  by_cases hq : q = p
  · subst hq
    simp only [Function.update_same]
    have := h q
    omega
  · rw [Function.update_noteq hq]
    exact h q

theorem heapNonneg_release (heap : Nat → MediaBuffer) (p : Nat) (h : HeapNonneg heap)
    (hp : 0 < (heap p).mRefCount) : HeapNonneg (release heap p) := by
  intro q
  unfold release
  by_cases hq : q = p
  · subst hq
    simp only [Function.update_same]
    omega
  · rw [Function.update_noteq hq]
    exact h q

theorem heapNonneg_releaseIfHeld (heap : Nat → MediaBuffer) (p : Nat) (h : HeapNonneg heap) :
    HeapNonneg (releaseIfHeld heap p) := by
  unfold releaseIfHeld
  split
  · rename_i hp
    exact heapNonneg_release heap p h hp
  · exact h

theorem heapNonneg_setKeyTime (heap : Nat → MediaBuffer) (p : Nat) (t : Int)
    (h : HeapNonneg heap) : HeapNonneg (setKeyTime heap p t) := by
  intro q
  unfold setKeyTime
  by_cases hq : q = p
  · subst hq
    simp only [Function.update_same]
    exact h q
  · rw [Function.update_noteq hq]
    exact h q

theorem heapNonneg_setKeyRendered (heap : Nat → MediaBuffer) (p : Nat) (v : Int)
    (h : HeapNonneg heap) : HeapNonneg (setKeyRendered heap p v) := by
  intro q
  unfold setKeyRendered
  by_cases hq : q = p
  · subst hq
    simp only [Function.update_same]
    exact h q
  · rw [Function.update_noteq hq]
    exact h q

theorem heapNonneg_setObserver (heap : Nat → MediaBuffer) (p : Nat) (o : BufferObserver)
    (h : HeapNonneg heap) : HeapNonneg (setObserver heap p o) := by
  intro q
  unfold setObserver
  by_cases hq : q = p
  · subst hq
    simp only [Function.update_same]
    exact h q
  · rw [Function.update_noteq hq]
    exact h q

theorem heapNonneg_flushRenderEntries (l : List (Option Nat)) :
    ∀ heap : Nat → MediaBuffer, HeapNonneg heap → HeapNonneg (flushRenderEntries heap l) := by
  induction l with
  | nil => intro heap h; exact h
  | cons e rest ih =>
    intro heap h
    cases e with
    | none => exact h
    | some p => exact ih _ (heapNonneg_releaseIfHeld heap p h)

theorem staysOrFrees_refl (a : VPPBufferStatus) : StaysOrFrees a a := Or.inl rfl

theorem staysOrFrees_trans (a b c : VPPBufferStatus) (h1 : StaysOrFrees a b)
    (h2 : StaysOrFrees b c) : StaysOrFrees a c := by
  rcases h2 with h2 | h2
  · rw [h2]; exact h1
  · exact Or.inr h2

theorem staysOrRenders_refl (a : VPPBufferStatus) : StaysOrRenders a a := Or.inl rfl

theorem staysOrRenders_trans (a b c : VPPBufferStatus) (h1 : StaysOrRenders a b)
    (h2 : StaysOrRenders b c) : StaysOrRenders a c := by
  rcases h2 with h2 | ⟨h2, h3⟩
  · rw [h2]; exact h1
  · rcases h1 with h1 | ⟨h1, h4⟩
    · rw [h1] at h2
      exact Or.inr ⟨h2, h3⟩
    · rw [h4] at h2
      exact absurd h2 (by decide)

theorem related_refl (rin rout : VPPBufferStatus → VPPBufferStatus → Prop)
    (hin : ∀ a, rin a a) (hout : ∀ a, rout a a) (s : VPPProcessor) : Related rin rout s s :=
  ⟨fun h => h, fun _ => hin _, fun _ => hout _⟩

theorem related_trans (rin rout : VPPBufferStatus → VPPBufferStatus → Prop)
    (hin : ∀ a b c, rin a b → rin b c → rin a c)
    (hout : ∀ a b c, rout a b → rout b c → rout a c) (s1 s2 s3 : VPPProcessor)
    (h12 : Related rin rout s1 s2) (h23 : Related rin rout s2 s3) : Related rin rout s1 s3 :=
  ⟨fun h => h23.1 (h12.1 h), fun i => hin _ _ _ (h12.2.1 i) (h23.2.1 i),
    fun i => hout _ _ _ (h12.2.2 i) (h23.2.2 i)⟩

theorem related_frees_trans (s1 s2 s3 : VPPProcessor)
    (h12 : Related StaysOrFrees StaysOrFrees s1 s2)
    (h23 : Related StaysOrFrees StaysOrFrees s2 s3) :
    Related StaysOrFrees StaysOrFrees s1 s3 :=
  related_trans _ _ staysOrFrees_trans staysOrFrees_trans s1 s2 s3 h12 h23

theorem related_frees_refl (s : VPPProcessor) : Related StaysOrFrees StaysOrFrees s s :=
  related_refl _ _ staysOrFrees_refl staysOrFrees_refl s

theorem foldl_rel {α : Type} (P : α → α → Prop) (hrefl : ∀ a, P a a)
    (htrans : ∀ a b c, P a b → P b c → P a c) (f : α → Nat → α) (hf : ∀ a i, P a (f a i))
    (l : List Nat) : ∀ a, P a (l.foldl f a) := by
  induction l with
  | nil => intro a; exact hrefl a
  | cons i rest ih =>
    intro a
    exact htrans _ _ _ (hf a i) (ih (f a i))

/-- The state after a slot of the input ring was released and reset. -/
theorem related_input_reset (s : VPPProcessor) (i : Nat) (heap1 : Nat → MediaBuffer)
    (hheap : HeapNonneg s.heap → HeapNonneg heap1) :
    Related StaysOrFrees StaysOrFrees s
      { s with
        heap := heap1
        mInput := Function.update s.mInput i ((s.mInput i).resetBuffer none) } := by
  refine ⟨hheap, ?_, fun _ => Or.inl rfl⟩
  intro j
  by_cases hj : j = i
  · subst hj
    right
    simp [VPPBuffer.resetBuffer]
  · left
    show (Function.update s.mInput i _ j).mStatus = _
    rw [Function.update_noteq hj]

theorem releaseSlot_heap (s : VPPProcessor) (vb : VPPBuffer) (h : HeapNonneg s.heap) :
    HeapNonneg (match findMediaBuffer s vb with
      | none => s.heap
      | some mediaBuffer => releaseIfHeld s.heap mediaBuffer) := by
  split
  · exact h
  · exact heapNonneg_releaseIfHeld _ _ h

theorem related_clearInputSlot (s : VPPProcessor) (i : Nat) :
    Related StaysOrFrees StaysOrFrees s (clearInputSlot s i) := by
  unfold clearInputSlot
  split
  · exact related_input_reset s i _ (releaseSlot_heap s _)
  · exact related_frees_refl s

theorem related_flushInputSlot (s : VPPProcessor) (i : Nat) :
    Related StaysOrFrees StaysOrFrees s (flushInputSlot s i) := by
  unfold flushInputSlot
  split
  · exact related_input_reset s i _ (releaseSlot_heap s _)
  · exact related_frees_refl s

theorem related_releaseInputSlot (s : VPPProcessor) (i : Nat) :
    Related StaysOrFrees StaysOrFrees s (releaseInputSlot s i) :=
  related_input_reset s i _ (releaseSlot_heap s _)

theorem related_releaseOutputSlot (s : VPPProcessor) (i : Nat) :
    Related StaysOrFrees StaysOrFrees s (releaseOutputSlot s i) := by
  unfold releaseOutputSlot
  split
  · exact related_frees_refl s
  · rename_i m _
    split
    · rename_i hpos
      split
      · exact related_frees_refl s
      · split
        · exact ⟨fun h => heapNonneg_release _ _ h hpos, fun _ => Or.inl rfl,
            fun _ => Or.inl rfl⟩
        · exact related_frees_refl s
    · exact related_frees_refl s

theorem related_flushOutputSlot (s : VPPProcessor) (i : Nat) :
    Related StaysOrFrees StaysOrFrees s (flushOutputSlot s i) := by
  unfold flushOutputSlot
  split
  · split
    · exact related_frees_refl s
    · rename_i m _
      split
      · rename_i hpos
        split
        · exact related_frees_refl s
        · split
          · exact ⟨fun h => heapNonneg_release _ _ h hpos, fun _ => Or.inl rfl,
              fun _ => Or.inl rfl⟩
          · exact related_frees_refl s
      · exact related_frees_refl s
  · exact related_frees_refl s

theorem related_hasProcessingOutputSlot (s : VPPProcessor) (i : Nat) :
    Related StaysOrFrees StaysOrFrees s (hasProcessingOutputSlot s i) := by
  unfold hasProcessingOutputSlot
  split
  · exact related_releaseOutputSlot s i
  · exact related_frees_refl s

theorem related_hasProcessingInputSlot (acc : Bool × VPPProcessor) (i : Nat) :
    Related StaysOrFrees StaysOrFrees acc.2 (hasProcessingInputSlot acc i).2 := by
  unfold hasProcessingInputSlot
  dsimp only
  by_cases hc : (acc.2.mInput i).mStatus ≠ VPP_BUFFER_PROCESSING ∧
      (acc.2.mInput i).mStatus ≠ VPP_BUFFER_FREE
  · rw [if_pos hc]
    exact related_input_reset acc.2 i _ (releaseSlot_heap acc.2 _)
  · rw [if_neg hc]
    exact related_frees_refl acc.2

theorem related_clearInput (s : VPPProcessor) :
    Related StaysOrFrees StaysOrFrees s (clearInput s) :=
  foldl_rel _ related_frees_refl related_frees_trans clearInputSlot related_clearInputSlot _ s

theorem related_finish (s : VPPProcessor) (a b : Nat) :
    Related StaysOrFrees StaysOrFrees s
      { s with
        heap := flushRenderEntries s.heap s.mRenderList
        mRenderList := []
        mInputLoadPoint := a
        mOutputLoadPoint := b } :=
  ⟨fun h => heapNonneg_flushRenderEntries _ _ h, fun _ => Or.inl rfl, fun _ => Or.inl rfl⟩

theorem related_flush (s : VPPProcessor) : Related StaysOrFrees StaysOrFrees s (flush s) := by
  unfold flush
  exact related_frees_trans _ _ _
    (related_frees_trans _ _ _
      (foldl_rel _ related_frees_refl related_frees_trans flushInputSlot
        related_flushInputSlot _ s)
      (foldl_rel _ related_frees_refl related_frees_trans flushOutputSlot
        related_flushOutputSlot _ _))
    (related_finish _ 0 0)

theorem related_releaseBuffers (s : VPPProcessor) :
    Related StaysOrFrees StaysOrFrees s (releaseBuffers s) := by
  unfold releaseBuffers
  exact related_frees_trans _ _ _
    (related_frees_trans _ _ _
      (foldl_rel _ related_frees_refl related_frees_trans releaseInputSlot
        related_releaseInputSlot _ s)
      (foldl_rel _ related_frees_refl related_frees_trans releaseOutputSlot
        related_releaseOutputSlot _ _))
    (related_finish _ 0 0)

theorem related_hasProcessingBuffer (s : VPPProcessor) :
    Related StaysOrFrees StaysOrFrees s (hasProcessingBuffer s).2 := by
  unfold hasProcessingBuffer
  have h1 : Related StaysOrFrees StaysOrFrees s
      ((List.range s.mInputBufferNum).foldl hasProcessingInputSlot (false, s)).2 :=
    foldl_rel (fun a b : Bool × VPPProcessor => Related StaysOrFrees StaysOrFrees a.2 b.2)
      (fun a => related_frees_refl a.2) (fun a b c => related_frees_trans a.2 b.2 c.2)
      hasProcessingInputSlot related_hasProcessingInputSlot _ (false, s)
  have h2 := foldl_rel _ related_frees_refl related_frees_trans hasProcessingOutputSlot
    related_hasProcessingOutputSlot
    (List.range
      ((List.range s.mInputBufferNum).foldl hasProcessingInputSlot (false, s)).2.mOutputBufferNum)
    ((List.range s.mInputBufferNum).foldl hasProcessingInputSlot (false, s)).2
  have h12 := related_frees_trans _ _ _ h1 h2
  exact ⟨h12.1, h12.2.1, h12.2.2⟩

theorem orchestratorMove_of_frees (a b : VPPBufferStatus) (h : StaysOrFrees a b) :
    OrchestratorMove a b := by
  rcases h with h | h
  · exact Or.inl h
  · exact Or.inr (Or.inr (Or.inr h))

theorem orchestratorMove_of_renders (a b : VPPBufferStatus) (h : StaysOrRenders a b) :
    OrchestratorMove a b := by
  rcases h with h | h
  · exact Or.inl h
  · exact Or.inr (Or.inr (Or.inl h))

theorem related_move_of_frees (s s' : VPPProcessor)
    (h : Related StaysOrFrees StaysOrFrees s s') :
    Related OrchestratorMove OrchestratorMove s s' :=
  ⟨h.1, fun i => orchestratorMove_of_frees _ _ (h.2.1 i),
    fun i => orchestratorMove_of_frees _ _ (h.2.2 i)⟩

theorem related_of_fields (s s' : VPPProcessor)
    (hh : HeapNonneg s.heap → HeapNonneg s'.heap) (hi : s'.mInput = s.mInput)
    (ho : s'.mOutput = s.mOutput) : Related StaysOrFrees StaysOrFrees s s' :=
  ⟨hh, fun i => Or.inl (by rw [hi]), fun i => Or.inl (by rw [ho])⟩

theorem except_map_ok {α β : Type} (x : Except Fault α) (f : α → β) (b : β)
    (h : x.map f = .ok b) : ∃ a, x = .ok a ∧ f a = b := by
  cases x with
  | error e => simp [Except.map] at h
  | ok a =>
    simp only [Except.map, Except.ok.injEq] at h
    exact ⟨a, rfl, h⟩

theorem related_setDecoderBufferToVPP (s s' : VPPProcessor) (buff : Option Nat) (r : status_t)
    (h : setDecoderBufferToVPP s buff = .ok (r, s')) :
    Related OrchestratorMove OrchestratorMove s s' := by
  cases buff with
  | none =>
    simp only [setDecoderBufferToVPP, Except.ok.injEq, Prod.mk.injEq] at h
    rw [← h.2]
    exact related_move_of_frees _ _ (related_frees_refl s)
  | some p =>
    simp only [setDecoderBufferToVPP] at h
    split at h
    · rename_i hfree
      split at h
      · simp only [Except.ok.injEq, Prod.mk.injEq] at h
        rw [← h.2]
        exact related_move_of_frees _ _
          (related_of_fields _ _ (fun hh => heapNonneg_add_ref _ p hh) rfl rfl)
      · split at h
        · simp at h
        · simp only [Except.ok.injEq, Prod.mk.injEq] at h
          rw [← h.2]
          refine ⟨fun hh => heapNonneg_add_ref _ p hh, ?_, fun _ => Or.inl rfl⟩
          intro j
          by_cases hj : j = s.mInputLoadPoint
          · subst hj
            right; left
            exact ⟨hfree, by simp⟩
          · left
            show (Function.update s.mInput s.mInputLoadPoint _ j).mStatus = _
            rw [Function.update_noteq hj]
    · simp only [Except.ok.injEq, Prod.mk.injEq] at h
      rw [← h.2]
      exact related_move_of_frees _ _ (related_of_fields _ _ (fun hh => hh) rfl rfl)

theorem related_markRendering (s : VPPProcessor) (out : Nat → VPPBuffer)
    (hready : (s.mOutput s.mOutputLoadPoint).mStatus = VPP_BUFFER_READY)
    (ho : out = s.mOutput ∨ out = markRendering s) (i : Nat) :
    StaysOrRenders (s.mOutput i).mStatus (out i).mStatus := by
  rcases ho with ho | ho
  · rw [ho]; exact Or.inl rfl
  · rw [ho]
    unfold markRendering
    by_cases hi : i = s.mOutputLoadPoint
    · subst hi
      exact Or.inr ⟨hready, by simp⟩
    · rw [Function.update_noteq hi]
      exact Or.inl rfl

/-- What any round of the merge pass does to the reference counts and the slots. -/
theorem related_updateRenderListBody (s s' : VPPProcessor) (ro : Option status_t)
    (hready : (s.mOutput s.mOutputLoadPoint).mStatus = VPP_BUFFER_READY)
    (h : updateRenderListBody s = .ok (ro, s')) :
    Related StaysOrFrees StaysOrRenders s s' := by
  have hmk : ∀ (heap1 : Nat → MediaBuffer) (out : Nat → VPPBuffer) (t : VPPProcessor),
      (HeapNonneg s.heap → HeapNonneg heap1) → (out = s.mOutput ∨ out = markRendering s) →
      t.heap = heap1 → t.mInput = s.mInput → t.mOutput = out →
      Related StaysOrFrees StaysOrRenders s t := by
    intro heap1 out t hh ho h1 h2 h3
    refine ⟨fun hn => ?_, fun i => Or.inl (by rw [h2]), fun i => ?_⟩
    · show HeapNonneg t.heap
      rw [h1]
      exact hh hn
    · rw [h3]
      exact related_markRendering s out hready ho i
  unfold updateRenderListBody at h
  split at h
  · simp only [Except.ok.injEq, Prod.mk.injEq] at h
    rw [← h.2]
    exact hmk _ _ s (fun hn => hn) (Or.inl rfl) rfl rfl rfl
  · rename_i buff _
    dsimp only at h
    split at h
    · simp only [Except.ok.injEq, Prod.mk.injEq] at h
      rw [← h.2]
      exact hmk _ _ s (fun hn => hn) (Or.inl rfl) rfl rfl rfl
    · split at h
      · simp only [Except.ok.injEq, Prod.mk.injEq] at h
        rw [← h.2]
        exact hmk _ _ _ (fun hn => heapNonneg_setKeyTime _ buff _ hn) (Or.inl rfl) rfl rfl rfl
      · unfold updateRenderListPlace at h
        split at h
        · obtain ⟨_, h2⟩ := advanceOutput_eq_ok _ _ _ h
          rw [h2]
          exact hmk _ _ _
            (fun hn => heapNonneg_releaseIfHeld _ buff (heapNonneg_setKeyTime _ buff _ hn))
            (Or.inl rfl) rfl rfl rfl
        · split at h
          · split at h
            · simp at h
            · rename_i renderBuff _
              obtain ⟨_, h2⟩ := advanceOutput_eq_ok _ _ _ h
              rw [h2]
              exact hmk _ _ _
                (fun hn => heapNonneg_releaseIfHeld _ renderBuff
                  (heapNonneg_setKeyTime _ buff _ hn))
                (Or.inr rfl) rfl rfl rfl
          · split at h
            · obtain ⟨_, h2⟩ := advanceOutput_eq_ok _ _ _ h
              rw [h2]
              exact hmk _ _ _ (fun hn => heapNonneg_setKeyTime _ buff _ hn)
                (Or.inr rfl) rfl rfl rfl
            · obtain ⟨_, h2⟩ := advanceOutput_eq_ok _ _ _ h
              rw [h2]
              exact hmk _ _ _
                (fun hn => heapNonneg_releaseIfHeld _ buff (heapNonneg_setKeyTime _ buff _ hn))
                (Or.inl rfl) rfl rfl rfl

theorem related_updateRenderList (fuel : Nat) :
    ∀ (s s' : VPPProcessor) (r : status_t), updateRenderList fuel s = .ok (r, s') →
      Related StaysOrFrees StaysOrRenders s s' := by
  induction fuel with
  | zero =>
    intro s s' r h
    simp [updateRenderList] at h
  | succ fuel ih =>
    intro s s' r h
    unfold updateRenderList at h
    split at h
    · rename_i hready
      split at h
      · simp at h
      · rename_i r1 s1 hbody
        simp only [Except.ok.injEq, Prod.mk.injEq] at h
        rw [← h.2]
        exact related_updateRenderListBody s s1 (some r1) hready hbody
      · rename_i s1 hbody
        exact related_trans _ _ staysOrFrees_trans staysOrRenders_trans _ _ _
          (related_updateRenderListBody s s1 none hready hbody) (ih s1 s' r h)
    · simp only [Except.ok.injEq, Prod.mk.injEq] at h
      rw [← h.2]
      exact related_refl _ _ staysOrFrees_refl staysOrRenders_refl s

theorem related_readList (s : VPPProcessor) (buffer : Option Nat) :
    Related StaysOrFrees StaysOrFrees s (readList s buffer).2.2 := by
  unfold readList
  split
  · split
    · exact related_frees_refl s
    · exact related_of_fields _ _ (fun h => h) rfl rfl
  · dsimp only
    split
    · exact related_of_fields _ _ (fun h => h) rfl rfl
    · exact related_of_fields _ _ (fun h => h) rfl rfl

theorem related_quitThread (s s' : VPPProcessor) (h : quitThread s = .ok s') :
    Related StaysOrFrees StaysOrFrees s s' := by
  unfold quitThread at h
  split at h
  · split at h
    · simp at h
    · simp only [Except.ok.injEq] at h
      rw [← h]
      exact related_of_fields _ _ (fun h => h) rfl rfl
  · simp only [Except.ok.injEq] at h
    rw [← h]
    exact related_frees_refl s

theorem related_reset (w : Bool) (s s' : VPPProcessor) (r : status_t)
    (h : reset w s = .ok (r, s')) : Related StaysOrFrees StaysOrFrees s s' := by
  unfold reset at h
  split at h
  · simp at h
  · rename_i s1 hq
    have h1 := related_quitThread s s1 hq
    have h2 := related_flush s1
    dsimp only at h
    split at h
    · simp only [Except.ok.injEq, Prod.mk.injEq] at h
      rw [← h.2]
      exact related_frees_trans _ _ _ h1 h2
    · simp only [createThread, Except.ok.injEq, Prod.mk.injEq] at h
      rw [← h.2]
      exact related_frees_trans _ _ _ (related_frees_trans _ _ _ h1 h2)
        (related_of_fields _ _ (fun h => h) rfl rfl)

theorem related_read (w : Bool) (s s' : VPPProcessor) (buffer b : Option Nat) (r : status_t)
    (h : read w s buffer = .ok (r, b, s')) : Related StaysOrFrees StaysOrFrees s s' := by
  unfold read at h
  split at h
  · simp at h
  · split at h
    · split at h
      · simp at h
      · rename_i r1 s1 hreset
        have h1 := related_reset w s s1 r1 hreset
        split at h
        · simp only [Except.ok.injEq, Prod.mk.injEq] at h
          rw [← h.2.2]
          exact h1
        · simp only [Except.ok.injEq] at h
          have h2 := related_readList s1 buffer
          rw [h] at h2
          exact related_frees_trans _ _ _ h1 h2
    · simp only [Except.ok.injEq] at h
      have h2 := related_readList s buffer
      rw [h] at h2
      exact h2

theorem related_teardown (s s' : VPPProcessor) (h : teardown s = .ok s') :
    Related StaysOrFrees StaysOrFrees s s' := by
  unfold teardown at h
  split at h
  · simp at h
  · rename_i s1 hq
    simp only [Except.ok.injEq] at h
    rw [← h]
    exact related_frees_trans _ _ _
      (related_frees_trans _ _ _ (related_quitThread s s1 hq)
        (related_of_fields s1 { s1 with mThreadRunning := false } (fun h => h) rfl rfl))
      (related_releaseBuffers _)

theorem related_resetOutputSlotOf (s : VPPProcessor) (p : Nat) (g : Nat → Option Nat) :
    Related StaysOrFrees StaysOrFrees s (resetOutputSlotOf s p g) := by
  unfold resetOutputSlotOf
  split
  · exact related_frees_refl s
  · rename_i i _
    refine ⟨fun h => h, fun _ => Or.inl rfl, ?_⟩
    intro j
    by_cases hj : j = i
    · subst hj
      right
      simp [VPPBuffer.resetBuffer]
    · left
      show (Function.update s.mOutput i _ j).mStatus = _
      rw [Function.update_noteq hj]

theorem related_dequeueBufferFromNativeWindow (window : List (Option Nat)) :
    ∀ (info : Option (Nat × Nat)) (s s2 : VPPProcessor) (r : Option Nat),
      dequeueBufferFromNativeWindow window info s = .ok (r, s2) →
      Related StaysOrFrees StaysOrFrees s s2 := by
  induction window with
  | nil =>
    intro info s s2 r h
    simp [dequeueBufferFromNativeWindow] at h
  | cons a rest ih =>
    intro info s s2 r h
    cases a with
    | none =>
      simp only [dequeueBufferFromNativeWindow, Except.ok.injEq, Prod.mk.injEq] at h
      rw [← h.2]
      exact related_frees_refl s
    | some hnd =>
      simp only [dequeueBufferFromNativeWindow] at h
      split at h
      · simp at h
      · split at h
        · simp only [Except.ok.injEq, Prod.mk.injEq] at h
          rw [← h.2]
          exact related_frees_refl s
        · rename_i i mediaBuffer _
          have h1 : Related StaysOrFrees StaysOrFrees s
              { s with heap := setKeyRendered s.heap mediaBuffer 0 } :=
            related_of_fields _ _ (fun hn => heapNonneg_setKeyRendered _ _ _ hn) rfl rfl
          split at h
          · exact related_frees_trans _ _ _ h1 (ih _ _ _ _ h)
          · split at h
            · simp at h
            · simp only [Except.ok.injEq, Prod.mk.injEq] at h
              rw [← h.2]
              exact related_of_fields _ _
                (fun hn => heapNonneg_setObserver _ _ _
                  (heapNonneg_add_ref _ _ (heapNonneg_setKeyRendered _ _ _ hn))) rfl rfl

theorem related_cancelBufferToNativeWindow (cancelOk : Bool) (s : VPPProcessor) (p : Nat) :
    Related StaysOrFrees StaysOrFrees s (cancelBufferToNativeWindow cancelOk s p).2 := by
  unfold cancelBufferToNativeWindow
  split
  · exact related_frees_refl s
  · split
    · exact related_frees_refl s
    · split
      · exact related_frees_refl s
      · exact related_of_fields _ _ (fun hn => heapNonneg_setObserver _ _ _ hn) rfl rfl

theorem related_signalBufferReturned (window : List (Option Nat)) (cancelOk : Bool)
    (s s' : VPPProcessor) (buff : Option Nat)
    (h : signalBufferReturned window cancelOk s buff = .ok s') :
    Related StaysOrFrees StaysOrFrees s s' := by
  unfold signalBufferReturned at h
  split at h
  · simp only [Except.ok.injEq] at h
    rw [← h]
    exact related_frees_refl s
  · rename_i p
    dsimp only at h
    split at h
    · simp only [Except.ok.injEq] at h
      rw [← h]
      exact related_frees_refl s
    · rename_i info _
      split at h
      · split at h
        · have h1 : Related StaysOrFrees StaysOrFrees s
              { s with
                heap := setObserver (setKeyRendered s.heap p 0) p BufferObserver.null
                mBufferInfos := setInfoStatus s.mBufferInfos info OWNED_BY_NATIVE_WINDOW } :=
            related_of_fields _ _
              (fun hn => heapNonneg_setObserver _ _ _ (heapNonneg_setKeyRendered _ _ _ hn))
              rfl rfl
          split at h
          · simp at h
          · rename_i s2 hd
            simp only [Except.ok.injEq] at h
            rw [← h]
            exact related_frees_trans _ _ _ h1
              (related_dequeueBufferFromNativeWindow window none _ s2 none hd)
          · rename_i m s2 hd
            simp only [Except.ok.injEq] at h
            rw [← h]
            exact related_frees_trans _ _ _
              (related_frees_trans _ _ _ h1
                (related_dequeueBufferFromNativeWindow window none _ s2 (some m) hd))
              (related_resetOutputSlotOf _ _ _)
        · simp only [Except.ok.injEq] at h
          rw [← h]
          exact related_frees_trans _ _ _
            (related_of_fields s
              { s with
                heap := add_ref s.heap p
                mBufferInfos := setInfoStatus s.mBufferInfos info OWNED_BY_VPP }
              (fun hn => heapNonneg_add_ref _ _ hn) rfl rfl)
            (related_resetOutputSlotOf _ _ _)
      · have hr : ∀ t : status_t × VPPProcessor, Related StaysOrFrees StaysOrFrees s t.2 →
            (if t.1 ≠ VPP_OK then (Except.ok t.2 : Except Fault VPPProcessor)
              else .ok (resetOutputSlotOf
                { t.2 with
                  heap := setObserver t.2.heap p BufferObserver.null
                  mBufferInfos :=
                    setInfoStatus t.2.mBufferInfos info OWNED_BY_NATIVE_WINDOW }
                p fun _ => none)) = .ok s' →
            Related StaysOrFrees StaysOrFrees s s' := by
          intro t ht hres
          split at hres
          · simp only [Except.ok.injEq] at hres
            rw [← hres]
            exact ht
          · simp only [Except.ok.injEq] at hres
            rw [← hres]
            exact related_frees_trans _ _ _
              (related_frees_trans _ _ _ ht
                (related_of_fields t.2
                  { t.2 with
                    heap := setObserver t.2.heap p BufferObserver.null
                    mBufferInfos :=
                      setInfoStatus t.2.mBufferInfos info OWNED_BY_NATIVE_WINDOW }
                  (fun hn => heapNonneg_setObserver _ _ _ hn) rfl rfl))
              (related_resetOutputSlotOf _ _ _)
        split at h
        · exact hr _ (related_cancelBufferToNativeWindow cancelOk s p) h
        · exact hr (VPP_OK, s) (related_frees_refl s) h

/-- Every operation keeps the reference counts non-negative and moves every slot status by
an orchestrator move. -/
theorem related_step (op : Op) (s s' : VPPProcessor) (h : step op s = .ok s') :
    Related OrchestratorMove OrchestratorMove s s' := by
  cases op with
  | submit buff =>
    obtain ⟨a, ha, hs⟩ := except_map_ok _ _ _ h
    rw [← hs]
    exact related_setDecoderBufferToVPP s a.2 buff a.1 ha
  | merge fuel =>
    obtain ⟨a, ha, hs⟩ := except_map_ok _ _ _ h
    rw [← hs]
    have hr := related_updateRenderList fuel s a.2 a.1 ha
    exact ⟨hr.1, fun i => orchestratorMove_of_frees _ _ (hr.2.1 i),
      fun i => orchestratorMove_of_renders _ _ (hr.2.2 i)⟩
  | cleanup =>
    simp only [step, Except.ok.injEq] at h
    rw [← h]
    exact related_move_of_frees _ _ (related_clearInput s)
  | fetch w buffer =>
    obtain ⟨a, ha, hs⟩ := except_map_ok _ _ _ h
    rw [← hs]
    exact related_move_of_frees _ _ (related_read w s a.2.2 buffer a.2.1 a.1 ha)
  | signalReturn window cancelOk buff =>
    exact related_move_of_frees _ _ (related_signalBufferReturned window cancelOk s s' buff h)
  | flush =>
    simp only [step, Except.ok.injEq] at h
    rw [← h]
    exact related_move_of_frees _ _ (related_flush s)
  | drainCheck =>
    simp only [step, Except.ok.injEq] at h
    rw [← h]
    exact related_move_of_frees _ _ (related_hasProcessingBuffer s)
  | teardown =>
    exact related_move_of_frees _ _ (related_teardown s s' h)

theorem heldNonneg_run (ops : List Op) :
    ∀ (s s' : VPPProcessor), run ops s = .ok s' → HeldNonneg s → HeldNonneg s' := by
  induction ops with
  | nil =>
    intro s s' h hn
    simp only [run, Except.ok.injEq] at h
    rw [← h]
    exact hn
  | cons op rest ih =>
    intro s s' h hn
    simp only [run] at h
    split at h
    · simp at h
    · rename_i s1 hs
      exact ih s1 s' h ((related_step op s s1 hs).1 hn)

theorem heldNonneg_exInit (rate : Nat) : HeldNonneg (exInit rate) := by
  intro q
  show (0 : Int) ≤ 1
  decide

/-- C15 as stated fails: from `exInit 1` the submit of buffer 1 takes one reference on it
(the count goes from 1 to 2), and the flush that follows releases it twice, once for the
input slot and once for the render list entry (the count goes from 2 to 0): two releases
against one reference taken, and the count ends below the value it had before the
orchestrator touched the buffer. -/
theorem flush_releases_more_than_taken :
    ∃ s1 s2, step (Op.submit (some 1)) (exInit 1) = .ok s1 ∧
      ((exInit 1).heap 1).mRefCount = 1 ∧ (s1.heap 1).mRefCount = 2 ∧
      step Op.flush s1 = .ok s2 ∧ (s2.heap 1).mRefCount = 0 ∧
      run [Op.submit (some 1), Op.flush] (exInit 1) = .ok s2 ∧
      (s2.heap 1).mRefCount < ((exInit 1).heap 1).mRefCount :=
  ⟨_, _, rfl, rfl, rfl, rfl, rfl, rfl, by decide⟩

/-- C15, amended: over every sequence of submit, merge pass, input cleanup, fetch,
signalReturn and flush operations (and of drain checks and teardown), the orchestrator
releases a buffer only while its reference count is positive: if no count is negative
before the sequence, none is negative after it, so no reference is released that is not
held. -/
theorem refcount_never_negative (ops : List Op) (s s' : VPPProcessor)
    (h : run ops s = .ok s') (hn : HeldNonneg s) : HeldNonneg s' :=
  heldNonneg_run ops s s' h hn

/-- Witness for the amended C15: the submit of buffer 1 followed by two flushes. -/
theorem refcount_never_negative_witness :
    ∃ s', run [Op.submit (some 1), Op.flush, Op.flush] (exInit 1) = .ok s' ∧
      (s'.heap 1).mRefCount = 0 ∧ HeldNonneg s' :=
  ⟨_, rfl, rfl, refcount_never_negative [Op.submit (some 1), Op.flush, Op.flush] (exInit 1) _
    rfl (heldNonneg_exInit 1)⟩

/-- C16 as stated fails: in `exBusy` input slot 0 is LOADED and `flush` moves it to FREE,
which is not a step of the cycle. -/
theorem flush_moves_loaded_to_free :
    step Op.flush exBusy = .ok (flush exBusy) ∧
      (exBusy.mInput 0).mStatus = VPP_BUFFER_LOADED ∧
      ((flush exBusy).mInput 0).mStatus = VPP_BUFFER_FREE ∧
      ¬ CycleStep (exBusy.mInput 0).mStatus ((flush exBusy).mInput 0).mStatus := by
  refine ⟨rfl, rfl, rfl, ?_⟩
  have h1 : (exBusy.mInput 0).mStatus = VPP_BUFFER_LOADED := rfl
  have h2 : ((flush exBusy).mInput 0).mStatus = VPP_BUFFER_FREE := rfl
  rw [h1, h2]
  unfold CycleStep
  decide

/-- C16, amended: across every operation of the orchestrator (submit, merge pass, input
cleanup, fetch, signalReturn, flush, the drain check of seek, teardown) the status of each
input and output slot stays the same, or moves from FREE to LOADED, or from READY to
RENDERING, or returns to FREE from whatever status it had. -/
theorem slot_status_moves (op : Op) (s s' : VPPProcessor) (h : step op s = .ok s')
    (i : Nat) :
    OrchestratorMove (s.mInput i).mStatus (s'.mInput i).mStatus ∧
      OrchestratorMove (s.mOutput i).mStatus (s'.mOutput i).mStatus :=
  ⟨(related_step op s s' h).2.1 i, (related_step op s s' h).2.2 i⟩

/-- Witness for the amended C16: the flush of `exBusy`, at slot 0. -/
theorem slot_status_moves_witness :
    OrchestratorMove (exBusy.mInput 0).mStatus ((flush exBusy).mInput 0).mStatus ∧
      OrchestratorMove (exBusy.mOutput 0).mStatus ((flush exBusy).mOutput 0).mStatus :=
  slot_status_moves Op.flush exBusy (flush exBusy) rfl 0

/-! ## The release of an output slot in `flush` -/

theorem flushOutputSlot_heap (s : VPPProcessor) (i : Nat) :
    ∃ heap, flushOutputSlot s i = { s with heap := heap } := by
  unfold flushOutputSlot
  split
  · split
    · exact ⟨s.heap, rfl⟩
    · split
      · split
        · exact ⟨s.heap, rfl⟩
        · split
          · exact ⟨_, rfl⟩
          · exact ⟨s.heap, rfl⟩
      · exact ⟨s.heap, rfl⟩
  · exact ⟨s.heap, rfl⟩

/-! ## Return of a buffer by the client -/

theorem rendered_ne_zero_iff (s : VPPProcessor) (p : Nat) :
    (match (s.heap p).kKeyRendered with
      | none => (0 : Int)
      | some r => r) ≠ 0 ↔ MarkedRendered s p := by
  unfold MarkedRendered
  cases (s.heap p).kKeyRendered <;> simp

theorem infoStatus_setInfoStatus_ne (l : List BufferInfo) (i j : Nat) (st : BufferOwner)
    (h : i ≠ j) : infoStatus (setInfoStatus l j st) i = infoStatus l i := by
  induction l generalizing i j with
  | nil => simp [setInfoStatus]
  | cons info rest ih =>
    cases j with
    | zero =>
      cases i with
      | zero => exact absurd rfl h
      | succ i => simp [setInfoStatus, infoStatus]
    | succ j =>
      cases i with
      | zero => simp [setInfoStatus, infoStatus]
      | succ i =>
        simp only [setInfoStatus, infoStatus]
        exact ih i j (fun e => h (by rw [e]))

theorem findBufferInfoFrom_spec (buff : Option Nat) (l : List BufferInfo) (k i : Nat)
    (h : findBufferInfoFrom buff l k = some i) :
    ∃ e, l.get? (i - k) = some e ∧ some e.mMediaBuffer = buff := by
  induction l generalizing k with
  | nil => simp [findBufferInfoFrom] at h
  | cons info rest ih =>
    simp only [findBufferInfoFrom] at h
    split at h
    · rename_i hb
      simp only [Option.some.injEq] at h
      subst h
      exact ⟨info, by simp, hb⟩
    · obtain ⟨e, he, hb⟩ := ih (k + 1) h
      have hk := (findBufferInfoFrom_bounds buff rest (k + 1) i h).1
      refine ⟨e, ?_, hb⟩
      have : i - k = (i - (k + 1)) + 1 := by omega
      rw [this, List.get?_cons_succ]
      exact he

theorem findInfoByHandle_spec (heap : Nat → MediaBuffer) (h : Nat) (l : List BufferInfo)
    (k i m : Nat) (hf : findInfoByHandle heap h l k = .ok (some (i, m))) :
    (heap m).graphicBuffer = some h ∧ k ≤ i ∧
      ∃ e, l.get? (i - k) = some e ∧ e.mMediaBuffer = m := by
  induction l generalizing k with
  | nil => simp [findInfoByHandle] at hf
  | cons info rest ih =>
    simp only [findInfoByHandle] at hf
    split at hf
    · exact absurd hf (by simp)
    · rename_i g hg
      split at hf
      · rename_i hgh
        simp only [Except.ok.injEq, Option.some.injEq, Prod.mk.injEq] at hf
        obtain ⟨h1, h2⟩ := hf
        subst h1 h2 hgh
        exact ⟨hg, le_refl _, info, by simp, rfl⟩
      · obtain ⟨h1, h2, e, he, hm⟩ := ih (k + 1) hf
        refine ⟨h1, by omega, e, ?_, hm⟩
        have : i - k = (i - (k + 1)) + 1 := by omega
        rw [this, List.get?_cons_succ]
        exact he

theorem findInfoByHandle_congr (heap heap' : Nat → MediaBuffer) (h : Nat)
    (hg : ∀ q, (heap' q).graphicBuffer = (heap q).graphicBuffer) (l : List BufferInfo)
    (k : Nat) : findInfoByHandle heap' h l k = findInfoByHandle heap h l k := by
  induction l generalizing k with
  | nil => rfl
  | cons info rest ih =>
    simp only [findInfoByHandle, hg, ih]

theorem findInfoByHandle_setInfoStatus (heap : Nat → MediaBuffer) (h : Nat)
    (l : List BufferInfo) (j : Nat) (st : BufferOwner) (k : Nat) :
    findInfoByHandle heap h (setInfoStatus l j st) k = findInfoByHandle heap h l k := by
  induction l generalizing j k with
  | nil => simp [setInfoStatus]
  | cons info rest ih =>
    cases j with
    | zero => simp [setInfoStatus, findInfoByHandle]
    | succ j => simp [setInfoStatus, findInfoByHandle, ih]

theorem setKeyRendered_graphicBuffer (heap : Nat → MediaBuffer) (p : Nat) (v : Int) (q : Nat) :
    (setKeyRendered heap p v q).graphicBuffer = (heap q).graphicBuffer := by
  unfold setKeyRendered
  by_cases h : q = p
  · subst h; simp
  · simp [Function.update_noteq h]

theorem setObserver_graphicBuffer (heap : Nat → MediaBuffer) (p : Nat) (o : BufferObserver)
    (q : Nat) : (setObserver heap p o q).graphicBuffer = (heap q).graphicBuffer := by
  unfold setObserver
  by_cases h : q = p
  · subst h; simp
  · simp [Function.update_noteq h]

theorem setKeyRendered_mRefCount (heap : Nat → MediaBuffer) (p : Nat) (v : Int) (q : Nat) :
    (setKeyRendered heap p v q).mRefCount = (heap q).mRefCount := by
  unfold setKeyRendered
  by_cases h : q = p
  · subst h; simp
  · simp [Function.update_noteq h]

theorem setObserver_mRefCount (heap : Nat → MediaBuffer) (p : Nat) (o : BufferObserver)
    (q : Nat) : (setObserver heap p o q).mRefCount = (heap q).mRefCount := by
  unfold setObserver
  by_cases h : q = p
  · subst h; simp
  · simp [Function.update_noteq h]

/-- The dequeue loop leaves alone a buffer whose handle the display surface does not offer:
its reference count, the owner of its table entry and the buffers of the table entries. -/
theorem dequeueBufferFromNativeWindow_keeps (p pinfo : Nat) (window : List (Option Nat)) :
    ∀ (info : Option (Nat × Nat)) (s s2 : VPPProcessor) (r : Option Nat),
      (∃ e, s.mBufferInfos.get? pinfo = some e ∧ e.mMediaBuffer = p) →
      (∀ h, some h ∈ window → (s.heap p).graphicBuffer ≠ some h) →
      (∀ i m, info = some (i, m) → i ≠ pinfo ∧ m ≠ p) →
      dequeueBufferFromNativeWindow window info s = .ok (r, s2) →
      (s2.heap p).mRefCount = (s.heap p).mRefCount ∧
        infoStatus s2.mBufferInfos pinfo = infoStatus s.mBufferInfos pinfo ∧
        ∀ b k, findBufferInfoFrom b s2.mBufferInfos k =
          findBufferInfoFrom b s.mBufferInfos k := by
  induction window with
  | nil =>
    intro info s s2 r _ _ _ h
    simp [dequeueBufferFromNativeWindow] at h
  | cons a rest ih =>
    intro info s s2 r hp hw hi h
    cases a with
    | none =>
      simp only [dequeueBufferFromNativeWindow, Except.ok.injEq, Prod.mk.injEq] at h
      rw [← h.2]
      exact ⟨rfl, rfl, fun _ _ => rfl⟩
    | some hnd =>
      simp only [dequeueBufferFromNativeWindow] at h
      split at h
      · simp at h
      · rename_i found hfound
        split at h
        · simp only [Except.ok.injEq, Prod.mk.injEq] at h
          rw [← h.2]
          exact ⟨rfl, rfl, fun _ _ => rfl⟩
        · rename_i i mediaBuffer hsel
          have hgood : i ≠ pinfo ∧ mediaBuffer ≠ p := by
            cases found with
            | none => exact hi i mediaBuffer hsel
            | some e =>
              simp only [Option.some.injEq] at hsel
              subst hsel
              obtain ⟨hg, _, e, he, hm⟩ :=
                findInfoByHandle_spec s.heap hnd s.mBufferInfos 0 i mediaBuffer hfound
              have hmp : mediaBuffer ≠ p := by
                intro hmp
                rw [hmp] at hg
                exact hw hnd (List.mem_cons_self _ _) hg
              refine ⟨?_, hmp⟩
              intro hip
              obtain ⟨e2, he2, hm2⟩ := hp
              rw [hip, Nat.sub_zero, he2] at he
              simp only [Option.some.injEq] at he
              rw [← he, hm2] at hm
              exact hmp hm.symm
          have hk : setKeyRendered s.heap mediaBuffer 0 p = s.heap p := by
            unfold setKeyRendered
            exact Function.update_noteq (Ne.symm hgood.2) _ _
          split at h
          · have := ih (some (i, mediaBuffer))
              { s with heap := setKeyRendered s.heap mediaBuffer 0 } s2 r hp
              (fun h1 hh => by
                show (setKeyRendered s.heap mediaBuffer 0 p).graphicBuffer ≠ some h1
                rw [hk]
                exact hw h1 (List.mem_cons_of_mem _ hh))
              (fun i1 m1 he1 => by
                simp only [Option.some.injEq, Prod.mk.injEq] at he1
                rw [← he1.1, ← he1.2]
                exact hgood) h
            refine ⟨?_, this.2.1, this.2.2⟩
            rw [this.1]
            show (setKeyRendered s.heap mediaBuffer 0 p).mRefCount = _
            rw [hk]
          · split at h
            · simp at h
            · simp only [Except.ok.injEq, Prod.mk.injEq] at h
              rw [← h.2]
              refine ⟨?_, infoStatus_setInfoStatus_ne _ _ _ _ (Ne.symm hgood.1),
                fun b k => findBufferInfoFrom_setInfoStatus b _ _ _ k⟩
              show (setObserver (add_ref (setKeyRendered s.heap mediaBuffer 0) mediaBuffer)
                mediaBuffer BufferObserver.vppProcessor p).mRefCount = _
              rw [setObserver_mRefCount]
              unfold add_ref
              rw [Function.update_noteq (Ne.symm hgood.2), hk]

theorem resetOutputSlotOf_fields (s : VPPProcessor) (p : Nat) (g : Nat → Option Nat) :
    (resetOutputSlotOf s p g).heap = s.heap ∧
      (resetOutputSlotOf s p g).mBufferInfos = s.mBufferInfos := by
  unfold resetOutputSlotOf
  split
  · exact ⟨rfl, rfl⟩
  · exact ⟨rfl, rfl⟩

theorem signalBufferReturned_reuse (window : List (Option Nat)) (cancelOk : Bool)
    (s : VPPProcessor) (p info : Nat) (hrun : s.mThreadRunning = true)
    (hinfo : findBufferInfo s (some p) = some info)
    (hc : ¬ (infoStatus s.mBufferInfos info = some OWNED_BY_CLIENT ∧ MarkedRendered s p)) :
    signalBufferReturned window cancelOk s (some p) =
      .ok (resetOutputSlotOf
        { s with
          heap := add_ref s.heap p
          mBufferInfos := setInfoStatus s.mBufferInfos info OWNED_BY_VPP }
        p fun i => (s.mOutput i).mGraphicBuffer) := by
  rw [← rendered_ne_zero_iff] at hc
  unfold signalBufferReturned
  simp only [hinfo, hrun, if_true]
  rw [if_neg hc]

theorem signalBufferReturned_rendered (window : List (Option Nat)) (cancelOk : Bool)
    (s : VPPProcessor) (p info : Nat) (hrun : s.mThreadRunning = true)
    (hinfo : findBufferInfo s (some p) = some info)
    (hc : infoStatus s.mBufferInfos info = some OWNED_BY_CLIENT ∧ MarkedRendered s p) :
    signalBufferReturned window cancelOk s (some p) =
      match dequeueBufferFromNativeWindow window none
        { s with
          heap := setObserver (setKeyRendered s.heap p 0) p BufferObserver.null
          mBufferInfos := setInfoStatus s.mBufferInfos info OWNED_BY_NATIVE_WINDOW } with
      | .error f => .error f
      | .ok (none, s2) => .ok s2
      | .ok (some mediaBuffer, s2) =>
        .ok (resetOutputSlotOf s2 p fun _ => (s2.heap mediaBuffer).graphicBuffer) := by
  rw [← rendered_ne_zero_iff] at hc
  unfold signalBufferReturned
  simp only [hinfo, hrun, if_true]
  rw [if_pos hc]

theorem setInfoStatus_get_media (l : List BufferInfo) (j : Nat) (st : BufferOwner) (i : Nat)
    (e : BufferInfo) (h : l.get? i = some e) :
    ∃ e2, (setInfoStatus l j st).get? i = some e2 ∧ e2.mMediaBuffer = e.mMediaBuffer := by
  induction l generalizing i j with
  | nil => simp at h
  | cons info rest ih =>
    cases j with
    | zero =>
      cases i with
      | zero =>
        simp only [List.get?_cons_zero, Option.some.injEq] at h
        subst h
        exact ⟨{ info with mStatus := st }, by simp [setInfoStatus], rfl⟩
      | succ i => exact ⟨e, by simpa [setInfoStatus] using h, rfl⟩
    | succ j =>
      cases i with
      | zero => exact ⟨e, by simpa [setInfoStatus] using h, rfl⟩
      | succ i =>
        simp only [List.get?_cons_succ] at h
        obtain ⟨e2, h2, hm⟩ := ih j i h
        exact ⟨e2, by simpa [setInfoStatus] using h2, hm⟩

/-- C19 as stated fails twice. In `exReturned` buffer 4 is marked rendered but owned by the
orchestrator: the call takes a reference on it and leaves it owned by the orchestrator. In
`exReturnedClient` buffer 4 is marked rendered and owned by the client, and the display
surface hands the same buffer back: the call ends with a reference taken on it and the
orchestrator as its owner. -/
theorem signalBufferReturned_rendered_not_decisive :
    (MarkedRendered exReturned 4 ∧ exReturned.mThreadRunning = true ∧
      findBufferInfo exReturned (some 4) = some 3 ∧ (exReturned.heap 4).mRefCount = 1 ∧
      ∃ s2, signalBufferReturned [] true exReturned (some 4) = .ok s2 ∧
        (s2.heap 4).mRefCount = 2 ∧ infoStatus s2.mBufferInfos 3 = some OWNED_BY_VPP) ∧
    (MarkedRendered exReturnedClient 4 ∧ exReturnedClient.mThreadRunning = true ∧
      findBufferInfo exReturnedClient (some 4) = some 3 ∧
      infoStatus exReturnedClient.mBufferInfos 3 = some OWNED_BY_CLIENT ∧
      (exReturnedClient.heap 4).mRefCount = 1 ∧
      ∃ s2, signalBufferReturned [some 104] true exReturnedClient (some 4) = .ok s2 ∧
        (s2.heap 4).mRefCount = 2 ∧ infoStatus s2.mBufferInfos 3 = some OWNED_BY_VPP) :=
  ⟨⟨⟨1, rfl, by decide⟩, rfl, rfl, rfl, _, rfl, rfl, rfl⟩,
    ⟨⟨1, rfl, by decide⟩, rfl, rfl, rfl, rfl, _, rfl, rfl, rfl⟩⟩

/-- C19, amended: signalReturn with the Worker active, for a non-null buffer `p` known to the
buffer table (entry `info`). If `p` is not both owned by the client and marked rendered, the
call returns, exactly one reference is taken on `p` (no other buffer changes) and its owner
becomes the orchestrator (OWNED_BY_VPP). If `p` is owned by the client and marked rendered
and the display surface does not hand `p` itself back, then whenever the call returns no
reference was taken on `p` and its owner is the display surface (OWNED_BY_NATIVE_WINDOW);
and the call does return when the first answer of the display surface is an error or a
buffer of the table owned by the display surface. The outcome depends on the owner as well
as on the rendered mark. -/
theorem signalBufferReturned_running (window : List (Option Nat)) (cancelOk : Bool)
    (s : VPPProcessor) (p info : Nat) (hrun : s.mThreadRunning = true)
    (hinfo : findBufferInfo s (some p) = some info) :
    (¬ (infoStatus s.mBufferInfos info = some OWNED_BY_CLIENT ∧ MarkedRendered s p) →
      ∃ s2, signalBufferReturned window cancelOk s (some p) = .ok s2 ∧
        s2.heap p = { s.heap p with mRefCount := (s.heap p).mRefCount + 1 } ∧
        (∀ q, q ≠ p → s2.heap q = s.heap q) ∧
        findBufferInfo s2 (some p) = some info ∧
        infoStatus s2.mBufferInfos info = some OWNED_BY_VPP) ∧
    (infoStatus s.mBufferInfos info = some OWNED_BY_CLIENT ∧ MarkedRendered s p →
      ((∀ h, some h ∈ window → (s.heap p).graphicBuffer ≠ some h) →
        ∀ s2, signalBufferReturned window cancelOk s (some p) = .ok s2 →
          (s2.heap p).mRefCount = (s.heap p).mRefCount ∧
          findBufferInfo s2 (some p) = some info ∧
          infoStatus s2.mBufferInfos info = some OWNED_BY_NATIVE_WINDOW) ∧
      (∀ rest, ∃ s2, signalBufferReturned (none :: rest) cancelOk s (some p) = .ok s2) ∧
      (∀ rest h i m, findInfoByHandle s.heap h s.mBufferInfos 0 = .ok (some (i, m)) →
        infoStatus s.mBufferInfos i = some OWNED_BY_NATIVE_WINDOW →
        ∃ s2, signalBufferReturned (some h :: rest) cancelOk s (some p) = .ok s2)) := by
  have hlt := findBufferInfo_lt s (some p) info hinfo
  constructor
  · intro hc
    refine ⟨_, signalBufferReturned_reuse window cancelOk s p info hrun hinfo hc, ?_, ?_, ?_, ?_⟩
    · rw [(resetOutputSlotOf_fields _ _ _).1]
      show add_ref s.heap p p = _
      unfold add_ref
      rw [Function.update_same]
    · intro q hq
      rw [(resetOutputSlotOf_fields _ _ _).1]
      show add_ref s.heap p q = _
      unfold add_ref
      rw [Function.update_noteq hq]
    · unfold findBufferInfo
      rw [(resetOutputSlotOf_fields _ _ _).2]
      show findBufferInfoFrom (some p) (setInfoStatus s.mBufferInfos info OWNED_BY_VPP) 0 = _
      rw [findBufferInfoFrom_setInfoStatus]
      exact hinfo
    · rw [(resetOutputSlotOf_fields _ _ _).2]
      exact infoStatus_setInfoStatus _ _ _ hlt
  · intro hc
    have heq := fun w => signalBufferReturned_rendered w cancelOk s p info hrun hinfo hc
    refine ⟨?_, ?_, ?_⟩
    · intro hw s2 h
      rw [heq window] at h
      obtain ⟨e, he, hme⟩ := findBufferInfoFrom_spec (some p) s.mBufferInfos 0 info hinfo
      rw [Nat.sub_zero] at he
      simp only [Option.some.injEq] at hme
      obtain ⟨e2, he2, hme2⟩ :=
        setInfoStatus_get_media s.mBufferInfos info OWNED_BY_NATIVE_WINDOW info e he
      have hkeep := fun r t =>
        dequeueBufferFromNativeWindow_keeps p info window none
          { s with
            heap := setObserver (setKeyRendered s.heap p 0) p BufferObserver.null
            mBufferInfos := setInfoStatus s.mBufferInfos info OWNED_BY_NATIVE_WINDOW } t r
          ⟨e2, he2, hme2.trans hme⟩
          (fun h1 hh => by
            show (setObserver (setKeyRendered s.heap p 0) p BufferObserver.null
              p).graphicBuffer ≠ some h1
            rw [setObserver_graphicBuffer, setKeyRendered_graphicBuffer]
            exact hw h1 hh)
          (fun _ _ hn => Option.noConfusion hn)
      have hpost : ∀ r t,
          dequeueBufferFromNativeWindow window none
            { s with
              heap := setObserver (setKeyRendered s.heap p 0) p BufferObserver.null
              mBufferInfos := setInfoStatus s.mBufferInfos info OWNED_BY_NATIVE_WINDOW } =
            .ok (r, t) →
          (t.heap p).mRefCount = (s.heap p).mRefCount ∧
            findBufferInfo t (some p) = some info ∧
            infoStatus t.mBufferInfos info = some OWNED_BY_NATIVE_WINDOW := by
        intro r t hd
        obtain ⟨h1, h2, h3⟩ := hkeep r t hd
        refine ⟨?_, ?_, ?_⟩
        · rw [h1]
          show (setObserver (setKeyRendered s.heap p 0) p BufferObserver.null p).mRefCount = _
          rw [setObserver_mRefCount, setKeyRendered_mRefCount]
        · unfold findBufferInfo
          rw [h3]
          show findBufferInfoFrom (some p)
            (setInfoStatus s.mBufferInfos info OWNED_BY_NATIVE_WINDOW) 0 = _
          rw [findBufferInfoFrom_setInfoStatus]
          exact hinfo
        · rw [h2]
          exact infoStatus_setInfoStatus _ _ _ hlt
      split at h
      · exact absurd h (by simp)
      · rename_i t hd
        simp only [Except.ok.injEq] at h
        rw [← h]
        exact hpost none t hd
      · rename_i m t hd
        simp only [Except.ok.injEq] at h
        rw [← h]
        unfold findBufferInfo
        rw [(resetOutputSlotOf_fields _ _ _).1, (resetOutputSlotOf_fields _ _ _).2]
        exact hpost (some m) t hd
    · intro rest
      rw [heq (none :: rest)]
      exact ⟨_, rfl⟩
    · intro rest h i m hfound hown
      rw [heq (some h :: rest)]
      have hne : i ≠ info := by
        intro hi
        rw [hi, hc.1] at hown
        exact absurd hown (by decide)
      have hf2 : findInfoByHandle
          (setObserver (setKeyRendered s.heap p 0) p BufferObserver.null) h
          (setInfoStatus s.mBufferInfos info OWNED_BY_NATIVE_WINDOW) 0 =
          .ok (some (i, m)) := by
        rw [findInfoByHandle_setInfoStatus,
          findInfoByHandle_congr s.heap _ h (fun q => by
            rw [setObserver_graphicBuffer, setKeyRendered_graphicBuffer])]
        exact hfound
      have hown2 : infoStatus (setInfoStatus s.mBufferInfos info OWNED_BY_NATIVE_WINDOW) i =
          some OWNED_BY_NATIVE_WINDOW := by
        rw [infoStatus_setInfoStatus_ne _ _ _ _ hne]
        exact hown
      simp only [dequeueBufferFromNativeWindow, hf2, hown2]
      exact ⟨_, rfl⟩

/-- The amended C19 on concrete states. In `exSurface` buffer 4 is owned by the client and
marked rendered and the display surface answers with buffer 8, which it owns: the call
returns, buffer 4 keeps its single reference and belongs to the display surface. In
`exInit 1` buffer 4 is not marked rendered: the call returns with one more reference on it
and the orchestrator as its owner. -/
theorem signalBufferReturned_running_witness :
    (exSurface.mThreadRunning = true ∧ findBufferInfo exSurface (some 4) = some 3 ∧
      infoStatus exSurface.mBufferInfos 3 = some OWNED_BY_CLIENT ∧
      MarkedRendered exSurface 4 ∧ (exSurface.heap 4).mRefCount = 1 ∧
      ∃ s2, signalBufferReturned [some 108] true exSurface (some 4) = .ok s2 ∧
        (s2.heap 4).mRefCount = (exSurface.heap 4).mRefCount ∧
        findBufferInfo s2 (some 4) = some 3 ∧
        infoStatus s2.mBufferInfos 3 = some OWNED_BY_NATIVE_WINDOW) ∧
    ((exInit 1).mThreadRunning = true ∧ findBufferInfo (exInit 1) (some 4) = some 3 ∧
      ∃ s2, signalBufferReturned [] true (exInit 1) (some 4) = .ok s2 ∧
        s2.heap 4 =
          { (exInit 1).heap 4 with mRefCount := ((exInit 1).heap 4).mRefCount + 1 } ∧
        (∀ q, q ≠ 4 → s2.heap q = (exInit 1).heap q) ∧
        findBufferInfo s2 (some 4) = some 3 ∧
        infoStatus s2.mBufferInfos 3 = some OWNED_BY_VPP) :=
  ⟨⟨rfl, rfl, rfl, ⟨1, rfl, by decide⟩, rfl, _, rfl,
    ((signalBufferReturned_running [some 108] true exSurface 4 3 rfl rfl).2
      ⟨rfl, 1, rfl, by decide⟩).1
      (fun h hh e => by
        rw [List.mem_singleton] at hh
        rw [Option.some.inj hh] at e
        exact absurd e (by decide)) _ rfl⟩,
    ⟨rfl, rfl,
      (signalBufferReturned_running [] true (exInit 1) 4 3 rfl rfl).1
        (fun hc => absurd hc.1 (by decide))⟩⟩

/-- The amended C13 on a concrete Worker: lookahead 1 and rate factor 2 under a maximum of 32
give the capacities 4 and 7, both within the maximum, and the result OK. -/
theorem validateVideoInfo_capacities_witness :
    (validateVideoInfo 32 5 (some { mFrcRate := 2, mNumForwardReferences := 1 }) (exInit 1)
        (some { width := 1280, height := 720, fps := 30 })).1 = VPP_OK ∧
      1 ≤ (validateVideoInfo 32 5 (some { mFrcRate := 2, mNumForwardReferences := 1 })
        (exInit 1) (some { width := 1280, height := 720, fps := 30 })).2.mInputBufferNum ∧
      (validateVideoInfo 32 5 (some { mFrcRate := 2, mNumForwardReferences := 1 })
        (exInit 1) (some { width := 1280, height := 720, fps := 30 })).2.mInputBufferNum ≤
          32 ∧
      1 ≤ (validateVideoInfo 32 5 (some { mFrcRate := 2, mNumForwardReferences := 1 })
        (exInit 1) (some { width := 1280, height := 720, fps := 30 })).2.mOutputBufferNum ∧
      (validateVideoInfo 32 5 (some { mFrcRate := 2, mNumForwardReferences := 1 })
        (exInit 1) (some { width := 1280, height := 720, fps := 30 })).2.mOutputBufferNum ≤
          32 :=
  ⟨rfl, (validateVideoInfo_capacities 32 5 { mFrcRate := 2, mNumForwardReferences := 1 }
    (exInit 1) { width := 1280, height := 720, fps := 30 } (by decide) (by decide)).2.2.2.2
    rfl⟩

/-! ## The branches of the merge -/

/-- The branch function names the branch of `updateRenderListPlace` that runs. -/
theorem updateRenderListPlace_branch (s1 : VPPProcessor) (buff : Nat) (t : Int) (it : Nat)
    (tl : Int) :
    updateRenderListPlace s1 buff t it tl =
      match updateRenderListBranch s1 t it tl with
      | .tooLate => advanceOutput { s1 with heap := releaseIfHeld s1.heap buff }
      | .exactMatch =>
        match s1.mRenderList.getD it none with
        | none => .error Fault.nullDeref
        | some renderBuff =>
          advanceOutput { s1 with
            heap := releaseIfHeld s1.heap renderBuff
            mRenderList := s1.mRenderList.set it (some buff)
            mOutput := Function.update s1.mOutput s1.mOutputLoadPoint
              { s1.mOutput s1.mOutputLoadPoint with mStatus := VPP_BUFFER_RENDERING }
            mVPPProcCount := s1.mVPPProcCount + 1
            mVPPRenderCount := s1.mVPPRenderCount + 1 }
      | .earlier =>
        advanceOutput { s1 with
          mVPPRenderCount := s1.mVPPRenderCount + 1
          mRenderList := s1.mRenderList.take it ++ some buff :: s1.mRenderList.drop it
          mOutput := Function.update s1.mOutput s1.mOutputLoadPoint
            { s1.mOutput s1.mOutputLoadPoint with mStatus := VPP_BUFFER_RENDERING } }
      | .fallback => advanceOutput { s1 with heap := releaseIfHeld s1.heap buff } := by
  unfold updateRenderListPlace updateRenderListBranch
  split_ifs <;> rfl

theorem scanRenderList_ne_fail (s : VPPProcessor) (t : Int) (l : List (Option Nat))
    (h : ∀ p, some p ∈ l → getBufferTimestamp s (some p) ≠ -1) (it : Nat) (tl : Int) :
    scanRenderList s t l it tl ≠ .fail := by
  induction l generalizing it tl with
  | nil => simp [scanRenderList]
  | cons e rest ih =>
    cases e with
    | none => simp [scanRenderList]
    | some p =>
      have hp := h p (List.mem_cons_self _ _)
      simp only [scanRenderList, hp, if_false]
      split
      · simp
      · exact ih (fun q hq => h q (List.mem_cons_of_mem _ hq)) _ _

/-- After a scan over a list without `NULL` entries the chain does not reach its last
branch. -/
theorem updateRenderListBranch_of_scan (s1 : VPPProcessor) (t : Int)
    (hnn : ∀ e ∈ s1.mRenderList, e ≠ none) (it : Nat) (tl : Int)
    (h : scanRenderList s1 t s1.mRenderList 0 0 = .stop it tl) :
    updateRenderListBranch s1 t it tl ≠ MergeBranch.fallback ∧
      (updateRenderListBranch s1 t it tl = MergeBranch.exactMatch → t = tl) ∧
      (updateRenderListBranch s1 t it tl = MergeBranch.earlier → t < tl) := by
  obtain ⟨pre, rest, hl, hit, _, hrest⟩ := scanRenderList_spec s1 t s1.mRenderList hnn 0 0 it tl h
  have hle : it = s1.mRenderList.length ∨ t ≤ tl := by
    rcases hrest with hr | ⟨x, post, _, htl, _, hstop⟩
    · left
      rw [hl, hr, hit]
      simp
    · right
      rw [htl]
      rcases hstop with hs | hs
      · exact hs.2
      · exact le_of_eq hs.2
  unfold updateRenderListBranch
  refine ⟨?_, ?_, ?_⟩
  · split_ifs with h1 h2 h3
    · exact MergeBranch.noConfusion
    · exact MergeBranch.noConfusion
    · exact MergeBranch.noConfusion
    · exfalso
      rcases hle with hlen | hle
      · exact h1 (Or.inr (Or.inl hlen))
      · omega
  · split_ifs with h1 h2 h3
    · intro hc; exact hc.elim
    · intro _; exact h2
    · intro hc; exact hc.elim
    · intro hc; exact hc.elim
  · split_ifs with h1 h2 h3
    · intro hc; exact hc.elim
    · intro hc; exact hc.elim
    · intro _; exact h3
    · intro hc; exact hc.elim

theorem updateRenderListBodyBranch_eq (s : VPPProcessor) (buff it : Nat) (tl : Int)
    (hbuf : findMediaBuffer s (s.mOutput s.mOutputLoadPoint) = some buff)
    (hset : (s.mOutput s.mOutputLoadPoint).mTimeUs ≠ -1)
    (hscan : scanRenderList (stampBuffer s buff (s.mOutput s.mOutputLoadPoint).mTimeUs)
      (s.mOutput s.mOutputLoadPoint).mTimeUs s.mRenderList 0 0 = .stop it tl) :
    updateRenderListBodyBranch s =
      some (updateRenderListBranch (stampBuffer s buff (s.mOutput s.mOutputLoadPoint).mTimeUs)
        (s.mOutput s.mOutputLoadPoint).mTimeUs it tl) := by
  have hl : (stampBuffer s buff (s.mOutput s.mOutputLoadPoint).mTimeUs).mRenderList =
      s.mRenderList := rfl
  unfold updateRenderListBodyBranch
  rw [hbuf]
  dsimp only
  rw [if_neg hset, hl, hscan]

theorem updateRenderListBodyBranch_cases (s : VPPProcessor) :
    updateRenderListBodyBranch s = none ∨
      ∃ buff it tl,
        scanRenderList (stampBuffer s buff (s.mOutput s.mOutputLoadPoint).mTimeUs)
          (s.mOutput s.mOutputLoadPoint).mTimeUs s.mRenderList 0 0 = .stop it tl ∧
        updateRenderListBodyBranch s =
          some (updateRenderListBranch
            (stampBuffer s buff (s.mOutput s.mOutputLoadPoint).mTimeUs)
            (s.mOutput s.mOutputLoadPoint).mTimeUs it tl) := by
  cases hbuf : findMediaBuffer s (s.mOutput s.mOutputLoadPoint) with
  | none =>
    left
    unfold updateRenderListBodyBranch
    rw [hbuf]
  | some buff =>
    by_cases hset : (s.mOutput s.mOutputLoadPoint).mTimeUs = -1
    · left
      unfold updateRenderListBodyBranch
      rw [hbuf]
      dsimp only
      rw [if_pos hset]
    · cases hscan : scanRenderList (stampBuffer s buff (s.mOutput s.mOutputLoadPoint).mTimeUs)
          (s.mOutput s.mOutputLoadPoint).mTimeUs s.mRenderList 0 0 with
      | fail =>
        left
        have hl : (stampBuffer s buff (s.mOutput s.mOutputLoadPoint).mTimeUs).mRenderList =
            s.mRenderList := rfl
        unfold updateRenderListBodyBranch
        rw [hbuf]
        dsimp only
        rw [if_neg hset, hl, hscan]
      | stop it tl =>
        right
        exact ⟨buff, it, tl, hscan, updateRenderListBodyBranch_eq s buff it tl hbuf hset hscan⟩

/-- C21: the last branch of the merge is unreachable. If the render list has no null entry
and every entry has a set timestamp, then no round of the loop of `updateRenderList` takes
the final `else` branch, whatever the rate factor; and for every slot that the round
processes (a slot bound to a buffer of the table, with a set timestamp) the scan ends
without failure and exactly one of the branches too late, exact match and strictly earlier
is taken, the exact match with `t = t_list` and the strictly earlier one with
`t < t_list`. -/
theorem updateRenderList_fallback_unreachable (s : VPPProcessor) (hnn : NoNull s)
    (hset : TimesSet s) :
    updateRenderListBodyBranch s ≠ some MergeBranch.fallback ∧
      ∀ buff, findMediaBuffer s (s.mOutput s.mOutputLoadPoint) = some buff →
        (s.mOutput s.mOutputLoadPoint).mTimeUs ≠ -1 →
        ∃ it tl b,
          scanRenderList (stampBuffer s buff (s.mOutput s.mOutputLoadPoint).mTimeUs)
            (s.mOutput s.mOutputLoadPoint).mTimeUs s.mRenderList 0 0 = .stop it tl ∧
          updateRenderListBody s =
            updateRenderListPlace (stampBuffer s buff (s.mOutput s.mOutputLoadPoint).mTimeUs)
              buff (s.mOutput s.mOutputLoadPoint).mTimeUs it tl ∧
          b = updateRenderListBranch
            (stampBuffer s buff (s.mOutput s.mOutputLoadPoint).mTimeUs)
            (s.mOutput s.mOutputLoadPoint).mTimeUs it tl ∧
          updateRenderListBodyBranch s = some b ∧
          (b = MergeBranch.tooLate ∨ b = MergeBranch.exactMatch ∨ b = MergeBranch.earlier) ∧
          (b = MergeBranch.exactMatch → (s.mOutput s.mOutputLoadPoint).mTimeUs = tl) ∧
          (b = MergeBranch.earlier → (s.mOutput s.mOutputLoadPoint).mTimeUs < tl) := by
  constructor
  · rcases updateRenderListBodyBranch_cases s with h | ⟨buff, it, tl, hscan, h⟩
    · rw [h]
      exact Option.noConfusion
    · rw [h]
      intro hc
      exact (updateRenderListBranch_of_scan
        (stampBuffer s buff (s.mOutput s.mOutputLoadPoint).mTimeUs)
        (s.mOutput s.mOutputLoadPoint).mTimeUs hnn it tl hscan).1 (Option.some.inj hc)
  · intro buff hbuf ht
    have hne := scanRenderList_ne_fail
      (stampBuffer s buff (s.mOutput s.mOutputLoadPoint).mTimeUs)
      (s.mOutput s.mOutputLoadPoint).mTimeUs s.mRenderList
      (fun p hp => by
        by_cases hpb : p = buff
        · rw [hpb, getBufferTimestamp_stampBuffer_self]
          exact ht
        · rw [getBufferTimestamp_stampBuffer s buff _ (some p)
            (fun hc => hpb (Option.some.inj hc))]
          exact hset (some p) hp) 0 0
    cases hscan : scanRenderList (stampBuffer s buff (s.mOutput s.mOutputLoadPoint).mTimeUs)
        (s.mOutput s.mOutputLoadPoint).mTimeUs s.mRenderList 0 0 with
    | fail => exact absurd hscan hne
    | stop it tl =>
      obtain ⟨h1, h2, h3⟩ := updateRenderListBranch_of_scan
        (stampBuffer s buff (s.mOutput s.mOutputLoadPoint).mTimeUs) _ hnn it tl hscan
      refine ⟨it, tl, _, rfl, updateRenderListBody_eq s buff it tl hbuf ht hscan, rfl,
        updateRenderListBodyBranch_eq s buff it tl hbuf ht hscan, ?_, h2, h3⟩
      cases hb : updateRenderListBranch
          (stampBuffer s buff (s.mOutput s.mOutputLoadPoint).mTimeUs)
          (s.mOutput s.mOutputLoadPoint).mTimeUs it tl with
      | tooLate => exact Or.inl rfl
      | exactMatch => exact Or.inr (Or.inl rfl)
      | earlier => exact Or.inr (Or.inr rfl)
      | fallback => exact absurd hb h1

/-- C21 in the three scenarios: Scenario A (0, 33, 66 at rate 1, enhanced 0) takes the exact
match, Scenario B (0, 33 at rate 2, enhanced 16) the strictly earlier branch and Scenario C
(50 at rate 2, enhanced 20) the too late branch; none takes the last branch. -/
theorem updateRenderList_fallback_unreachable_witness :
    NoNull exB ∧ TimesSet exB ∧
      updateRenderListBodyBranch exA = some MergeBranch.exactMatch ∧
      updateRenderListBodyBranch exB = some MergeBranch.earlier ∧
      updateRenderListBodyBranch exC = some MergeBranch.tooLate ∧
      updateRenderListBodyBranch exB ≠ some MergeBranch.fallback :=
  ⟨by unfold NoNull; decide, by unfold TimesSet; decide, by rfl, by rfl, by rfl,
    (updateRenderList_fallback_unreachable exB (by unfold NoNull; decide)
      (by unfold TimesSet; decide)).1⟩

/-! ## The load pointers across the operations -/

theorem ringKept_refl (s : VPPProcessor) : RingKept s s := ⟨rfl, rfl, fun h => h⟩

theorem ringKept_trans (s1 s2 s3 : VPPProcessor) (h12 : RingKept s1 s2)
    (h23 : RingKept s2 s3) : RingKept s1 s3 :=
  ⟨h23.1.trans h12.1, h23.2.1.trans h12.2.1, fun h => h23.2.2 (h12.2.2 h)⟩

theorem ringKept_same (s s' : VPPProcessor) (h1 : s'.mInputBufferNum = s.mInputBufferNum)
    (h2 : s'.mOutputBufferNum = s.mOutputBufferNum)
    (h3 : s'.mInputLoadPoint = s.mInputLoadPoint)
    (h4 : s'.mOutputLoadPoint = s.mOutputLoadPoint) : RingKept s s' := by
  refine ⟨h1, h2, fun h => ?_⟩
  unfold LoadPointsInRange
  rw [h1, h2, h3, h4]
  exact h

theorem ringKept_zero (s s' : VPPProcessor) (h1 : s'.mInputBufferNum = s.mInputBufferNum)
    (h2 : s'.mOutputBufferNum = s.mOutputBufferNum) (h3 : s'.mInputLoadPoint = 0)
    (h4 : s'.mOutputLoadPoint = 0) : RingKept s s' := by
  refine ⟨h1, h2, fun h => ?_⟩
  unfold LoadPointsInRange at h ⊢
  rw [h1, h2, h3, h4]
  omega

theorem ringKept_clearInputSlot (s : VPPProcessor) (i : Nat) :
    RingKept s (clearInputSlot s i) := by
  unfold clearInputSlot
  split
  · exact ringKept_same _ _ rfl rfl rfl rfl
  · exact ringKept_refl s

theorem ringKept_flushInputSlot (s : VPPProcessor) (i : Nat) :
    RingKept s (flushInputSlot s i) := by
  unfold flushInputSlot
  split
  · exact ringKept_same _ _ rfl rfl rfl rfl
  · exact ringKept_refl s

theorem ringKept_releaseInputSlot (s : VPPProcessor) (i : Nat) :
    RingKept s (releaseInputSlot s i) :=
  ringKept_same _ _ rfl rfl rfl rfl

theorem ringKept_releaseOutputSlot (s : VPPProcessor) (i : Nat) :
    RingKept s (releaseOutputSlot s i) := by
  unfold releaseOutputSlot
  split
  · exact ringKept_refl s
  · split
    · split
      · exact ringKept_refl s
      · split
        · exact ringKept_same _ _ rfl rfl rfl rfl
        · exact ringKept_refl s
    · exact ringKept_refl s

theorem ringKept_flushOutputSlot (s : VPPProcessor) (i : Nat) :
    RingKept s (flushOutputSlot s i) := by
  obtain ⟨heap, h⟩ := flushOutputSlot_heap s i
  rw [h]
  exact ringKept_same _ _ rfl rfl rfl rfl

theorem ringKept_hasProcessingOutputSlot (s : VPPProcessor) (i : Nat) :
    RingKept s (hasProcessingOutputSlot s i) := by
  unfold hasProcessingOutputSlot
  split
  · exact ringKept_releaseOutputSlot s i
  · exact ringKept_refl s

theorem ringKept_hasProcessingInputSlot (acc : Bool × VPPProcessor) (i : Nat) :
    RingKept acc.2 (hasProcessingInputSlot acc i).2 := by
  unfold hasProcessingInputSlot
  dsimp only
  by_cases hc : (acc.2.mInput i).mStatus ≠ VPP_BUFFER_PROCESSING ∧
      (acc.2.mInput i).mStatus ≠ VPP_BUFFER_FREE
  · rw [if_pos hc]
    exact ringKept_same _ _ rfl rfl rfl rfl
  · rw [if_neg hc]
    exact ringKept_refl acc.2

theorem ringKept_clearInput (s : VPPProcessor) : RingKept s (clearInput s) :=
  foldl_rel _ ringKept_refl ringKept_trans clearInputSlot ringKept_clearInputSlot _ s

theorem ringKept_flush (s : VPPProcessor) : RingKept s (flush s) := by
  unfold flush
  exact ringKept_trans _ _ _
    (ringKept_trans _ _ _
      (foldl_rel _ ringKept_refl ringKept_trans flushInputSlot ringKept_flushInputSlot _ s)
      (foldl_rel _ ringKept_refl ringKept_trans flushOutputSlot ringKept_flushOutputSlot _ _))
    (ringKept_zero _ _ rfl rfl rfl rfl)

theorem ringKept_releaseBuffers (s : VPPProcessor) : RingKept s (releaseBuffers s) := by
  unfold releaseBuffers
  exact ringKept_trans _ _ _
    (ringKept_trans _ _ _
      (foldl_rel _ ringKept_refl ringKept_trans releaseInputSlot ringKept_releaseInputSlot _ s)
      (foldl_rel _ ringKept_refl ringKept_trans releaseOutputSlot
        ringKept_releaseOutputSlot _ _))
    (ringKept_zero _ _ rfl rfl rfl rfl)

theorem ringKept_hasProcessingBuffer (s : VPPProcessor) :
    RingKept s (hasProcessingBuffer s).2 := by
  unfold hasProcessingBuffer
  have h1 : RingKept s
      ((List.range s.mInputBufferNum).foldl hasProcessingInputSlot (false, s)).2 :=
    foldl_rel (fun a b : Bool × VPPProcessor => RingKept a.2 b.2)
      (fun a => ringKept_refl a.2) (fun a b c => ringKept_trans a.2 b.2 c.2)
      hasProcessingInputSlot ringKept_hasProcessingInputSlot _ (false, s)
  have h2 := foldl_rel _ ringKept_refl ringKept_trans hasProcessingOutputSlot
    ringKept_hasProcessingOutputSlot
    (List.range
      ((List.range s.mInputBufferNum).foldl hasProcessingInputSlot (false, s)).2.mOutputBufferNum)
    ((List.range s.mInputBufferNum).foldl hasProcessingInputSlot (false, s)).2
  exact ringKept_trans _ _ _ (ringKept_trans _ _ _ h1 h2) (ringKept_zero _ _ rfl rfl rfl rfl)

theorem ringKept_setDecoderBufferToVPP (s s' : VPPProcessor) (buff : Option Nat)
    (r : status_t) (h : setDecoderBufferToVPP s buff = .ok (r, s')) : RingKept s s' := by
  cases buff with
  | none =>
    simp only [setDecoderBufferToVPP, Except.ok.injEq, Prod.mk.injEq] at h
    rw [← h.2]
    exact ringKept_refl s
  | some p =>
    simp only [setDecoderBufferToVPP] at h
    split at h
    · split at h
      · simp only [Except.ok.injEq, Prod.mk.injEq] at h
        rw [← h.2]
        exact ringKept_same _ _ rfl rfl rfl rfl
      · split at h
        · simp at h
        · rename_i hne
          simp only [Except.ok.injEq, Prod.mk.injEq] at h
          rw [← h.2]
          refine ⟨rfl, rfl, fun hr => ⟨?_, hr.2⟩⟩
          exact Nat.mod_lt _ (Nat.pos_of_ne_zero hne)
    · simp only [Except.ok.injEq, Prod.mk.injEq] at h
      rw [← h.2]
      exact ringKept_same _ _ rfl rfl rfl rfl

theorem ringKept_advanceOutput (s s' : VPPProcessor) (ro : Option status_t)
    (h : advanceOutput s = .ok (ro, s')) : RingKept s s' := by
  unfold advanceOutput at h
  split at h
  · simp at h
  · rename_i hne
    simp only [Except.ok.injEq, Prod.mk.injEq] at h
    rw [← h.2]
    exact ⟨rfl, rfl, fun hr => ⟨hr.1, Nat.mod_lt _ (Nat.pos_of_ne_zero hne)⟩⟩

theorem ringKept_updateRenderListBody (s s' : VPPProcessor) (ro : Option status_t)
    (h : updateRenderListBody s = .ok (ro, s')) : RingKept s s' := by
  unfold updateRenderListBody at h
  split at h
  · simp only [Except.ok.injEq, Prod.mk.injEq] at h
    rw [← h.2]
    exact ringKept_refl s
  · dsimp only at h
    split at h
    · simp only [Except.ok.injEq, Prod.mk.injEq] at h
      rw [← h.2]
      exact ringKept_refl s
    · split at h
      · simp only [Except.ok.injEq, Prod.mk.injEq] at h
        rw [← h.2]
        exact ringKept_same _ _ rfl rfl rfl rfl
      · unfold updateRenderListPlace at h
        split at h
        · refine ringKept_trans _ _ _ ?_ (ringKept_advanceOutput _ _ _ h)
          exact ringKept_same _ _ rfl rfl rfl rfl
        · split at h
          · split at h
            · simp at h
            · refine ringKept_trans _ _ _ ?_ (ringKept_advanceOutput _ _ _ h)
              exact ringKept_same _ _ rfl rfl rfl rfl
          · split at h
            · refine ringKept_trans _ _ _ ?_ (ringKept_advanceOutput _ _ _ h)
              exact ringKept_same _ _ rfl rfl rfl rfl
            · refine ringKept_trans _ _ _ ?_ (ringKept_advanceOutput _ _ _ h)
              exact ringKept_same _ _ rfl rfl rfl rfl

theorem ringKept_updateRenderList (fuel : Nat) :
    ∀ (s s' : VPPProcessor) (r : status_t), updateRenderList fuel s = .ok (r, s') →
      RingKept s s' := by
  induction fuel with
  | zero =>
    intro s s' r h
    simp [updateRenderList] at h
  | succ fuel ih =>
    intro s s' r h
    unfold updateRenderList at h
    split at h
    · split at h
      · simp at h
      · rename_i r1 s1 hbody
        simp only [Except.ok.injEq, Prod.mk.injEq] at h
        rw [← h.2]
        exact ringKept_updateRenderListBody s s1 (some r1) hbody
      · rename_i s1 hbody
        exact ringKept_trans _ _ _ (ringKept_updateRenderListBody s s1 none hbody)
          (ih s1 s' r h)
    · simp only [Except.ok.injEq, Prod.mk.injEq] at h
      rw [← h.2]
      exact ringKept_refl s

theorem ringKept_readList (s : VPPProcessor) (buffer : Option Nat) :
    RingKept s (readList s buffer).2.2 := by
  unfold readList
  split
  · split
    · exact ringKept_refl s
    · exact ringKept_same _ _ rfl rfl rfl rfl
  · dsimp only
    split
    · exact ringKept_same _ _ rfl rfl rfl rfl
    · exact ringKept_same _ _ rfl rfl rfl rfl

theorem ringKept_quitThread (s s' : VPPProcessor) (h : quitThread s = .ok s') :
    RingKept s s' := by
  unfold quitThread at h
  split at h
  · split at h
    · simp at h
    · simp only [Except.ok.injEq] at h
      rw [← h]
      exact ringKept_same _ _ rfl rfl rfl rfl
  · simp only [Except.ok.injEq] at h
    rw [← h]
    exact ringKept_refl s

theorem ringKept_reset (w : Bool) (s s' : VPPProcessor) (r : status_t)
    (h : reset w s = .ok (r, s')) : RingKept s s' := by
  unfold reset at h
  split at h
  · simp at h
  · rename_i s1 hq
    have h1 := ringKept_quitThread s s1 hq
    have h2 := ringKept_flush s1
    dsimp only at h
    split at h
    · simp only [Except.ok.injEq, Prod.mk.injEq] at h
      rw [← h.2]
      exact ringKept_trans _ _ _ h1 h2
    · simp only [createThread, Except.ok.injEq, Prod.mk.injEq] at h
      rw [← h.2]
      exact ringKept_trans _ _ _ (ringKept_trans _ _ _ h1 h2)
        (ringKept_same _ _ rfl rfl rfl rfl)

theorem ringKept_read (w : Bool) (s s' : VPPProcessor) (buffer b : Option Nat) (r : status_t)
    (h : read w s buffer = .ok (r, b, s')) : RingKept s s' := by
  unfold read at h
  split at h
  · simp at h
  · split at h
    · split at h
      · simp at h
      · rename_i r1 s1 hreset
        have h1 := ringKept_reset w s s1 r1 hreset
        split at h
        · simp only [Except.ok.injEq, Prod.mk.injEq] at h
          rw [← h.2.2]
          exact h1
        · simp only [Except.ok.injEq] at h
          have h2 := ringKept_readList s1 buffer
          rw [h] at h2
          exact ringKept_trans _ _ _ h1 h2
    · simp only [Except.ok.injEq] at h
      have h2 := ringKept_readList s buffer
      rw [h] at h2
      exact h2

theorem ringKept_teardown (s s' : VPPProcessor) (h : teardown s = .ok s') :
    RingKept s s' := by
  unfold teardown at h
  split at h
  · simp at h
  · rename_i s1 hq
    simp only [Except.ok.injEq] at h
    rw [← h]
    exact ringKept_trans _ _ _
      (ringKept_trans _ _ _ (ringKept_quitThread s s1 hq)
        (ringKept_same s1 { s1 with mThreadRunning := false } rfl rfl rfl rfl))
      (ringKept_releaseBuffers _)

theorem ringKept_resetOutputSlotOf (s : VPPProcessor) (p : Nat) (g : Nat → Option Nat) :
    RingKept s (resetOutputSlotOf s p g) := by
  unfold resetOutputSlotOf
  split
  · exact ringKept_refl s
  · exact ringKept_same _ _ rfl rfl rfl rfl

theorem ringKept_dequeueBufferFromNativeWindow (window : List (Option Nat)) :
    ∀ (info : Option (Nat × Nat)) (s s2 : VPPProcessor) (r : Option Nat),
      dequeueBufferFromNativeWindow window info s = .ok (r, s2) → RingKept s s2 := by
  induction window with
  | nil =>
    intro info s s2 r h
    simp [dequeueBufferFromNativeWindow] at h
  | cons a rest ih =>
    intro info s s2 r h
    cases a with
    | none =>
      simp only [dequeueBufferFromNativeWindow, Except.ok.injEq, Prod.mk.injEq] at h
      rw [← h.2]
      exact ringKept_refl s
    | some hnd =>
      simp only [dequeueBufferFromNativeWindow] at h
      split at h
      · simp at h
      · split at h
        · simp only [Except.ok.injEq, Prod.mk.injEq] at h
          rw [← h.2]
          exact ringKept_refl s
        · rename_i i mediaBuffer _
          have h1 : RingKept s { s with heap := setKeyRendered s.heap mediaBuffer 0 } :=
            ringKept_same _ _ rfl rfl rfl rfl
          split at h
          · exact ringKept_trans _ _ _ h1 (ih _ _ _ _ h)
          · split at h
            · simp at h
            · simp only [Except.ok.injEq, Prod.mk.injEq] at h
              rw [← h.2]
              exact ringKept_same _ _ rfl rfl rfl rfl

theorem ringKept_cancelBufferToNativeWindow (cancelOk : Bool) (s : VPPProcessor) (p : Nat) :
    RingKept s (cancelBufferToNativeWindow cancelOk s p).2 := by
  unfold cancelBufferToNativeWindow
  split
  · exact ringKept_refl s
  · split
    · exact ringKept_refl s
    · split
      · exact ringKept_refl s
      · exact ringKept_same _ _ rfl rfl rfl rfl

theorem ringKept_signalBufferReturned (window : List (Option Nat)) (cancelOk : Bool)
    (s s' : VPPProcessor) (buff : Option Nat)
    (h : signalBufferReturned window cancelOk s buff = .ok s') : RingKept s s' := by
  unfold signalBufferReturned at h
  split at h
  · simp only [Except.ok.injEq] at h
    rw [← h]
    exact ringKept_refl s
  · rename_i p
    dsimp only at h
    split at h
    · simp only [Except.ok.injEq] at h
      rw [← h]
      exact ringKept_refl s
    · rename_i info _
      split at h
      · split at h
        · have h1 : RingKept s
              { s with
                heap := setObserver (setKeyRendered s.heap p 0) p BufferObserver.null
                mBufferInfos := setInfoStatus s.mBufferInfos info OWNED_BY_NATIVE_WINDOW } :=
            ringKept_same _ _ rfl rfl rfl rfl
          split at h
          · simp at h
          · rename_i s2 hd
            simp only [Except.ok.injEq] at h
            rw [← h]
            exact ringKept_trans _ _ _ h1
              (ringKept_dequeueBufferFromNativeWindow window none _ s2 none hd)
          · rename_i m s2 hd
            simp only [Except.ok.injEq] at h
            rw [← h]
            exact ringKept_trans _ _ _
              (ringKept_trans _ _ _ h1
                (ringKept_dequeueBufferFromNativeWindow window none _ s2 (some m) hd))
              (ringKept_resetOutputSlotOf _ _ _)
        · simp only [Except.ok.injEq] at h
          rw [← h]
          exact ringKept_trans _ _ _
            (ringKept_same s
              { s with
                heap := add_ref s.heap p
                mBufferInfos := setInfoStatus s.mBufferInfos info OWNED_BY_VPP }
              rfl rfl rfl rfl)
            (ringKept_resetOutputSlotOf _ _ _)
      · have hr : ∀ t : status_t × VPPProcessor, RingKept s t.2 →
            (if t.1 ≠ VPP_OK then (Except.ok t.2 : Except Fault VPPProcessor)
              else .ok (resetOutputSlotOf
                { t.2 with
                  heap := setObserver t.2.heap p BufferObserver.null
                  mBufferInfos :=
                    setInfoStatus t.2.mBufferInfos info OWNED_BY_NATIVE_WINDOW }
                p fun _ => none)) = .ok s' →
            RingKept s s' := by
          intro t ht hres
          split at hres
          · simp only [Except.ok.injEq] at hres
            rw [← hres]
            exact ht
          · simp only [Except.ok.injEq] at hres
            rw [← hres]
            exact ringKept_trans _ _ _
              (ringKept_trans _ _ _ ht
                (ringKept_same t.2
                  { t.2 with
                    heap := setObserver t.2.heap p BufferObserver.null
                    mBufferInfos :=
                      setInfoStatus t.2.mBufferInfos info OWNED_BY_NATIVE_WINDOW }
                  rfl rfl rfl rfl))
              (ringKept_resetOutputSlotOf _ _ _)
        split at h
        · exact hr _ (ringKept_cancelBufferToNativeWindow cancelOk s p) h
        · exact hr (VPP_OK, s) (ringKept_refl s) h

/-- Every operation keeps the capacities and keeps the load pointers inside their rings. -/
theorem ringKept_step (op : Op) (s s' : VPPProcessor) (h : step op s = .ok s') :
    RingKept s s' := by
  cases op with
  | submit buff =>
    obtain ⟨a, ha, hs⟩ := except_map_ok _ _ _ h
    rw [← hs]
    exact ringKept_setDecoderBufferToVPP s a.2 buff a.1 ha
  | merge fuel =>
    obtain ⟨a, ha, hs⟩ := except_map_ok _ _ _ h
    rw [← hs]
    exact ringKept_updateRenderList fuel s a.2 a.1 ha
  | cleanup =>
    simp only [step, Except.ok.injEq] at h
    rw [← h]
    exact ringKept_clearInput s
  | fetch w buffer =>
    obtain ⟨a, ha, hs⟩ := except_map_ok _ _ _ h
    rw [← hs]
    exact ringKept_read w s a.2.2 buffer a.2.1 a.1 ha
  | signalReturn window cancelOk buff =>
    exact ringKept_signalBufferReturned window cancelOk s s' buff h
  | flush =>
    simp only [step, Except.ok.injEq] at h
    rw [← h]
    exact ringKept_flush s
  | drainCheck =>
    simp only [step, Except.ok.injEq] at h
    rw [← h]
    exact ringKept_hasProcessingBuffer s
  | teardown =>
    exact ringKept_teardown s s' h

theorem ringKept_run (ops : List Op) :
    ∀ (s s' : VPPProcessor), run ops s = .ok s' → RingKept s s' := by
  induction ops with
  | nil =>
    intro s s' h
    simp only [run, Except.ok.injEq] at h
    rw [← h]
    exact ringKept_refl s
  | cons op rest ih =>
    intro s s' h
    simp only [run] at h
    split at h
    · simp at h
    · rename_i s1 hs
      exact ringKept_trans _ _ _ (ringKept_step op s s1 hs) (ih s1 s' h)

theorem initBufferNumberInvalid_false (maxNum size : Nat) (s : VPPProcessor)
    (h : initBufferNumberInvalid maxNum s size = false) :
    0 < s.mInputBufferNum ∧ 0 < s.mOutputBufferNum ∧ s.mInputBufferNum ≤ maxNum ∧
      s.mOutputBufferNum ≤ maxNum := by
  unfold initBufferNumberInvalid at h
  simp only [decide_eq_false_iff_not] at h
  omega

/-- C23: the load pointers stay in range. In a state in which the capacity check of `init`
passes (so both capacities are between 1 and the maximum) and both load pointers have the
value 0 the constructor gave them, every sequence of operations of the orchestrator (submit,
merge pass, input cleanup, fetch, signalReturn, flush, the drain check of seek, teardown)
that returns leaves the capacities as they were, the input load pointer smaller than the
input capacity and the output load pointer smaller than the output capacity; both
capacities, the moduli of the circular advances, are non-zero and within the maximum. -/
theorem loadPoints_in_range (maxNum size : Nat) (ops : List Op) (s s' : VPPProcessor)
    (hinit : initBufferNumberInvalid maxNum s size = false)
    (hin : s.mInputLoadPoint = 0) (hout : s.mOutputLoadPoint = 0)
    (hrun : run ops s = .ok s') :
    s'.mInputLoadPoint < s'.mInputBufferNum ∧ s'.mOutputLoadPoint < s'.mOutputBufferNum ∧
      s'.mInputBufferNum = s.mInputBufferNum ∧ s'.mOutputBufferNum = s.mOutputBufferNum ∧
      0 < s'.mInputBufferNum ∧ 0 < s'.mOutputBufferNum ∧
      s'.mInputBufferNum ≤ maxNum ∧ s'.mOutputBufferNum ≤ maxNum := by
  obtain ⟨h1, h2, h3, h4⟩ := initBufferNumberInvalid_false maxNum size s hinit
  obtain ⟨k1, k2, k3⟩ := ringKept_run ops s s' hrun
  have hr := k3 ⟨by rw [hin]; exact h1, by rw [hout]; exact h2⟩
  rw [k1, k2]
  exact ⟨by rw [← k1]; exact hr.1, by rw [← k2]; exact hr.2, rfl, rfl, h1, h2, h3, h4⟩

/-- C23 on Scenario B (capacities 3 and 5 under a maximum of 32, a table of 10 buffers): a
submit followed by a merge pass moves both load pointers to 1, inside their rings. -/
theorem loadPoints_in_range_witness :
    initBufferNumberInvalid 32 exB 10 = false ∧ exB.mInputLoadPoint = 0 ∧
      exB.mOutputLoadPoint = 0 ∧
      ∃ s2, run [Op.submit (some 3), Op.merge 2] exB = .ok s2 ∧
        s2.mInputLoadPoint = 1 ∧ s2.mOutputLoadPoint = 1 ∧
        s2.mInputLoadPoint < s2.mInputBufferNum ∧
        s2.mOutputLoadPoint < s2.mOutputBufferNum ∧
        s2.mInputBufferNum = exB.mInputBufferNum ∧
        s2.mOutputBufferNum = exB.mOutputBufferNum ∧
        0 < s2.mInputBufferNum ∧ 0 < s2.mOutputBufferNum ∧
        s2.mInputBufferNum ≤ 32 ∧ s2.mOutputBufferNum ≤ 32 :=
  ⟨rfl, rfl, rfl, _, rfl, rfl, rfl,
    loadPoints_in_range 32 10 [Op.submit (some 3), Op.merge 2] exB _ rfl rfl rfl rfl⟩

/-! ## Releases with the observer call -/

theorem releaseFrame_refl (s : VPPProcessor) : ReleaseFrame s s :=
  ⟨rfl, rfl, rfl, rfl, rfl, rfl, rfl, rfl, rfl, rfl⟩

theorem releaseFrame_trans (s1 s2 s3 : VPPProcessor) (h12 : ReleaseFrame s1 s2)
    (h23 : ReleaseFrame s2 s3) : ReleaseFrame s1 s3 :=
  ⟨h23.1.trans h12.1, h23.2.1.trans h12.2.1, h23.2.2.1.trans h12.2.2.1,
    h23.2.2.2.1.trans h12.2.2.2.1, h23.2.2.2.2.1.trans h12.2.2.2.2.1,
    h23.2.2.2.2.2.1.trans h12.2.2.2.2.2.1, h23.2.2.2.2.2.2.1.trans h12.2.2.2.2.2.2.1,
    h23.2.2.2.2.2.2.2.1.trans h12.2.2.2.2.2.2.2.1,
    h23.2.2.2.2.2.2.2.2.1.trans h12.2.2.2.2.2.2.2.2.1,
    h23.2.2.2.2.2.2.2.2.2.trans h12.2.2.2.2.2.2.2.2.2⟩

theorem releaseFrame_resetOutputSlotOf (s : VPPProcessor) (p : Nat) (g : Nat → Option Nat) :
    ReleaseFrame s (resetOutputSlotOf s p g) := by
  unfold resetOutputSlotOf
  split
  · exact releaseFrame_refl s
  · exact ⟨rfl, rfl, rfl, rfl, rfl, rfl, rfl, rfl, rfl, rfl⟩

theorem releaseFrame_dequeueBufferFromNativeWindow (window : List (Option Nat)) :
    ∀ (info : Option (Nat × Nat)) (s s2 : VPPProcessor) (r : Option Nat),
      dequeueBufferFromNativeWindow window info s = .ok (r, s2) → ReleaseFrame s s2 := by
  induction window with
  | nil =>
    intro info s s2 r h
    simp [dequeueBufferFromNativeWindow] at h
  | cons a rest ih =>
    intro info s s2 r h
    cases a with
    | none =>
      simp only [dequeueBufferFromNativeWindow, Except.ok.injEq, Prod.mk.injEq] at h
      rw [← h.2]
      exact releaseFrame_refl s
    | some hnd =>
      simp only [dequeueBufferFromNativeWindow] at h
      split at h
      · simp at h
      · split at h
        · simp only [Except.ok.injEq, Prod.mk.injEq] at h
          rw [← h.2]
          exact releaseFrame_refl s
        · rename_i i mediaBuffer _
          have h1 : ReleaseFrame s { s with heap := setKeyRendered s.heap mediaBuffer 0 } :=
            ⟨rfl, rfl, rfl, rfl, rfl, rfl, rfl, rfl, rfl, rfl⟩
          split at h
          · exact releaseFrame_trans _ _ _ h1 (ih _ _ _ _ h)
          · split at h
            · simp at h
            · simp only [Except.ok.injEq, Prod.mk.injEq] at h
              rw [← h.2]
              exact ⟨rfl, rfl, rfl, rfl, rfl, rfl, rfl, rfl, rfl, rfl⟩

theorem releaseFrame_cancelBufferToNativeWindow (cancelOk : Bool) (s : VPPProcessor)
    (p : Nat) : ReleaseFrame s (cancelBufferToNativeWindow cancelOk s p).2 := by
  unfold cancelBufferToNativeWindow
  split
  · exact releaseFrame_refl s
  · split
    · exact releaseFrame_refl s
    · split
      · exact releaseFrame_refl s
      · exact ⟨rfl, rfl, rfl, rfl, rfl, rfl, rfl, rfl, rfl, rfl⟩

theorem releaseFrame_signalBufferReturned (window : List (Option Nat)) (cancelOk : Bool)
    (s s' : VPPProcessor) (buff : Option Nat)
    (h : signalBufferReturned window cancelOk s buff = .ok s') : ReleaseFrame s s' := by
  unfold signalBufferReturned at h
  split at h
  · simp only [Except.ok.injEq] at h
    rw [← h]
    exact releaseFrame_refl s
  · rename_i p
    dsimp only at h
    split at h
    · simp only [Except.ok.injEq] at h
      rw [← h]
      exact releaseFrame_refl s
    · rename_i info _
      split at h
      · split at h
        · have h1 : ReleaseFrame s
              { s with
                heap := setObserver (setKeyRendered s.heap p 0) p BufferObserver.null
                mBufferInfos := setInfoStatus s.mBufferInfos info OWNED_BY_NATIVE_WINDOW } :=
            ⟨rfl, rfl, rfl, rfl, rfl, rfl, rfl, rfl, rfl, rfl⟩
          split at h
          · simp at h
          · rename_i s2 hd
            simp only [Except.ok.injEq] at h
            rw [← h]
            exact releaseFrame_trans _ _ _ h1
              (releaseFrame_dequeueBufferFromNativeWindow window none _ s2 none hd)
          · rename_i m s2 hd
            simp only [Except.ok.injEq] at h
            rw [← h]
            exact releaseFrame_trans _ _ _
              (releaseFrame_trans _ _ _ h1
                (releaseFrame_dequeueBufferFromNativeWindow window none _ s2 (some m) hd))
              (releaseFrame_resetOutputSlotOf _ _ _)
        · simp only [Except.ok.injEq] at h
          rw [← h]
          refine releaseFrame_trans _ _ _ ?_ (releaseFrame_resetOutputSlotOf _ _ _)
          exact ⟨rfl, rfl, rfl, rfl, rfl, rfl, rfl, rfl, rfl, rfl⟩
      · have hr : ∀ t : status_t × VPPProcessor, ReleaseFrame s t.2 →
            (if t.1 ≠ VPP_OK then (Except.ok t.2 : Except Fault VPPProcessor)
              else .ok (resetOutputSlotOf
                { t.2 with
                  heap := setObserver t.2.heap p BufferObserver.null
                  mBufferInfos :=
                    setInfoStatus t.2.mBufferInfos info OWNED_BY_NATIVE_WINDOW }
                p fun _ => none)) = .ok s' →
            ReleaseFrame s s' := by
          intro t ht hres
          split at hres
          · simp only [Except.ok.injEq] at hres
            rw [← hres]
            exact ht
          · simp only [Except.ok.injEq] at hres
            rw [← hres]
            refine releaseFrame_trans _ _ _ ?_ (releaseFrame_resetOutputSlotOf _ _ _)
            refine releaseFrame_trans _ _ _ ht ?_
            exact ⟨rfl, rfl, rfl, rfl, rfl, rfl, rfl, rfl, rfl, rfl⟩
        split at h
        · exact hr _ (releaseFrame_cancelBufferToNativeWindow cancelOk s p) h
        · exact hr (VPP_OK, s) (releaseFrame_refl s) h

theorem releaseFrame_releaseObserved (window : List (Option Nat)) (cancelOk : Bool)
    (s s' : VPPProcessor) (p : Nat) (h : releaseObserved window cancelOk s p = .ok s') :
    ReleaseFrame s s' := by
  unfold releaseObserved at h
  split at h
  · split at h
    · simp only [Except.ok.injEq] at h
      rw [← h]
      exact releaseFrame_refl s
    · simp at h
  · split at h
    · simp only [Except.ok.injEq] at h
      rw [← h]
      exact ⟨rfl, rfl, rfl, rfl, rfl, rfl, rfl, rfl, rfl, rfl⟩
    · simp at h
  · split at h
    · refine releaseFrame_trans _ _ _ ?_
        (releaseFrame_signalBufferReturned window cancelOk _ s' _ h)
      exact ⟨rfl, rfl, rfl, rfl, rfl, rfl, rfl, rfl, rfl, rfl⟩
    · split at h
      · simp only [Except.ok.injEq] at h
        rw [← h]
        exact ⟨rfl, rfl, rfl, rfl, rfl, rfl, rfl, rfl, rfl, rfl⟩
      · simp at h

theorem releaseFrame_releaseIfHeldObserved (window : List (Option Nat)) (cancelOk : Bool)
    (s s' : VPPProcessor) (p : Nat) (h : releaseIfHeldObserved window cancelOk s p = .ok s') :
    ReleaseFrame s s' := by
  unfold releaseIfHeldObserved at h
  split at h
  · exact releaseFrame_releaseObserved window cancelOk s s' p h
  · simp only [Except.ok.injEq] at h
    rw [← h]
    exact releaseFrame_refl s

/-! ## Flush twice, with the observer call -/

theorem forSlots_id (f : VPPProcessor → Nat → Except Fault VPPProcessor) (l : List Nat)
    (s : VPPProcessor) (h : ∀ i ∈ l, f s i = .ok s) : forSlots f l s = .ok s := by
  induction l with
  | nil => rfl
  | cons i rest ih =>
    simp only [forSlots, h i (List.mem_cons_self _ _)]
    exact ih (fun j hj => h j (List.mem_cons_of_mem _ hj))

theorem forSlots_rel (P : VPPProcessor → VPPProcessor → Prop) (hrefl : ∀ a, P a a)
    (htrans : ∀ a b c, P a b → P b c → P a c)
    (f : VPPProcessor → Nat → Except Fault VPPProcessor)
    (hf : ∀ a i b, f a i = .ok b → P a b) (l : List Nat) :
    ∀ s s2, forSlots f l s = .ok s2 → P s s2 := by
  induction l with
  | nil =>
    intro s s2 h
    simp only [forSlots, Except.ok.injEq] at h
    rw [← h]
    exact hrefl s
  | cons i rest ih =>
    intro s s2 h
    simp only [forSlots] at h
    split at h
    · simp at h
    · rename_i s1 h1
      exact htrans _ _ _ (hf s i s1 h1) (ih s1 s2 h)

theorem inputsFreed_refl (s : VPPProcessor) : InputsFreed s s :=
  ⟨fun _ => Or.inr rfl, rfl, rfl, rfl, rfl, rfl⟩

theorem inputsFreed_trans (s1 s2 s3 : VPPProcessor) (h12 : InputsFreed s1 s2)
    (h23 : InputsFreed s2 s3) : InputsFreed s1 s3 := by
  refine ⟨fun j => ?_, h23.2.1.trans h12.2.1, h23.2.2.1.trans h12.2.2.1,
    h23.2.2.2.1.trans h12.2.2.2.1, h23.2.2.2.2.1.trans h12.2.2.2.2.1,
    h23.2.2.2.2.2.trans h12.2.2.2.2.2⟩
  rcases h23.1 j with h | h
  · exact Or.inl h
  · rw [h]
    exact h12.1 j

theorem inputsFreed_of_releaseFrame (s s' : VPPProcessor) (h : ReleaseFrame s s') :
    InputsFreed s s' :=
  ⟨fun j => Or.inr (by rw [h.1]), h.2.1, h.2.2.1, h.2.2.2.1, h.2.2.2.2.1, h.2.2.2.2.2.1⟩

theorem flushInputSlotObserved_effect (window : List (Option Nat)) (cancelOk : Bool)
    (s s' : VPPProcessor) (i : Nat)
    (h : flushInputSlotObserved window cancelOk s i = .ok s') :
    InputsFreed s s' ∧ (s'.mInput i).mStatus = VPP_BUFFER_FREE := by
  unfold flushInputSlotObserved at h
  split at h
  · dsimp only at h
    split at h
    · simp at h
    · rename_i s1 h1
      simp only [Except.ok.injEq] at h
      have hf : ReleaseFrame s s1 := by
        split at h1
        · simp only [Except.ok.injEq] at h1
          rw [← h1]
          exact releaseFrame_refl s
        · exact releaseFrame_releaseIfHeldObserved window cancelOk s s1 _ h1
      rw [← h]
      refine ⟨⟨fun j => ?_, hf.2.1, hf.2.2.1, hf.2.2.2.1, hf.2.2.2.2.1, hf.2.2.2.2.2.1⟩, ?_⟩
      · by_cases hj : j = i
        · left
          rw [hj]
          simp [VPPBuffer.resetBuffer]
        · right
          show Function.update s1.mInput i _ j = _
          rw [Function.update_noteq hj, hf.1]
      · simp [VPPBuffer.resetBuffer]
  · rename_i hfree
    simp only [Except.ok.injEq] at h
    rw [← h]
    exact ⟨inputsFreed_refl s, by simpa using hfree⟩

theorem forSlots_flushInputSlotObserved (window : List (Option Nat)) (cancelOk : Bool)
    (l : List Nat) :
    ∀ s s2, forSlots (flushInputSlotObserved window cancelOk) l s = .ok s2 →
      InputsFreed s s2 ∧ ∀ i ∈ l, (s2.mInput i).mStatus = VPP_BUFFER_FREE := by
  induction l with
  | nil =>
    intro s s2 h
    simp only [forSlots, Except.ok.injEq] at h
    rw [← h]
    exact ⟨inputsFreed_refl s, fun i hi => by simp at hi⟩
  | cons j rest ih =>
    intro s s2 h
    simp only [forSlots] at h
    split at h
    · simp at h
    · rename_i s1 h1
      obtain ⟨hf1, hj⟩ := flushInputSlotObserved_effect window cancelOk s s1 j h1
      obtain ⟨hf2, hrest⟩ := ih s1 s2 h
      refine ⟨inputsFreed_trans _ _ _ hf1 hf2, fun i hi => ?_⟩
      rcases List.mem_cons.mp hi with hij | hir
      · rcases hf2.1 j with h2 | h2
        · rw [hij]; exact h2
        · rw [hij, h2]; exact hj
      · exact hrest i hir

theorem releaseFrame_flushOutputSlotObserved (window : List (Option Nat)) (cancelOk : Bool)
    (s s' : VPPProcessor) (i : Nat)
    (h : flushOutputSlotObserved window cancelOk s i = .ok s') : ReleaseFrame s s' := by
  unfold flushOutputSlotObserved at h
  split at h
  · split at h
    · simp only [Except.ok.injEq] at h
      rw [← h]; exact releaseFrame_refl s
    · split at h
      · split at h
        · simp only [Except.ok.injEq] at h
          rw [← h]; exact releaseFrame_refl s
        · split at h
          · exact releaseFrame_releaseObserved window cancelOk s s' _ h
          · simp only [Except.ok.injEq] at h
            rw [← h]; exact releaseFrame_refl s
      · simp only [Except.ok.injEq] at h
        rw [← h]; exact releaseFrame_refl s
  · simp only [Except.ok.injEq] at h
    rw [← h]; exact releaseFrame_refl s

theorem releaseFrame_flushRenderEntriesObserved (window : List (Option Nat))
    (cancelOk : Bool) (l : List (Option Nat)) :
    ∀ s s2, flushRenderEntriesObserved window cancelOk l s = .ok s2 → ReleaseFrame s s2 := by
  induction l with
  | nil =>
    intro s s2 h
    simp only [flushRenderEntriesObserved, Except.ok.injEq] at h
    rw [← h]; exact releaseFrame_refl s
  | cons e rest ih =>
    intro s s2 h
    cases e with
    | none =>
      simp only [flushRenderEntriesObserved, Except.ok.injEq] at h
      rw [← h]; exact releaseFrame_refl s
    | some rb =>
      simp only [flushRenderEntriesObserved] at h
      split at h
      · simp at h
      · rename_i s1 h1
        exact releaseFrame_trans _ _ _
          (releaseFrame_releaseIfHeldObserved window cancelOk s s1 rb h1) (ih s1 s2 h)

/-- What a flush that returns leaves behind: every input slot of the ring FREE, the render
list empty, both load pointers zero, the capacities as they were. -/
theorem flushObserved_fields (window : List (Option Nat)) (cancelOk : Bool)
    (s s1 : VPPProcessor) (h : flushObserved window cancelOk s = .ok s1) :
    (∀ i, i < s1.mInputBufferNum → (s1.mInput i).mStatus = VPP_BUFFER_FREE) ∧
      s1.mRenderList = [] ∧ s1.mInputLoadPoint = 0 ∧ s1.mOutputLoadPoint = 0 ∧
      s1.mInputBufferNum = s.mInputBufferNum ∧ s1.mOutputBufferNum = s.mOutputBufferNum := by
  unfold flushObserved at h
  split at h
  · simp at h
  · rename_i a ha
    split at h
    · simp at h
    · rename_i b hb
      split at h
      · simp at h
      · rename_i c hc
        simp only [Except.ok.injEq] at h
        obtain ⟨hfa, hfree⟩ := forSlots_flushInputSlotObserved window cancelOk _ s a ha
        have hfb : ReleaseFrame a b :=
          forSlots_rel ReleaseFrame releaseFrame_refl releaseFrame_trans _
            (fun x i y hxy => releaseFrame_flushOutputSlotObserved window cancelOk x y i hxy) _ a b hb
        have hfc := releaseFrame_flushRenderEntriesObserved window cancelOk _ b c hc
        have hac := releaseFrame_trans _ _ _ hfb hfc
        rw [← h]
        refine ⟨fun i hi => ?_, rfl, rfl, rfl, ?_, ?_⟩
        · show (c.mInput i).mStatus = VPP_BUFFER_FREE
          rw [hac.1]
          apply hfree i
          apply List.mem_range.mpr
          have hi2 : i < c.mInputBufferNum := hi
          rw [hac.2.2.2.2.1, hfa.2.2.2.2.1] at hi2
          exact hi2
        · show c.mInputBufferNum = s.mInputBufferNum
          rw [hac.2.2.2.2.1, hfa.2.2.2.2.1]
        · show c.mOutputBufferNum = s.mOutputBufferNum
          rw [hac.2.2.2.2.2.1, hfa.2.2.2.2.2]

theorem flushInputSlotObserved_free (window : List (Option Nat)) (cancelOk : Bool)
    (s : VPPProcessor) (i : Nat) (h : (s.mInput i).mStatus = VPP_BUFFER_FREE) :
    flushInputSlotObserved window cancelOk s i = .ok s := by
  unfold flushInputSlotObserved
  rw [if_neg (by simp [h])]

theorem flushOutputSlotObserved_not_releasable (window : List (Option Nat))
    (cancelOk : Bool) (s : VPPProcessor) (i : Nat) (h : ¬ Releasable s i) :
    flushOutputSlotObserved window cancelOk s i = .ok s := by
  unfold flushOutputSlotObserved
  split
  · rename_i hst
    split
    · rfl
    · rename_i m hm
      split
      · rename_i hpos
        split
        · rfl
        · rename_i info hinfo
          split
          · rename_i hown
            exact absurd ⟨hst, m, info, hm, hpos, hinfo, hown⟩ h
          · rfl
      · rfl
  · rfl

/-- A flush of a state whose input slots are FREE, whose render list is empty and whose load
pointers are zero: whenever it returns it has left the input slots, the empty list and the
pointers as they were; and when no output slot holds a buffer that `flush` releases, it
returns and changes nothing. -/
theorem flushObserved_of_clean (window : List (Option Nat)) (cancelOk : Bool)
    (t : VPPProcessor)
    (hin : ∀ i, i < t.mInputBufferNum → (t.mInput i).mStatus = VPP_BUFFER_FREE)
    (hl : t.mRenderList = []) (hip : t.mInputLoadPoint = 0) (hop : t.mOutputLoadPoint = 0) :
    (∀ t2, flushObserved window cancelOk t = .ok t2 →
        t2.mInput = t.mInput ∧ t2.mRenderList = [] ∧ t2.mInputLoadPoint = 0 ∧
        t2.mOutputLoadPoint = 0) ∧
      ((∀ i, i < t.mOutputBufferNum → ¬ Releasable t i) →
        flushObserved window cancelOk t = .ok t) := by
  have e1 : forSlots (flushInputSlotObserved window cancelOk) (List.range t.mInputBufferNum)
      t = .ok t :=
    forSlots_id _ _ _ (fun i hi =>
      flushInputSlotObserved_free window cancelOk t i (hin i (List.mem_range.mp hi)))
  constructor
  · intro t2 h
    unfold flushObserved at h
    rw [e1] at h
    dsimp only at h
    split at h
    · simp at h
    · rename_i b hb
      split at h
      · simp at h
      · rename_i c hc
        simp only [Except.ok.injEq] at h
        have hfb : ReleaseFrame t b :=
          forSlots_rel ReleaseFrame releaseFrame_refl releaseFrame_trans _
            (fun x i y hxy => releaseFrame_flushOutputSlotObserved window cancelOk x y i hxy) _ t b hb
        have hfc := releaseFrame_flushRenderEntriesObserved window cancelOk _ b c hc
        rw [← h]
        exact ⟨(releaseFrame_trans _ _ _ hfb hfc).1, rfl, rfl, rfl⟩
  · intro hnone
    have e2 : forSlots (flushOutputSlotObserved window cancelOk)
        (List.range t.mOutputBufferNum) t = .ok t :=
      forSlots_id _ _ _ (fun i hi =>
        flushOutputSlotObserved_not_releasable window cancelOk t i
          (hnone i (List.mem_range.mp hi)))
    unfold flushObserved
    rw [e1]
    dsimp only
    rw [e2]
    dsimp only
    rw [hl]
    simp only [flushRenderEntriesObserved]
    cases t
    simp only at hl hip hop
    subst hl hip hop
    rfl

/-- C12 as stated fails: in `exRenderingTwice` output slot 0 is RENDERING and its buffer 4,
observed by the processor, holds two references. The first flush releases one of them and
leaves the slot RENDERING; the second flush releases the other, the count reaches 0, the
observer call takes the reference again and resets the slot to FREE: the second flush
releases a reference and the output ring after two flushes is not the one after a single
flush. -/
theorem flushObserved_twice_differs :
    (exRenderingTwice.mOutput 0).mStatus = VPP_BUFFER_RENDERING ∧
      (exRenderingTwice.heap 4).mRefCount = 2 ∧
      (exRenderingTwice.heap 4).mObserver = BufferObserver.vppProcessor ∧
      ∃ s1 s2, flushObserved [] true exRenderingTwice = .ok s1 ∧
        (s1.mOutput 0).mStatus = VPP_BUFFER_RENDERING ∧ (s1.heap 4).mRefCount = 1 ∧
        flushObserved [] true s1 = .ok s2 ∧
        (s2.mOutput 0).mStatus = VPP_BUFFER_FREE ∧ (s2.heap 4).mRefCount = 1 ∧
        s2.mOutput 0 ≠ s1.mOutput 0 :=
  ⟨rfl, rfl, rfl, _, _, rfl, rfl, rfl, rfl, rfl, rfl, by decide⟩

/-- C12, amended: for every state, a flush that returns leaves every input slot FREE, the
render list empty and both load pointers zero, and a second flush leaves the input slots,
the empty list and the zero load pointers as they are; and when after the first flush no
output slot that is not FREE is bound to a buffer that still holds a reference and is not
owned by the client, the second flush returns and changes nothing, output slots and
reference counts included, so it releases no reference. -/
theorem flushObserved_twice (window : List (Option Nat)) (cancelOk : Bool)
    (s s1 : VPPProcessor) (h : flushObserved window cancelOk s = .ok s1) :
    (∀ i, i < s1.mInputBufferNum → (s1.mInput i).mStatus = VPP_BUFFER_FREE) ∧
      s1.mRenderList = [] ∧ s1.mInputLoadPoint = 0 ∧ s1.mOutputLoadPoint = 0 ∧
      (∀ window2 cancelOk2 s2, flushObserved window2 cancelOk2 s1 = .ok s2 →
        s2.mInput = s1.mInput ∧ s2.mRenderList = [] ∧ s2.mInputLoadPoint = 0 ∧
        s2.mOutputLoadPoint = 0) ∧
      ((∀ i, i < s1.mOutputBufferNum → ¬ Releasable s1 i) →
        ∀ window2 cancelOk2, flushObserved window2 cancelOk2 s1 = .ok s1) := by
  obtain ⟨hin, hl, hip, hop, _, _⟩ := flushObserved_fields window cancelOk s s1 h
  exact ⟨hin, hl, hip, hop,
    fun window2 cancelOk2 => (flushObserved_of_clean window2 cancelOk2 s1 hin hl hip hop).1,
    fun hnone window2 cancelOk2 =>
      (flushObserved_of_clean window2 cancelOk2 s1 hin hl hip hop).2 hnone⟩

/-- The amended C12 at `exRendering` (output slot 0 RENDERING, its buffer observed by the
processor with one reference): the first flush releases the buffer, the observer call takes
the reference again and resets the slot to FREE, and the second flush changes nothing. -/
theorem flushObserved_twice_witness :
    (exRendering.mOutput 0).mStatus = VPP_BUFFER_RENDERING ∧
      (exRendering.heap 4).mRefCount = 1 ∧
      ∃ s1, flushObserved [] true exRendering = .ok s1 ∧
        (s1.mOutput 0).mStatus = VPP_BUFFER_FREE ∧ (s1.heap 4).mRefCount = 1 ∧
        flushObserved [] true s1 = .ok s1 := by
  refine ⟨rfl, rfl, _, rfl, rfl, rfl, ?_⟩
  refine (flushObserved_twice [] true exRendering _ rfl).2.2.2.2.2 ?_ [] true
  intro i hi hr
  have h3 : i < 3 := hi
  interval_cases i
  · exact hr.1 rfl
  · exact hr.1 rfl
  · exact hr.1 rfl

/-! ## The merge pass with the observer call -/

theorem findMediaBufferIn_setInfoStatus (heap : Nat → MediaBuffer) (g : Option Nat)
    (l : List BufferInfo) (j : Nat) (st : BufferOwner) :
    findMediaBufferIn heap g (setInfoStatus l j st) = findMediaBufferIn heap g l := by
  induction l generalizing j with
  | nil => simp [setInfoStatus]
  | cons info rest ih =>
    cases j with
    | zero => simp [setInfoStatus, findMediaBufferIn]
    | succ j => simp [setInfoStatus, findMediaBufferIn, ih]

theorem infoStatus_setInfoStatus_or (l : List BufferInfo) (i j : Nat) (st : BufferOwner) :
    infoStatus (setInfoStatus l j st) i = infoStatus l i ∨
      infoStatus (setInfoStatus l j st) i = some st := by
  by_cases hij : i = j
  · by_cases hl : j < l.length
    · right
      rw [hij]
      exact infoStatus_setInfoStatus l j st hl
    · left
      have hid : ∀ (l : List BufferInfo) (j : Nat), ¬ j < l.length →
          setInfoStatus l j st = l := by
        intro l
        induction l with
        | nil => intro j _; simp [setInfoStatus]
        | cons info rest ih =>
          intro j hj
          cases j with
          | zero => simp at hj
          | succ j =>
            simp only [List.length_cons, Nat.add_lt_add_iff_right] at hj
            simp [setInfoStatus, ih j hj]
      rw [hid l j hl]
  · left
    exact infoStatus_setInfoStatus_ne l i j st hij

theorem findMediaBufferIn_graphic (heap : Nat → MediaBuffer) (g : Option Nat)
    (l : List BufferInfo) (b : Nat) (h : findMediaBufferIn heap g l = some b) :
    (heap b).graphicBuffer = g := by
  induction l with
  | nil => simp [findMediaBufferIn] at h
  | cons info rest ih =>
    simp only [findMediaBufferIn] at h
    split at h
    · rename_i hg
      simp only [Option.some.injEq] at h
      rw [← h]
      exact hg
    · exact ih h

theorem findOutputSlot_unique (s : VPPProcessor) (g : Option Nat) (i : Nat)
    (hi : i < s.mOutputBufferNum) (hg : (s.mOutput i).mGraphicBuffer = g)
    (hu : ∀ j, j < s.mOutputBufferNum → (s.mOutput j).mGraphicBuffer = g → j = i) :
    findOutputSlot s g = some i := by
  unfold findOutputSlot
  cases hf : (List.range s.mOutputBufferNum).find?
      (fun i => decide ((s.mOutput i).mGraphicBuffer = g)) with
  | none =>
    rw [List.find?_eq_none] at hf
    have := hf i (List.mem_range.mpr hi)
    simp [hg] at this
  | some j =>
    have hj1 := List.find?_some hf
    have hj2 := List.mem_of_find?_eq_some hf
    simp only [decide_eq_true_eq] at hj1
    rw [hu j (List.mem_range.mp hj2) hj1]

theorem resetOutputSlotOf_mOutput (s : VPPProcessor) (p : Nat) (j : Nat) :
    (resetOutputSlotOf s p fun i => (s.mOutput i).mGraphicBuffer).mOutput j = s.mOutput j ∨
      ((resetOutputSlotOf s p fun i => (s.mOutput i).mGraphicBuffer).mOutput j).mStatus =
          VPP_BUFFER_FREE ∧
        ((resetOutputSlotOf s p fun i => (s.mOutput i).mGraphicBuffer).mOutput j).mGraphicBuffer
          = (s.mOutput j).mGraphicBuffer := by
  unfold resetOutputSlotOf
  split
  · exact Or.inl rfl
  · rename_i i _
    by_cases hj : j = i
    · right
      rw [hj]
      simp [VPPBuffer.resetBuffer]
    · left
      show Function.update s.mOutput i _ j = _
      rw [Function.update_noteq hj]

theorem resetOutputSlotOf_found (s : VPPProcessor) (p i : Nat)
    (h : findOutputSlot s (s.heap p).graphicBuffer = some i) :
    ((resetOutputSlotOf s p fun k => (s.mOutput k).mGraphicBuffer).mOutput i).mStatus =
      VPP_BUFFER_FREE := by
  unfold resetOutputSlotOf
  rw [h]
  simp [VPPBuffer.resetBuffer]

/-- The release of a buffer that is observed by the processor and holds its last reference,
with the Worker running and the buffer not owned by the client: the observer call takes the
reference again, makes the orchestrator the owner and resets the output slot of the
buffer. -/
theorem releaseIfHeldObserved_callback (window : List (Option Nat)) (cancelOk : Bool)
    (s : VPPProcessor) (p info : Nat) (hrun : s.mThreadRunning = true)
    (hcount : (s.heap p).mRefCount = 1)
    (hobs : (s.heap p).mObserver = BufferObserver.vppProcessor)
    (hinfo : findBufferInfo s (some p) = some info)
    (hown : infoStatus s.mBufferInfos info ≠ some OWNED_BY_CLIENT) :
    releaseIfHeldObserved window cancelOk s p =
      .ok (resetOutputSlotOf
        { s with
          heap := add_ref (release s.heap p) p
          mBufferInfos := setInfoStatus s.mBufferInfos info OWNED_BY_VPP }
        p fun i => (s.mOutput i).mGraphicBuffer) := by
  unfold releaseIfHeldObserved
  rw [if_pos (by rw [hcount]; decide)]
  unfold releaseObserved
  rw [hobs]
  dsimp only
  rw [if_pos hcount]
  exact signalBufferReturned_reuse window cancelOk { s with heap := release s.heap p } p info
    hrun hinfo (fun hc => hown hc.1)

theorem release_fields (heap : Nat → MediaBuffer) (p q : Nat) :
    (release heap p q).mObserver = (heap q).mObserver ∧
      (release heap p q).graphicBuffer = (heap q).graphicBuffer ∧
      (q ≠ p → (release heap p q).mRefCount = (heap q).mRefCount) := by
  unfold release
  by_cases h : q = p
  · subst h
    simp
  · simp [Function.update_noteq h]

theorem add_ref_fields (heap : Nat → MediaBuffer) (p q : Nat) :
    (add_ref heap p q).mObserver = (heap q).mObserver ∧
      (add_ref heap p q).graphicBuffer = (heap q).graphicBuffer ∧
      (q ≠ p → (add_ref heap p q).mRefCount = (heap q).mRefCount) := by
  unfold add_ref
  by_cases h : q = p
  · subst h
    simp
  · simp [Function.update_noteq h]

theorem setKeyTime_fields (heap : Nat → MediaBuffer) (p q : Nat) (t : Int) :
    (setKeyTime heap p t q).mObserver = (heap q).mObserver ∧
      (setKeyTime heap p t q).graphicBuffer = (heap q).graphicBuffer ∧
      (setKeyTime heap p t q).mRefCount = (heap q).mRefCount := by
  unfold setKeyTime
  by_cases h : q = p
  · subst h
    simp
  · simp [Function.update_noteq h]

theorem heldStep_refl (s : VPPProcessor) (p : Nat) : HeldStep s s p :=
  ⟨fun _ => rfl, fun _ => rfl, fun _ _ => rfl, fun _ _ => rfl, fun _ _ => rfl,
    fun _ => Or.inl rfl, fun _ => rfl, fun _ => Or.inl rfl⟩

theorem heldStep_release (s : VPPProcessor) (p : Nat) :
    HeldStep s { s with heap := release s.heap p } p :=
  ⟨fun q => (release_fields s.heap p q).1, fun q => (release_fields s.heap p q).2.1,
    fun q hq => (release_fields s.heap p q).2.2 hq, fun _ _ => rfl, fun _ _ => rfl,
    fun _ => Or.inl rfl, fun _ => rfl, fun _ => Or.inl rfl⟩

theorem heldStep_callback (s : VPPProcessor) (p info : Nat) :
    HeldStep s
      (resetOutputSlotOf
        { s with
          heap := add_ref (release s.heap p) p
          mBufferInfos := setInfoStatus s.mBufferInfos info OWNED_BY_VPP }
        p fun i => (s.mOutput i).mGraphicBuffer) p := by
  have hf := resetOutputSlotOf_fields
    { s with
      heap := add_ref (release s.heap p) p
      mBufferInfos := setInfoStatus s.mBufferInfos info OWNED_BY_VPP }
    p fun i => (s.mOutput i).mGraphicBuffer
  have ho := resetOutputSlotOf_mOutput
    { s with
      heap := add_ref (release s.heap p) p
      mBufferInfos := setInfoStatus s.mBufferInfos info OWNED_BY_VPP } p
  refine ⟨fun q => ?_, fun q => ?_, fun q hq => ?_, fun b k => ?_, fun heap g => ?_,
    fun i => ?_, fun j => ?_, fun j => ?_⟩
  · rw [hf.1]
    show (add_ref (release s.heap p) p q).mObserver = _
    rw [(add_ref_fields _ p q).1, (release_fields _ p q).1]
  · rw [hf.1]
    show (add_ref (release s.heap p) p q).graphicBuffer = _
    rw [(add_ref_fields _ p q).2.1, (release_fields _ p q).2.1]
  · rw [hf.1]
    show (add_ref (release s.heap p) p q).mRefCount = _
    rw [(add_ref_fields _ p q).2.2 hq, (release_fields _ p q).2.2 hq]
  · rw [hf.2]
    exact findBufferInfoFrom_setInfoStatus b _ _ _ k
  · rw [hf.2]
    exact findMediaBufferIn_setInfoStatus heap g _ _ _
  · rw [hf.2]
    exact infoStatus_setInfoStatus_or _ _ _ _
  · rcases ho j with h | h
    · rw [h]
    · exact h.2
  · rcases ho j with h | h
    · exact Or.inl h
    · exact Or.inr h.1

theorem signalBufferReturned_unknown (window : List (Option Nat)) (cancelOk : Bool)
    (s : VPPProcessor) (p : Nat) (h : findBufferInfo s (some p) = none) :
    signalBufferReturned window cancelOk s (some p) = .ok s := by
  unfold signalBufferReturned
  simp only [h]

/-- With the Worker running, the release of a buffer that has an observer and, when the
processor observes it, is not owned by the client, returns and changes at most what the
reuse branch of the observer call changes. -/
theorem releaseIfHeldObserved_held (window : List (Option Nat)) (cancelOk : Bool)
    (s : VPPProcessor) (p : Nat) (hrun : s.mThreadRunning = true)
    (hobs : (s.heap p).mObserver ≠ BufferObserver.null)
    (hown : (s.heap p).mObserver = BufferObserver.vppProcessor →
      ∀ info, findBufferInfo s (some p) = some info →
        infoStatus s.mBufferInfos info ≠ some OWNED_BY_CLIENT) :
    ∃ s2, releaseIfHeldObserved window cancelOk s p = .ok s2 ∧ ReleaseFrame s s2 ∧
      HeldStep s s2 p := by
  by_cases hpos : 0 < (s.heap p).mRefCount
  · have hrel : ReleaseFrame s { s with heap := release s.heap p } :=
      ⟨rfl, rfl, rfl, rfl, rfl, rfl, rfl, rfl, rfl, rfl⟩
    cases ho : (s.heap p).mObserver with
    | null => exact absurd ho hobs
    | codec =>
      refine ⟨{ s with heap := release s.heap p }, ?_, hrel, heldStep_release s p⟩
      unfold releaseIfHeldObserved
      rw [if_pos hpos]
      unfold releaseObserved
      rw [ho]
      dsimp only
      rw [if_pos hpos]
    | vppProcessor =>
      by_cases hone : (s.heap p).mRefCount = 1
      · cases hinfo : findBufferInfo s (some p) with
        | none =>
          refine ⟨{ s with heap := release s.heap p }, ?_, hrel, heldStep_release s p⟩
          unfold releaseIfHeldObserved
          rw [if_pos hpos]
          unfold releaseObserved
          rw [ho]
          dsimp only
          rw [if_pos hone]
          exact signalBufferReturned_unknown window cancelOk _ p hinfo
        | some info =>
          have hcb := releaseIfHeldObserved_callback window cancelOk s p info hrun hone ho
            hinfo (hown ho info hinfo)
          refine ⟨_, hcb, ?_, heldStep_callback s p info⟩
          exact releaseFrame_releaseIfHeldObserved window cancelOk s _ p hcb
      · refine ⟨{ s with heap := release s.heap p }, ?_, hrel, heldStep_release s p⟩
        unfold releaseIfHeldObserved
        rw [if_pos hpos]
        unfold releaseObserved
        rw [ho]
        dsimp only
        rw [if_neg hone, if_pos hpos]
  · refine ⟨s, ?_, releaseFrame_refl s, heldStep_refl s p⟩
    unfold releaseIfHeldObserved
    rw [if_neg hpos]

theorem findMediaBuffer_mergeStep (s t : VPPProcessor) (buff : Nat)
    (h : MergeStep s t buff) (vb : VPPBuffer) :
    findMediaBuffer t vb = findMediaBuffer s vb := by
  unfold findMediaBuffer
  rw [h.2.2.2.2.2.2.2.2.1]
  exact findMediaBufferIn_congr _ _ _ _ h.2.2.2.2.2.1

/-- The invariant is kept by a round of the merge pass. -/
theorem outputsHeld_step (s t : VPPProcessor) (buff : Nat) (hinv : OutputsHeld s)
    (hready : (s.mOutput s.mOutputLoadPoint).mStatus = VPP_BUFFER_READY)
    (hbuf : findMediaBuffer s (s.mOutput s.mOutputLoadPoint) = some buff)
    (h : MergeStep s t buff) :
    OutputsHeld
      { t with mOutputLoadPoint := (t.mOutputLoadPoint + 1) % t.mOutputBufferNum } := by
  obtain ⟨hrun, hlp, hnn, hl1, hl2, hrd⟩ := hinv
  obtain ⟨k1, k2, k3, k4, k5, k6, k7, k8, k9, k10, k11, k12, k13⟩ := h
  obtain ⟨b1, b2, b3, b4, b5⟩ := hrd s.mOutputLoadPoint buff hlp hready hbuf
  have hfind : ∀ vb : VPPBuffer, findMediaBuffer t vb = findMediaBuffer s vb :=
    findMediaBuffer_mergeStep s t buff ⟨k1, k2, k3, k4, k5, k6, k7, k8, k9, k10, k11, k12, k13⟩
  have hinfo : ∀ x, findBufferInfo t x = findBufferInfo s x := fun x => k8 x 0
  have hstat : ∀ i, infoStatus s.mBufferInfos i ≠ some OWNED_BY_CLIENT →
      infoStatus t.mBufferInfos i ≠ some OWNED_BY_CLIENT := by
    intro i hi
    rcases k10 i with h | h
    · rw [h]; exact hi
    · rw [h]; decide
  refine ⟨k1.trans hrun, ?_, ?_, ?_, ?_, ?_⟩
  · show (t.mOutputLoadPoint + 1) % t.mOutputBufferNum < t.mOutputBufferNum
    apply Nat.mod_lt
    rw [k2]
    omega
  · intro e he
    rcases k4 e he with h | h
    · exact hnn e h
    · rw [h]; exact Option.noConfusion
  · intro x hx
    show (t.heap x).mObserver ≠ BufferObserver.null
    rw [k5]
    rcases k4 (some x) hx with h | h
    · exact hl1 x h
    · rw [Option.some.inj h, b2]
      exact BufferObserver.noConfusion
  · intro x info hx hobs hfi
    have hobs2 : (s.heap x).mObserver = BufferObserver.vppProcessor := by
      rw [← k5]; exact hobs
    have hfi2 : findBufferInfo s (some x) = some info := by
      rw [← hinfo]; exact hfi
    apply hstat
    rcases k4 (some x) hx with h | h
    · exact hl2 x info h hobs2 hfi2
    · rw [Option.some.inj h] at hfi2
      exact b4 info hfi2
  · intro i b hi hst hfb
    have hi2 : i < s.mOutputBufferNum := by rw [← k2]; exact hi
    have hsame : t.mOutput i = s.mOutput i := by
      rcases k12 i with h | h
      · exact h
      · exact absurd hst h
    have hst2 : (s.mOutput i).mStatus = VPP_BUFFER_READY := by rw [← hsame]; exact hst
    have hfb2 : findMediaBuffer s (s.mOutput i) = some b := by
      rw [← hsame, ← hfind]; exact hfb
    obtain ⟨c1, c2, c3, c4, c5⟩ := hrd i b hi2 hst2 hfb2
    have hil : i ≠ s.mOutputLoadPoint := by
      intro hc
      rw [hc] at hst
      exact k13 hst
    have hbb : b ≠ buff := by
      intro hc
      rw [hc] at hfb2
      have g1 := findMediaBufferIn_graphic _ _ _ _ hfb2
      have g2 := findMediaBufferIn_graphic _ _ _ _ hbuf
      exact hil (b5 i hi2 (g1.symm.trans g2))
    refine ⟨?_, ?_, ?_, ?_, ?_⟩
    · show (t.heap b).mRefCount = 1
      rw [k7 b hbb c3]
      exact c1
    · show (t.heap b).mObserver = _
      rw [k5]
      exact c2
    · intro hmem
      rcases k4 (some b) hmem with h | h
      · exact c3 h
      · exact hbb (Option.some.inj h)
    · intro info hfi
      apply hstat
      apply c4
      rw [← hinfo]
      exact hfi
    · intro j hj hg
      have hj2 : j < s.mOutputBufferNum := by rw [← k2]; exact hj
      apply c5 j hj2
      have e1 : (t.mOutput j).mGraphicBuffer = (t.mOutput i).mGraphicBuffer := hg
      rw [k11 j, k11 i] at e1
      exact e1

/-- The drop of the frame of a READY slot, under the invariant: the observer call resets the
slot to FREE. -/
theorem releaseIfHeldObserved_drop (window : List (Option Nat)) (cancelOk : Bool)
    (s : VPPProcessor) (buff : Nat) (hinv : OutputsHeld s)
    (hready : (s.mOutput s.mOutputLoadPoint).mStatus = VPP_BUFFER_READY)
    (hbuf : findMediaBuffer s (s.mOutput s.mOutputLoadPoint) = some buff) :
    ∃ t, releaseIfHeldObserved window cancelOk
        (stampBuffer s buff (s.mOutput s.mOutputLoadPoint).mTimeUs) buff = .ok t ∧
      MergeStep s t buff := by
  obtain ⟨hrun, hlp, hnn, hl1, hl2, hrd⟩ := hinv
  obtain ⟨b1, b2, b3, b4, b5⟩ := hrd s.mOutputLoadPoint buff hlp hready hbuf
  have hsome := findBufferInfoFrom_of_findMediaBufferIn _ _ _ _ hbuf 0
  cases hinfo : findBufferInfoFrom (some buff) s.mBufferInfos 0 with
  | none => rw [hinfo] at hsome; exact absurd hsome (by simp)
  | some info =>
    have hst := setKeyTime_fields s.heap buff
    have hcb := releaseIfHeldObserved_callback window cancelOk
      (stampBuffer s buff (s.mOutput s.mOutputLoadPoint).mTimeUs) buff info hrun
      (by
        show (setKeyTime s.heap buff _ buff).mRefCount = 1
        rw [(hst buff _).2.2]; exact b1)
      (by
        show (setKeyTime s.heap buff _ buff).mObserver = _
        rw [(hst buff _).1]; exact b2)
      hinfo (b4 info hinfo)
    have hh := heldStep_callback
      (stampBuffer s buff (s.mOutput s.mOutputLoadPoint).mTimeUs) buff info
    have hf := releaseFrame_releaseIfHeldObserved window cancelOk _ _ buff hcb
    obtain ⟨h1, h2, h3, h4, h5, h6, h7, h8⟩ := hh
    refine ⟨_, hcb, hf.2.2.2.2.2.2.1, hf.2.2.2.2.2.1, hf.2.2.2.1, ?_, ?_, ?_, ?_, h4, h5, h6,
      h7, ?_, ?_⟩
    · intro e he
      left
      rw [hf.2.1] at he
      exact he
    · intro q
      rw [h1 q]
      exact (hst q _).1
    · intro q
      rw [h2 q]
      exact (hst q _).2.1
    · intro q hq _
      rw [h3 q hq]
      exact (hst q _).2.2
    · intro j
      rcases h8 j with h | h
      · exact Or.inl h
      · right
        rw [h]
        decide
    · have hg : (s.heap buff).graphicBuffer =
          (s.mOutput s.mOutputLoadPoint).mGraphicBuffer :=
        findMediaBufferIn_graphic _ _ _ _ hbuf
      have hfound := resetOutputSlotOf_found
        { stampBuffer s buff (s.mOutput s.mOutputLoadPoint).mTimeUs with
          heap := add_ref (release
            (stampBuffer s buff (s.mOutput s.mOutputLoadPoint).mTimeUs).heap buff) buff
          mBufferInfos := setInfoStatus
            (stampBuffer s buff (s.mOutput s.mOutputLoadPoint).mTimeUs).mBufferInfos info
            OWNED_BY_VPP }
        buff s.mOutputLoadPoint
        (findOutputSlot_unique _ _ s.mOutputLoadPoint hlp
          (by
            show (s.mOutput s.mOutputLoadPoint).mGraphicBuffer =
              (add_ref (release (setKeyTime s.heap buff _) buff) buff buff).graphicBuffer
            rw [(add_ref_fields _ buff buff).2.1, (release_fields _ buff buff).2.1,
              (hst buff _).2.1]
            exact hg.symm)
          (fun j hj hjg => b5 j hj (by
            have e : (s.mOutput j).mGraphicBuffer =
                (add_ref (release (setKeyTime s.heap buff
                  (s.mOutput s.mOutputLoadPoint).mTimeUs) buff) buff buff).graphicBuffer :=
              hjg
            rw [(add_ref_fields _ buff buff).2.1, (release_fields _ buff buff).2.1,
              (hst buff _).2.1] at e
            exact e.trans hg)))
      intro hc
      exact absurd (hfound.symm.trans hc) (by decide)

/-- Under the invariant the `if` chain of a round returns and goes on with the pass, and what
it did before advancing the load pointer is a `MergeStep`. -/
theorem updateRenderListPlaceObserved_step (window : List (Option Nat)) (cancelOk : Bool)
    (s : VPPProcessor) (buff it : Nat) (tl : Int) (hinv : OutputsHeld s)
    (hready : (s.mOutput s.mOutputLoadPoint).mStatus = VPP_BUFFER_READY)
    (hbuf : findMediaBuffer s (s.mOutput s.mOutputLoadPoint) = some buff)
    (hscan : scanRenderList (stampBuffer s buff (s.mOutput s.mOutputLoadPoint).mTimeUs)
      (s.mOutput s.mOutputLoadPoint).mTimeUs s.mRenderList 0 0 = .stop it tl) :
    ∃ t, updateRenderListPlaceObserved window cancelOk
        (stampBuffer s buff (s.mOutput s.mOutputLoadPoint).mTimeUs) buff
        (s.mOutput s.mOutputLoadPoint).mTimeUs it tl =
        .ok (none, { t with
          mOutputLoadPoint := (t.mOutputLoadPoint + 1) % t.mOutputBufferNum }) ∧
      MergeStep s t buff := by
  have hinv0 := hinv
  obtain ⟨hrun, hlp, hnn, hl1, hl2, hrd⟩ := hinv
  have hne : s.mOutputBufferNum ≠ 0 := by omega
  have hst := setKeyTime_fields s.heap buff
  have hdrop : ∃ t,
      (match releaseIfHeldObserved window cancelOk
          (stampBuffer s buff (s.mOutput s.mOutputLoadPoint).mTimeUs) buff with
        | .error f => (.error f : Except Fault (Option status_t × VPPProcessor))
        | .ok s2 => advanceOutput s2) =
        .ok (none, { t with
          mOutputLoadPoint := (t.mOutputLoadPoint + 1) % t.mOutputBufferNum }) ∧
      MergeStep s t buff := by
    obtain ⟨t, ht, hm⟩ := releaseIfHeldObserved_drop window cancelOk s buff hinv0 hready hbuf
    refine ⟨t, ?_, hm⟩
    rw [ht]
    dsimp only
    exact advanceOutput_ok t (by rw [hm.2.1]; exact hne)
  unfold updateRenderListPlaceObserved
  by_cases c1 : (stampBuffer s buff (s.mOutput s.mOutputLoadPoint).mTimeUs).mRenderList = [] ∨
      it = (stampBuffer s buff (s.mOutput s.mOutputLoadPoint).mTimeUs).mRenderList.length ∨
      (it = 0 ∧ (s.mOutput s.mOutputLoadPoint).mTimeUs < tl)
  · rw [if_pos c1]
    exact hdrop
  · rw [if_neg c1]
    by_cases c2 : (s.mOutput s.mOutputLoadPoint).mTimeUs = tl
    · rw [if_pos c2]
      obtain ⟨pre, rest, hl, hit, _, hrest⟩ := scanRenderList_spec
        (stampBuffer s buff (s.mOutput s.mOutputLoadPoint).mTimeUs)
        (s.mOutput s.mOutputLoadPoint).mTimeUs s.mRenderList hnn 0 0 it tl hscan
      rcases hrest with hr | ⟨x, post, hr, _⟩
      · exfalso
        apply c1
        right; left
        show it = s.mRenderList.length
        rw [hl, hr, hit]
        simp
      · have hlist : (stampBuffer s buff (s.mOutput s.mOutputLoadPoint).mTimeUs).mRenderList =
            pre ++ some x :: post := by
          show s.mRenderList = _
          rw [hl, hr]
        have hit2 : it = pre.length := by omega
        have hx : some x ∈ s.mRenderList := by
          rw [hl, hr]
          simp
        obtain ⟨s2, h2, hf, h1, h2g, h3, h4, h5, h6, h7, h8⟩ :=
          releaseIfHeldObserved_held window cancelOk
            (stampBuffer s buff (s.mOutput s.mOutputLoadPoint).mTimeUs) x hrun
            (by
              show (setKeyTime s.heap buff _ x).mObserver ≠ _
              rw [(hst x _).1]; exact hl1 x hx)
            (by
              intro ho info hi
              have ho2 : (setKeyTime s.heap buff
                  (s.mOutput s.mOutputLoadPoint).mTimeUs x).mObserver =
                  BufferObserver.vppProcessor := ho
              rw [(hst x _).1] at ho2
              exact hl2 x info hx ho2 hi)
        rw [hlist, hit2, getD_append_cons]
        dsimp only
        rw [h2]
        dsimp only
        refine ⟨{ s2 with
          mRenderList := s2.mRenderList.set pre.length (some buff)
          mOutput := Function.update s2.mOutput s2.mOutputLoadPoint
            { s2.mOutput s2.mOutputLoadPoint with mStatus := VPP_BUFFER_RENDERING }
          mVPPProcCount := s2.mVPPProcCount + 1
          mVPPRenderCount := s2.mVPPRenderCount + 1 }, ?_, ?_⟩
        · exact advanceOutput_ok _ (by
            show s2.mOutputBufferNum ≠ 0
            rw [hf.2.2.2.2.2.1]; exact hne)
        · have hlp2 : s2.mOutputLoadPoint = s.mOutputLoadPoint := hf.2.2.2.1
          refine ⟨hf.2.2.2.2.2.2.1, hf.2.2.2.2.2.1, hlp2, ?_, ?_, ?_, ?_, h4, h5, h6, ?_, ?_,
            ?_⟩
          · intro e he
            have he2 : e ∈ s2.mRenderList.set pre.length (some buff) := he
            rcases List.mem_or_eq_of_mem_set he2 with h | h
            · left
              rw [hf.2.1] at h
              exact h
            · exact Or.inr h
          · intro q
            show (s2.heap q).mObserver = _
            rw [h1 q]; exact (hst q _).1
          · intro q
            show (s2.heap q).graphicBuffer = _
            rw [h2g q]; exact (hst q _).2.1
          · intro q _ hq
            show (s2.heap q).mRefCount = _
            rw [h3 q (fun hc => hq (hc ▸ hx))]
            exact (hst q _).2.2
          · intro j
            show (Function.update s2.mOutput s2.mOutputLoadPoint _ j).mGraphicBuffer = _
            by_cases hj : j = s2.mOutputLoadPoint
            · rw [hj, Function.update_same]
              exact h7 _
            · rw [Function.update_noteq hj]
              exact h7 j
          · intro j
            show Function.update s2.mOutput s2.mOutputLoadPoint _ j = _ ∨
              (Function.update s2.mOutput s2.mOutputLoadPoint _ j).mStatus ≠ _
            by_cases hj : j = s2.mOutputLoadPoint
            · right
              rw [hj, Function.update_same]
              show VPP_BUFFER_RENDERING ≠ VPP_BUFFER_READY
              decide
            · rw [Function.update_noteq hj]
              rcases h8 j with h | h
              · exact Or.inl h
              · right
                rw [h]
                decide
          · show (Function.update s2.mOutput s2.mOutputLoadPoint _
              s.mOutputLoadPoint).mStatus ≠ _
            rw [← hlp2, Function.update_same]
            show VPP_BUFFER_RENDERING ≠ VPP_BUFFER_READY
            decide
    · rw [if_neg c2]
      by_cases c3 : (s.mOutput s.mOutputLoadPoint).mTimeUs < tl
      · rw [if_pos c3]
        refine ⟨{ stampBuffer s buff (s.mOutput s.mOutputLoadPoint).mTimeUs with
          mVPPRenderCount := s.mVPPRenderCount + 1
          mRenderList := s.mRenderList.take it ++ some buff :: s.mRenderList.drop it
          mOutput := Function.update s.mOutput s.mOutputLoadPoint
            { s.mOutput s.mOutputLoadPoint with mStatus := VPP_BUFFER_RENDERING } }, ?_, ?_⟩
        · exact advanceOutput_ok _ hne
        · refine ⟨rfl, rfl, rfl, ?_, fun q => (hst q _).1, fun q => (hst q _).2.1,
            fun q _ _ => (hst q _).2.2, fun _ _ => rfl, fun _ _ => rfl, fun _ => Or.inl rfl,
            ?_, ?_, ?_⟩
          · intro e he
            have he2 : e ∈ s.mRenderList.take it ++ some buff :: s.mRenderList.drop it := he
            rcases List.mem_append.mp he2 with h | h
            · exact Or.inl (List.mem_of_mem_take h)
            · rcases List.mem_cons.mp h with h | h
              · exact Or.inr h
              · exact Or.inl (List.mem_of_mem_drop h)
          · intro j
            show (Function.update s.mOutput s.mOutputLoadPoint _ j).mGraphicBuffer = _
            by_cases hj : j = s.mOutputLoadPoint
            · rw [hj, Function.update_same]
            · rw [Function.update_noteq hj]
          · intro j
            show Function.update s.mOutput s.mOutputLoadPoint _ j = _ ∨
              (Function.update s.mOutput s.mOutputLoadPoint _ j).mStatus ≠ _
            by_cases hj : j = s.mOutputLoadPoint
            · right
              rw [hj, Function.update_same]
              show VPP_BUFFER_RENDERING ≠ VPP_BUFFER_READY
              decide
            · rw [Function.update_noteq hj]
              exact Or.inl rfl
          · show (Function.update s.mOutput s.mOutputLoadPoint _
              s.mOutputLoadPoint).mStatus ≠ _
            rw [Function.update_same]
            show VPP_BUFFER_RENDERING ≠ VPP_BUFFER_READY
            decide
      · rw [if_neg c3]
        exact hdrop

theorem updateRenderListBodyObserved_eq (window : List (Option Nat)) (cancelOk : Bool)
    (s : VPPProcessor) (buff it : Nat) (tl : Int)
    (hbuf : findMediaBuffer s (s.mOutput s.mOutputLoadPoint) = some buff)
    (hset : (s.mOutput s.mOutputLoadPoint).mTimeUs ≠ -1)
    (hscan : scanRenderList (stampBuffer s buff (s.mOutput s.mOutputLoadPoint).mTimeUs)
      (s.mOutput s.mOutputLoadPoint).mTimeUs s.mRenderList 0 0 = .stop it tl) :
    updateRenderListBodyObserved window cancelOk s =
      updateRenderListPlaceObserved window cancelOk
        (stampBuffer s buff (s.mOutput s.mOutputLoadPoint).mTimeUs) buff
        (s.mOutput s.mOutputLoadPoint).mTimeUs it tl := by
  have hl : (stampBuffer s buff (s.mOutput s.mOutputLoadPoint).mTimeUs).mRenderList =
      s.mRenderList := rfl
  unfold updateRenderListBodyObserved
  rw [hbuf]
  dsimp only
  rw [if_neg hset, hl, hscan]

/-- A round of the merge pass under the invariant: it returns; and when the pass goes on, the
invariant holds again, the slot just handled is no longer READY, and no slot has become
READY. -/
theorem updateRenderListBodyObserved_round (window : List (Option Nat)) (cancelOk : Bool)
    (s : VPPProcessor) (hinv : OutputsHeld s)
    (hready : (s.mOutput s.mOutputLoadPoint).mStatus = VPP_BUFFER_READY) :
    (∃ r s1, updateRenderListBodyObserved window cancelOk s = .ok (some r, s1)) ∨
      ∃ s1, updateRenderListBodyObserved window cancelOk s = .ok (none, s1) ∧
        OutputsHeld s1 ∧ s1.mOutputBufferNum = s.mOutputBufferNum ∧
        s1.mOutputLoadPoint = (s.mOutputLoadPoint + 1) % s.mOutputBufferNum ∧
        (s1.mOutput s.mOutputLoadPoint).mStatus ≠ VPP_BUFFER_READY ∧
        ∀ j, (s.mOutput j).mStatus ≠ VPP_BUFFER_READY →
          (s1.mOutput j).mStatus ≠ VPP_BUFFER_READY := by
  cases hbuf : findMediaBuffer s (s.mOutput s.mOutputLoadPoint) with
  | none =>
    left
    refine ⟨VPP_FAIL, s, ?_⟩
    unfold updateRenderListBodyObserved
    rw [hbuf]
  | some buff =>
    by_cases hset : (s.mOutput s.mOutputLoadPoint).mTimeUs = -1
    · left
      refine ⟨VPP_FAIL, s, ?_⟩
      unfold updateRenderListBodyObserved
      rw [hbuf]
      dsimp only
      rw [if_pos hset]
    · cases hscan : scanRenderList (stampBuffer s buff (s.mOutput s.mOutputLoadPoint).mTimeUs)
          (s.mOutput s.mOutputLoadPoint).mTimeUs s.mRenderList 0 0 with
      | fail =>
        left
        have hl : (stampBuffer s buff (s.mOutput s.mOutputLoadPoint).mTimeUs).mRenderList =
            s.mRenderList := rfl
        refine ⟨VPP_FAIL, stampBuffer s buff (s.mOutput s.mOutputLoadPoint).mTimeUs, ?_⟩
        unfold updateRenderListBodyObserved
        rw [hbuf]
        dsimp only
        rw [if_neg hset, hl, hscan]
      | stop it tl =>
        right
        obtain ⟨t, ht, hm⟩ := updateRenderListPlaceObserved_step window cancelOk s buff it tl
          hinv hready hbuf hscan
        refine ⟨_, (updateRenderListBodyObserved_eq window cancelOk s buff it tl hbuf hset
          hscan).trans ht, outputsHeld_step s t buff hinv hready hbuf hm, hm.2.1, ?_,
          hm.2.2.2.2.2.2.2.2.2.2.2.2, ?_⟩
        · show (t.mOutputLoadPoint + 1) % t.mOutputBufferNum = _
          rw [hm.2.1, hm.2.2.1]
        · intro j hj
          rcases hm.2.2.2.2.2.2.2.2.2.2.2.1 j with h | h
          · show (t.mOutput j).mStatus ≠ _
            rw [h]
            exact hj
          · exact h

theorem updateRenderListObserved_stop (window : List (Option Nat)) (cancelOk : Bool)
    (fuel : Nat) (s : VPPProcessor)
    (h : (s.mOutput s.mOutputLoadPoint).mStatus ≠ VPP_BUFFER_READY) :
    updateRenderListObserved window cancelOk (fuel + 1) s = .ok (VPP_OK, s) := by
  unfold updateRenderListObserved
  rw [if_neg h]

theorem updateRenderListObserved_fail (window : List (Option Nat)) (cancelOk : Bool)
    (fuel : Nat) (s s1 : VPPProcessor) (r : status_t)
    (hready : (s.mOutput s.mOutputLoadPoint).mStatus = VPP_BUFFER_READY)
    (h : updateRenderListBodyObserved window cancelOk s = .ok (some r, s1)) :
    updateRenderListObserved window cancelOk (fuel + 1) s = .ok (r, s1) := by
  simp only [updateRenderListObserved, hready, if_true, h]

theorem updateRenderListObserved_round (window : List (Option Nat)) (cancelOk : Bool)
    (fuel : Nat) (s s1 : VPPProcessor)
    (hready : (s.mOutput s.mOutputLoadPoint).mStatus = VPP_BUFFER_READY)
    (h : updateRenderListBodyObserved window cancelOk s = .ok (none, s1)) :
    updateRenderListObserved window cancelOk (fuel + 1) s =
      updateRenderListObserved window cancelOk fuel s1 := by
  simp only [updateRenderListObserved, hready, if_true, h]

/-- Under the invariant, a pass that finds a slot that is not READY `k` places after the load
pointer returns within `k` rounds. -/
theorem updateRenderListObserved_reaches (window : List (Option Nat)) (cancelOk : Bool)
    (k : Nat) :
    ∀ s, OutputsHeld s →
      (s.mOutput ((s.mOutputLoadPoint + k) % s.mOutputBufferNum)).mStatus ≠
        VPP_BUFFER_READY →
      ∃ r s2, updateRenderListObserved window cancelOk (k + 1) s = .ok (r, s2) := by
  induction k with
  | zero =>
    intro s hinv hk
    rw [Nat.add_zero, Nat.mod_eq_of_lt hinv.2.1] at hk
    exact ⟨VPP_OK, s, updateRenderListObserved_stop window cancelOk 0 s hk⟩
  | succ k ih =>
    intro s hinv hk
    by_cases hready : (s.mOutput s.mOutputLoadPoint).mStatus = VPP_BUFFER_READY
    · rcases updateRenderListBodyObserved_round window cancelOk s hinv hready with
        ⟨r, s1, h⟩ | ⟨s1, h, hinv1, hn, hlp, _, hkeep⟩
      · exact ⟨r, s1, updateRenderListObserved_fail window cancelOk (k + 1) s s1 r hready h⟩
      · rw [updateRenderListObserved_round window cancelOk (k + 1) s s1 hready h]
        apply ih s1 hinv1
        rw [hlp, hn, mod_succ_add]
        exact hkeep _ hk
    · exact ⟨VPP_OK, s, updateRenderListObserved_stop window cancelOk (k + 1) s hready⟩

theorem outputsHeld_exAllReady : OutputsHeld exAllReady := by
  have hlist : exAllReady.mRenderList = [] := rfl
  refine ⟨rfl, by decide, ?_, ?_, ?_, ?_⟩
  · intro e he
    rw [hlist] at he
    simp at he
  · intro x hx
    rw [hlist] at hx
    simp at hx
  · intro x info hx
    rw [hlist] at hx
    simp at hx
  · intro i b hi _ hfb
    have h3 : i < 3 := hi
    have hdist : ∀ i j : Nat, (exAllReady.mOutput j).mGraphicBuffer =
        (exAllReady.mOutput i).mGraphicBuffer → j = i := by
      intro i j h
      have h2 : some (104 + j) = some (104 + i) := h
      simp only [Option.some.injEq] at h2
      omega
    have hrest : ∀ b : Nat, 4 ≤ b → b ≤ 6 →
        (exAllReady.heap b).mRefCount = 1 ∧
          (exAllReady.heap b).mObserver = BufferObserver.vppProcessor ∧
          some b ∉ exAllReady.mRenderList ∧
          (∀ info, findBufferInfo exAllReady (some b) = some info →
            infoStatus exAllReady.mBufferInfos info ≠ some OWNED_BY_CLIENT) := by
      intro b h4 h6
      have hown : ∀ info, infoStatus exAllReady.mBufferInfos info ≠ some OWNED_BY_CLIENT := by
        intro info
        show infoStatus exInfos info ≠ some OWNED_BY_CLIENT
        by_cases hi10 : info < 10
        · interval_cases info <;> decide
        · have hnone : ∀ (l : List BufferInfo) (k : Nat), l.length ≤ k →
              infoStatus l k = none := by
            intro l
            induction l with
            | nil => intro k _; rfl
            | cons a rest ih =>
              intro k hk
              cases k with
              | zero => simp at hk
              | succ k =>
                simp only [List.length_cons, Nat.add_le_add_iff_right] at hk
                simp only [infoStatus]
                exact ih k hk
          rw [hnone exInfos info (by
            have : exInfos.length = 10 := by decide
            omega)]
          exact Option.noConfusion
      refine ⟨?_, ?_, ?_, fun info _ => hown info⟩
      · interval_cases b <;> rfl
      · interval_cases b <;> rfl
      · rw [hlist]
        simp
    interval_cases i
    · have hb : findMediaBuffer exAllReady (exAllReady.mOutput 0) = some 4 := rfl
      have hb2 : b = 4 := (Option.some.inj (hb.symm.trans hfb)).symm
      rw [hb2]
      obtain ⟨c1, c2, c3, c4⟩ := hrest 4 (by decide) (by decide)
      exact ⟨c1, c2, c3, c4, fun j _ hj => hdist 0 j hj⟩
    · have hb : findMediaBuffer exAllReady (exAllReady.mOutput 1) = some 5 := rfl
      have hb2 : b = 5 := (Option.some.inj (hb.symm.trans hfb)).symm
      rw [hb2]
      obtain ⟨c1, c2, c3, c4⟩ := hrest 5 (by decide) (by decide)
      exact ⟨c1, c2, c3, c4, fun j _ hj => hdist 1 j hj⟩
    · have hb : findMediaBuffer exAllReady (exAllReady.mOutput 2) = some 6 := rfl
      have hb2 : b = 6 := (Option.some.inj (hb.symm.trans hfb)).symm
      rw [hb2]
      obtain ⟨c1, c2, c3, c4⟩ := hrest 6 (by decide) (by decide)
      exact ⟨c1, c2, c3, c4, fun j _ hj => hdist 2 j hj⟩

/-- C22 as stated fails: in `exAllReadyTwice` the output ring has capacity 3, every output
slot is READY, the render list is empty (every frame is too late), and each of the buffers
4, 5, 6, observed by the processor, holds two references. Each drop of the first three
rounds releases one reference and leaves its slot READY, so after three slots the pass has
not returned; the next three rounds release the last references, the observer calls reset
the slots to FREE, and the pass returns only after six slots. -/
theorem updateRenderListObserved_more_than_capacity :
    exAllReadyTwice.mOutputBufferNum = 3 ∧ exAllReadyTwice.mRenderList = [] ∧
      (∀ i, i < 3 → (exAllReadyTwice.mOutput i).mStatus = VPP_BUFFER_READY) ∧
      (exAllReadyTwice.heap 4).mRefCount = 2 ∧ (exAllReadyTwice.heap 5).mRefCount = 2 ∧
      (exAllReadyTwice.heap 6).mRefCount = 2 ∧
      (exAllReadyTwice.heap 4).mObserver = BufferObserver.vppProcessor ∧
      updateRenderListObserved [] true 4 exAllReadyTwice = .error Fault.outOfFuel ∧
      updateRenderListObserved [] true 6 exAllReadyTwice = .error Fault.outOfFuel ∧
      ∃ s2, updateRenderListObserved [] true 7 exAllReadyTwice = .ok (VPP_OK, s2) ∧
        (s2.mOutput 0).mStatus = VPP_BUFFER_FREE :=
  ⟨rfl, rfl, fun _ _ => rfl, rfl, rfl, rfl, rfl, rfl, rfl, _, rfl, rfl⟩

/-- C22, amended: the merge pass terminates for every state with output capacity n >= 1 in
which the ownership invariant of the data model holds (`OutputsHeld`: the Worker is running,
the output load pointer is inside the ring, the render list has no null entry, and every
READY output slot is the only slot bound to its buffer, which holds exactly one reference,
is observed by the processor, is not owned by the client and is not in the list); in
particular when every output slot is READY and every enhanced frame is too late. The pass
returns after processing at most n output slots: n + 1 evaluations of the loop condition
are enough. -/
theorem updateRenderListObserved_returns (window : List (Option Nat)) (cancelOk : Bool)
    (s : VPPProcessor) (hinv : OutputsHeld s) :
    1 ≤ s.mOutputBufferNum ∧
      ∃ r s2, updateRenderListObserved window cancelOk (s.mOutputBufferNum + 1) s =
        .ok (r, s2) := by
  have hn : 1 ≤ s.mOutputBufferNum := by
    have := hinv.2.1
    omega
  refine ⟨hn, ?_⟩
  by_cases hready : (s.mOutput s.mOutputLoadPoint).mStatus = VPP_BUFFER_READY
  · rcases updateRenderListBodyObserved_round window cancelOk s hinv hready with
      ⟨r, s1, h⟩ | ⟨s1, h, hinv1, hn1, hlp, hdone, _⟩
    · exact ⟨r, s1, updateRenderListObserved_fail window cancelOk _ s s1 r hready h⟩
    · rw [updateRenderListObserved_round window cancelOk _ s s1 hready h]
      have hres := updateRenderListObserved_reaches window cancelOk (s.mOutputBufferNum - 1)
        s1 hinv1 (by
          rw [hlp, hn1, mod_succ_add, Nat.sub_add_cancel hn, Nat.add_mod_right,
            Nat.mod_eq_of_lt hinv.2.1]
          exact hdone)
      rw [Nat.sub_add_cancel hn] at hres
      exact hres
  · exact ⟨VPP_OK, s, updateRenderListObserved_stop window cancelOk _ s hready⟩

/-- The amended C22 at `exAllReady` (capacity 3, every output slot READY, empty render list,
one reference on each buffer): the pass drops the three frames, each observer call resets
its slot to FREE, and the pass returns OK with four evaluations of the loop condition. -/
theorem updateRenderListObserved_returns_witness :
    exAllReady.mOutputBufferNum = 3 ∧ exAllReady.mRenderList = [] ∧
      (∀ i, i < 3 → (exAllReady.mOutput i).mStatus = VPP_BUFFER_READY) ∧
      (∃ s2, updateRenderListObserved [] true 4 exAllReady = .ok (VPP_OK, s2) ∧
        (s2.mOutput 0).mStatus = VPP_BUFFER_FREE ∧
        (s2.mOutput 1).mStatus = VPP_BUFFER_FREE ∧
        (s2.mOutput 2).mStatus = VPP_BUFFER_FREE ∧ s2.mRenderList = []) ∧
      1 ≤ exAllReady.mOutputBufferNum ∧
      ∃ r s2, updateRenderListObserved [] true (exAllReady.mOutputBufferNum + 1) exAllReady =
        .ok (r, s2) :=
  ⟨rfl, rfl, fun _ _ => rfl, ⟨_, rfl, rfl, rfl, rfl, rfl⟩,
    updateRenderListObserved_returns [] true exAllReady outputsHeld_exAllReady⟩

/-! ## A dropped frame, with the observer call -/

theorem slotsFreed_refl (s : VPPProcessor) : SlotsFreed s s := fun _ => Or.inl rfl

theorem slotsFreed_trans (s t u : VPPProcessor) (h1 : SlotsFreed s t) (h2 : SlotsFreed t u) :
    SlotsFreed s u := by
  intro j
  rcases h2 j with h | h
  · rcases h1 j with h3 | h3
    · exact Or.inl (h.trans h3)
    · exact Or.inr (h.trans h3)
  · exact Or.inr h

theorem slotsFreed_of_mOutput (s t : VPPProcessor) (h : t.mOutput = s.mOutput) :
    SlotsFreed s t := fun j => Or.inl (by rw [h])

theorem slotsFreed_resetOutputSlotOf (s : VPPProcessor) (p : Nat) (g : Nat → Option Nat) :
    SlotsFreed s (resetOutputSlotOf s p g) := by
  intro j
  unfold resetOutputSlotOf
  split
  · exact Or.inl rfl
  · rename_i i _
    by_cases hj : j = i
    · right
      rw [hj]
      simp [VPPBuffer.resetBuffer]
    · left
      show (Function.update s.mOutput i _ j).mStatus = _
      rw [Function.update_noteq hj]

theorem dequeueBufferFromNativeWindow_mOutput (window : List (Option Nat)) :
    ∀ (info : Option (Nat × Nat)) (s s2 : VPPProcessor) (r : Option Nat),
      dequeueBufferFromNativeWindow window info s = .ok (r, s2) → s2.mOutput = s.mOutput := by
  induction window with
  | nil =>
    intro info s s2 r h
    simp [dequeueBufferFromNativeWindow] at h
  | cons a rest ih =>
    intro info s s2 r h
    cases a with
    | none =>
      simp only [dequeueBufferFromNativeWindow, Except.ok.injEq, Prod.mk.injEq] at h
      rw [← h.2]
    | some hnd =>
      simp only [dequeueBufferFromNativeWindow] at h
      split at h
      · simp at h
      · split at h
        · simp only [Except.ok.injEq, Prod.mk.injEq] at h
          rw [← h.2]
        · rename_i i mediaBuffer _
          split at h
          · have hm := ih _ _ _ _ h
            exact hm
          · split at h
            · simp at h
            · simp only [Except.ok.injEq, Prod.mk.injEq] at h
              rw [← h.2]

theorem cancelBufferToNativeWindow_mOutput (cancelOk : Bool) (s : VPPProcessor) (p : Nat) :
    (cancelBufferToNativeWindow cancelOk s p).2.mOutput = s.mOutput := by
  unfold cancelBufferToNativeWindow
  split
  · rfl
  · split
    · rfl
    · split
      · rfl
      · rfl

theorem slotsFreed_signalBufferReturned (window : List (Option Nat)) (cancelOk : Bool)
    (s s' : VPPProcessor) (buff : Option Nat)
    (h : signalBufferReturned window cancelOk s buff = .ok s') : SlotsFreed s s' := by
  unfold signalBufferReturned at h
  split at h
  · simp only [Except.ok.injEq] at h
    rw [← h]
    exact slotsFreed_refl s
  · rename_i p
    dsimp only at h
    split at h
    · simp only [Except.ok.injEq] at h
      rw [← h]
      exact slotsFreed_refl s
    · rename_i info _
      split at h
      · split at h
        · split at h
          · simp at h
          · rename_i s2 hd
            simp only [Except.ok.injEq] at h
            rw [← h]
            have hm := dequeueBufferFromNativeWindow_mOutput window none _ s2 none hd
            exact slotsFreed_of_mOutput _ _ hm
          · rename_i m s2 hd
            simp only [Except.ok.injEq] at h
            rw [← h]
            have hm := dequeueBufferFromNativeWindow_mOutput window none _ s2 (some m) hd
            refine slotsFreed_trans _ s2 _ ?_ (slotsFreed_resetOutputSlotOf _ _ _)
            exact slotsFreed_of_mOutput _ _ hm
        · simp only [Except.ok.injEq] at h
          rw [← h]
          refine slotsFreed_trans _ _ _ ?_ (slotsFreed_resetOutputSlotOf _ _ _)
          exact slotsFreed_of_mOutput _ _ rfl
      · have hr : ∀ t : status_t × VPPProcessor, SlotsFreed s t.2 →
            (if t.1 ≠ VPP_OK then (Except.ok t.2 : Except Fault VPPProcessor)
              else .ok (resetOutputSlotOf
                { t.2 with
                  heap := setObserver t.2.heap p BufferObserver.null
                  mBufferInfos :=
                    setInfoStatus t.2.mBufferInfos info OWNED_BY_NATIVE_WINDOW }
                p fun _ => none)) = .ok s' →
            SlotsFreed s s' := by
          intro t ht hres
          split at hres
          · simp only [Except.ok.injEq] at hres
            rw [← hres]
            exact ht
          · simp only [Except.ok.injEq] at hres
            rw [← hres]
            refine slotsFreed_trans _ _ _ ?_ (slotsFreed_resetOutputSlotOf _ _ _)
            refine slotsFreed_trans _ _ _ ht ?_
            exact slotsFreed_of_mOutput _ _ rfl
        split at h
        · exact hr _ (slotsFreed_of_mOutput _ _
            (cancelBufferToNativeWindow_mOutput cancelOk s p)) h
        · exact hr (VPP_OK, s) (slotsFreed_refl s) h

theorem slotsFreed_releaseObserved (window : List (Option Nat)) (cancelOk : Bool)
    (s s' : VPPProcessor) (p : Nat) (h : releaseObserved window cancelOk s p = .ok s') :
    SlotsFreed s s' := by
  unfold releaseObserved at h
  split at h
  · split at h
    · simp only [Except.ok.injEq] at h
      rw [← h]
      exact slotsFreed_refl s
    · simp at h
  · split at h
    · simp only [Except.ok.injEq] at h
      rw [← h]
      exact slotsFreed_of_mOutput _ _ rfl
    · simp at h
  · split at h
    · refine slotsFreed_trans _ _ _ ?_
        (slotsFreed_signalBufferReturned window cancelOk _ s' _ h)
      exact slotsFreed_of_mOutput _ _ rfl
    · split at h
      · simp only [Except.ok.injEq] at h
        rw [← h]
        exact slotsFreed_of_mOutput _ _ rfl
      · simp at h

theorem slotsFreed_releaseIfHeldObserved (window : List (Option Nat)) (cancelOk : Bool)
    (s s' : VPPProcessor) (p : Nat) (h : releaseIfHeldObserved window cancelOk s p = .ok s') :
    SlotsFreed s s' := by
  unfold releaseIfHeldObserved at h
  split at h
  · exact slotsFreed_releaseObserved window cancelOk s s' p h
  · simp only [Except.ok.injEq] at h
    rw [← h]
    exact slotsFreed_refl s

theorem updateRenderListPlaceObserved_tooLate (window : List (Option Nat)) (cancelOk : Bool)
    (s1 : VPPProcessor) (buff it : Nat) (t tl : Int)
    (hc : s1.mRenderList = [] ∨ it = s1.mRenderList.length ∨ (it = 0 ∧ t < tl)) :
    updateRenderListPlaceObserved window cancelOk s1 buff t it tl =
      match releaseIfHeldObserved window cancelOk s1 buff with
      | .error f => .error f
      | .ok s2 => advanceOutput s2 := by
  unfold updateRenderListPlaceObserved
  rw [if_pos hc]

/-- C4: too late. The slot at the output load pointer is READY with a set timestamp `t` and
bound to buffer `buff`, which is not in the render list. If the list is empty, or the scan
goes past every entry and reaches the end, or the rate factor is above 1 and the head has a
set timestamp strictly above `t` (the scan stops at the head), then the round drops the
buffer: the render list is exactly as before, the slot is not marked RENDERING, and the
enhanced-frame and rendered-frame counters are unchanged. This holds for the round with the
release as the decrement of the reference counter, which returns, and for the round with
the observer call of the release, which returns with the same properties unless the release
itself stops the call. -/
theorem updateRenderListBody_tooLate (s : VPPProcessor) (buff : Nat)
    (hnum : 0 < s.mOutputBufferNum)
    (hready : (s.mOutput s.mOutputLoadPoint).mStatus = VPP_BUFFER_READY)
    (hbuf : findMediaBuffer s (s.mOutput s.mOutputLoadPoint) = some buff)
    (hset : (s.mOutput s.mOutputLoadPoint).mTimeUs ≠ -1)
    (hfresh : some buff ∉ s.mRenderList)
    (hcase : s.mRenderList = [] ∨
      (∀ e ∈ s.mRenderList, scanPasses s (s.mOutput s.mOutputLoadPoint).mTimeUs e) ∨
      (∃ x rest, s.mRenderList = some x :: rest ∧ FRC_RATE_1X < s.mWorker.mFrcRate ∧
        getBufferTimestamp s (some x) ≠ -1 ∧
        (s.mOutput s.mOutputLoadPoint).mTimeUs < getBufferTimestamp s (some x))) :
    (∃ s', updateRenderListBody s = .ok (none, s') ∧
      s'.mRenderList = s.mRenderList ∧
      (s'.mOutput s.mOutputLoadPoint).mStatus ≠ VPP_BUFFER_RENDERING ∧
      s'.mVPPProcCount = s.mVPPProcCount ∧
      s'.mVPPRenderCount = s.mVPPRenderCount) ∧
    ∀ window cancelOk,
      (∃ f, releaseIfHeldObserved window cancelOk
            (stampBuffer s buff (s.mOutput s.mOutputLoadPoint).mTimeUs) buff = .error f ∧
          updateRenderListBodyObserved window cancelOk s = .error f) ∨
      ∃ s', updateRenderListBodyObserved window cancelOk s = .ok (none, s') ∧
        s'.mRenderList = s.mRenderList ∧
        (s'.mOutput s.mOutputLoadPoint).mStatus ≠ VPP_BUFFER_RENDERING ∧
        s'.mVPPProcCount = s.mVPPProcCount ∧
        s'.mVPPRenderCount = s.mVPPRenderCount := by
  have hne : s.mOutputBufferNum ≠ 0 := by omega
  obtain ⟨it, tl, hs, hc⟩ := scanRenderList_tooLate s buff hfresh hcase
  have hbody : updateRenderListBody s = .ok (none,
      { stampBuffer s buff (s.mOutput s.mOutputLoadPoint).mTimeUs with
        heap := releaseIfHeld
          (stampBuffer s buff (s.mOutput s.mOutputLoadPoint).mTimeUs).heap buff
        mOutputLoadPoint := (s.mOutputLoadPoint + 1) % s.mOutputBufferNum }) := by
    rw [updateRenderListBody_eq s buff it tl hbuf hset hs]
    exact updateRenderListPlace_drop _ buff it _ tl hne hc
  have hnot : (s.mOutput s.mOutputLoadPoint).mStatus ≠ VPP_BUFFER_RENDERING := by
    rw [hready]
    decide
  refine ⟨⟨_, hbody, rfl, hnot, rfl, rfl⟩, ?_⟩
  intro window cancelOk
  have hc1 : (stampBuffer s buff (s.mOutput s.mOutputLoadPoint).mTimeUs).mRenderList = [] ∨
      it = (stampBuffer s buff (s.mOutput s.mOutputLoadPoint).mTimeUs).mRenderList.length ∨
      (it = 0 ∧ (s.mOutput s.mOutputLoadPoint).mTimeUs < tl) := hc
  rw [updateRenderListBodyObserved_eq window cancelOk s buff it tl hbuf hset hs,
    updateRenderListPlaceObserved_tooLate window cancelOk
      (stampBuffer s buff (s.mOutput s.mOutputLoadPoint).mTimeUs) buff it _ tl hc1]
  rcases hrel : releaseIfHeldObserved window cancelOk
      (stampBuffer s buff (s.mOutput s.mOutputLoadPoint).mTimeUs) buff with f | s2
  · exact Or.inl ⟨f, rfl, rfl⟩
  · right
    obtain ⟨_, hl, _, _, _, hn, _, _, hpc, hrc⟩ :=
      releaseFrame_releaseIfHeldObserved window cancelOk _ s2 buff hrel
    have hst := slotsFreed_releaseIfHeldObserved window cancelOk _ s2 buff hrel
      s.mOutputLoadPoint
    have hne2 : s2.mOutputBufferNum ≠ 0 := fun h0 => hne (hn.symm.trans h0)
    refine ⟨{ s2 with mOutputLoadPoint := (s2.mOutputLoadPoint + 1) % s2.mOutputBufferNum },
      ?_, hl, ?_, hpc, hrc⟩
    · show advanceOutput s2 = _
      unfold advanceOutput
      rw [if_neg hne2]
    · show (s2.mOutput s.mOutputLoadPoint).mStatus ≠ VPP_BUFFER_RENDERING
      rcases hst with h1 | h1
      · rw [h1]
        exact hnot
      · rw [h1]
        decide

/-- Witness for C4 (Scenario C): the head of the list has timestamp 50 (buffer 7), the
enhanced frame has timestamp 20 (buffer 4, observed by the processor, one reference), rate
factor 2. The round with the observer call returns: the list is as before, the observer
call has reset the slot to FREE and taken the reference again. -/
theorem updateRenderListBody_tooLate_witness :
    (∃ s', updateRenderListBodyObserved [] true exCObserved = .ok (none, s') ∧
      s'.mRenderList = [some 7] ∧ (s'.mOutput 0).mStatus = VPP_BUFFER_FREE ∧
      (s'.heap 4).mRefCount = 1) ∧
    (∃ s', updateRenderListBody exCObserved = .ok (none, s') ∧
      s'.mRenderList = exCObserved.mRenderList ∧
      (s'.mOutput exCObserved.mOutputLoadPoint).mStatus ≠ VPP_BUFFER_RENDERING ∧
      s'.mVPPProcCount = exCObserved.mVPPProcCount ∧
      s'.mVPPRenderCount = exCObserved.mVPPRenderCount) ∧
    ∀ window cancelOk,
      (∃ f, releaseIfHeldObserved window cancelOk
            (stampBuffer exCObserved 4
              (exCObserved.mOutput exCObserved.mOutputLoadPoint).mTimeUs) 4 = .error f ∧
          updateRenderListBodyObserved window cancelOk exCObserved = .error f) ∨
      ∃ s', updateRenderListBodyObserved window cancelOk exCObserved = .ok (none, s') ∧
        s'.mRenderList = exCObserved.mRenderList ∧
        (s'.mOutput exCObserved.mOutputLoadPoint).mStatus ≠ VPP_BUFFER_RENDERING ∧
        s'.mVPPProcCount = exCObserved.mVPPProcCount ∧
        s'.mVPPRenderCount = exCObserved.mVPPRenderCount :=
  ⟨⟨_, rfl, rfl, rfl, rfl⟩,
    updateRenderListBody_tooLate exCObserved 4 (by decide) (by decide) (by decide)
      (by decide) (by decide) (Or.inr (Or.inr ⟨7, [], rfl, by decide, by decide, by decide⟩))⟩

end VPP
